import Mathlib

/-!
Verification of the go-crypto-analyzer backtesting core.

This file is a shallow embedding, over exact rational arithmetic, of the
indicator engine (`pkg/indicators/technical.go`), the trend analyzer
(`pkg/analysis/trend.go`), the evidence aggregator
(`pkg/analysis/evidence.go`), the strategy variants
(`pkg/backtest/strategy.go`, `pkg/backtest/strategy_v2.go`) and the two
backtest simulators (`Backtester.RunBacktest` and
`BacktesterV2.RunBacktestV2`, `pkg/backtest/backtest.go` /
`backtest_v2.go`).

Modelling conventions:
* Go `float64` values are modelled as `ℚ` (exact arithmetic).  Division by
  zero is `0` in `ℚ`; every division reachable in the properties proved
  below is either guarded in the Go source or has a nonzero denominator by
  hypothesis.
* Go `time.Time` fields are opaque for the core logic and are modelled as
  `ℕ` tags carried through unchanged.
* Go string maps (`Resistance["R1"]` …) are modelled as named structure
  fields; `Evidence.Description` (a purely presentational `fmt.Sprintf`
  string) is dropped, and formatted reason strings are modelled by their
  constant prefix.
* The two places the Go code leaves the rational fragment are
  `ImprovedBidirectionalStrategy.calculateVolatility` (natural logarithm
  and square root, feeding only the market-regime string) and
  `calculateBollingerBands` (square root, feeding only one confirmation
  in the improved entry checks); these two values are taken as explicit
  parameters (oracles) of the embedded simulator, and all theorems about
  the improved strategy quantify over them.  `SharpeRatio` (square root)
  is likewise omitted from the embedded result records; no claim below
  mentions it.
-/

namespace Spec2Proof

/-! ## Data model (`pkg/types/types.go`) -/

/-- One OHLCV candle. -/
structure OHLCV where
  time : ℕ
  openP : ℚ
  high : ℚ
  low : ℚ
  close : ℚ
  volume : ℚ
deriving DecidableEq

instance : Inhabited OHLCV := ⟨⟨0, 0, 0, 0, 0, 0⟩⟩

/-- `types.TrendDirection` (a Go string enum). -/
inductive TrendDirection
  | strongUptrend | uptrend | sideways | downtrend | strongDowntrend
deriving DecidableEq

/-- `types.MAAnalysis`. -/
structure MAAnalysis where
  ma5 : ℚ
  ma10 : ℚ
  ma20 : ℚ
  ma50 : ℚ
  ma200 : ℚ
  currentPrice : ℚ
  trend : TrendDirection
  score : ℚ
deriving DecidableEq

/-- `types.MACDAnalysis`. -/
structure MACDAnalysis where
  macd : ℚ
  signalLine : ℚ
  histogram : ℚ
  trend : String
  divergence : String
deriving DecidableEq

/-- `types.MomentumAnalysis`. -/
structure MomentumAnalysis where
  rsi : ℚ
  momentum : String
deriving DecidableEq

/-- `types.TrendStrengthAnalysis`. -/
structure TrendStrengthAnalysis where
  adx : ℚ
  strength : String
deriving DecidableEq

/-- `types.VolumeAnalysis`. -/
structure VolumeAnalysis where
  currentVolume : ℚ
  volumeMA : ℚ
  volumeRatio : ℚ
  volumeTrend : String
deriving DecidableEq

/-- `types.SRAnalysis`; the Go `Resistance` / `Support` maps hold exactly the
keys `R1`,`R2`,`R3` and `S1`,`S2`,`S3`, modelled as fields. -/
structure SRAnalysis where
  pivot : ℚ
  r1 : ℚ
  r2 : ℚ
  r3 : ℚ
  s1 : ℚ
  s2 : ℚ
  s3 : ℚ
deriving DecidableEq

/-- `types.Analysis` (the `Symbol` string, set by callers only, is dropped). -/
structure Analysis where
  currentPrice : ℚ
  timestamp : ℕ
  overallTrend : TrendDirection
  trendScore : ℚ
  maAnalysis : MAAnalysis
  macdAnalysis : MACDAnalysis
  momentum : MomentumAnalysis
  trendStrength : TrendStrengthAnalysis
  volume : VolumeAnalysis
  supportResistance : SRAnalysis
deriving DecidableEq

/-! ## Indicator engine (`pkg/indicators/technical.go`) -/

/-- `TechnicalIndicators.SMA`.  The Go loop keeps a running sum; in exact
arithmetic the entry at index `i ≥ period-1` is the mean of the trailing
`period` values, which is how we write it.  Entries before `period-1` are the
zero sentinel, and a series shorter than `period` yields an all-zero slice. -/
def sma (data : List ℚ) (period : ℕ) : List ℚ :=
  if data.length < period then List.replicate data.length 0
  else (List.range data.length).map fun i =>
    if i + 1 < period then 0
    else ((data.drop (i + 1 - period)).take period).sum / (period : ℚ)

/-- One step of the EMA recurrence `ema[i] = (data[i]-ema[i-1])*mult + ema[i-1]`. -/
def emaStep (mult prev x : ℚ) : ℚ := (x - prev) * mult + prev

/-- `TechnicalIndicators.EMA`: zero sentinels before index `period-1`, the
SMA of the first `period` points at index `period-1`, then the recurrence
with multiplier `2/(period+1)`. -/
def ema (data : List ℚ) (period : ℕ) : List ℚ :=
  if data.length < period then List.replicate data.length 0
  else
    List.replicate (period - 1) 0 ++
      List.scanl (emaStep (2 / ((period : ℚ) + 1)))
        ((data.take period).sum / (period : ℚ)) (data.drop period)

/-- `TechnicalIndicators.MACD`.  Returns the zero-value struct (empty trend
string) when the series is shorter than `slow`. -/
def macdIndicator (data : List ℚ) (fast slow signal : ℕ) : MACDAnalysis :=
  if data.length < slow then ⟨0, 0, 0, "", ""⟩
  else
    let emaFast := ema data fast
    let emaSlow := ema data slow
    let macdLine := (List.range data.length).map fun i =>
      if slow - 1 ≤ i then emaFast.getD i 0 - emaSlow.getD i 0 else 0
    let signalL := ema (macdLine.drop (slow - 1)) signal
    let latestMACD := macdLine.getLastD 0
    let latestSignal := if 0 < signalL.length then signalL.getLastD 0 else 0
    let histogram := latestMACD - latestSignal
    let trend :=
      if latestSignal < latestMACD then (if 0 < histogram then "看涨" else "中性")
      else (if histogram < 0 then "看跌" else "中性")
    ⟨latestMACD, latestSignal, histogram, trend, "无背离"⟩

/-- The per-candle price changes `data[i] - data[i-1]`, for `i = 1, …`. -/
def rsiChanges (data : List ℚ) : List ℚ :=
  List.zipWith (fun a b => a - b) (data.drop 1) data

/-- One change of the initial gain/loss accumulation of
`TechnicalIndicators.RSI`. -/
def rsiInitStep (acc : ℚ × ℚ) (change : ℚ) : ℚ × ℚ :=
  if 0 < change then (acc.1 + change, acc.2) else (acc.1, acc.2 + |change|)

/-- Initial average gain/loss of `TechnicalIndicators.RSI`: the first
`period` changes, gains and absolute losses summed separately, divided by
`period`. -/
def rsiInitAvg (changes : List ℚ) (period : ℕ) : ℚ × ℚ :=
  let gl := (changes.take period).foldl rsiInitStep (0, 0)
  (gl.1 / (period : ℚ), gl.2 / (period : ℚ))

/-- One change of the Wilder smoothing update
`avg = (avg*(period-1) + newValue) / period`. -/
def rsiSmoothStep (period : ℕ) (acc : ℚ × ℚ) (change : ℚ) : ℚ × ℚ :=
  if 0 < change then
    ((acc.1 * ((period : ℚ) - 1) + change) / (period : ℚ),
     acc.2 * ((period : ℚ) - 1) / (period : ℚ))
  else
    (acc.1 * ((period : ℚ) - 1) / (period : ℚ),
     (acc.2 * ((period : ℚ) - 1) + |change|) / (period : ℚ))

/-- Wilder smoothing loop of `TechnicalIndicators.RSI` over the remaining
changes. -/
def rsiSmooth (period : ℕ) (init : ℚ × ℚ) (rest : List ℚ) : ℚ × ℚ :=
  rest.foldl (rsiSmoothStep period) init

/-- The smoothed (average gain, average loss) pair used by `RSI`. -/
def rsiAvgs (data : List ℚ) (period : ℕ) : ℚ × ℚ :=
  rsiSmooth period (rsiInitAvg (rsiChanges data) period) ((rsiChanges data).drop period)

/-- `TechnicalIndicators.RSI`: neutral `50` when the series is shorter than
`period+1`; `100` when the smoothed average loss is zero; otherwise
`100 - 100/(1 + avgGain/avgLoss)`. -/
def rsi (data : List ℚ) (period : ℕ) : ℚ :=
  if data.length < period + 1 then 50
  else
    let a := rsiAvgs data period
    if a.2 = 0 then 100 else 100 - 100 / (1 + a.1 / a.2)

/-- True ranges of `TechnicalIndicators.ADX` (index 0 stays 0). -/
def trList (high low close : List ℚ) : List ℚ :=
  (List.range high.length).map fun i =>
    if i = 0 then 0
    else
      max (high.getD i 0 - low.getD i 0)
        (max |high.getD i 0 - close.getD (i - 1) 0| |low.getD i 0 - close.getD (i - 1) 0|)

/-- Positive directional movements of `ADX`. -/
def plusDMList (high low : List ℚ) : List ℚ :=
  (List.range high.length).map fun i =>
    if i = 0 then 0
    else
      let upMove := high.getD i 0 - high.getD (i - 1) 0
      let downMove := low.getD (i - 1) 0 - low.getD i 0
      if downMove < upMove ∧ 0 < upMove then upMove else 0

/-- Negative directional movements of `ADX`. -/
def minusDMList (high low : List ℚ) : List ℚ :=
  (List.range high.length).map fun i =>
    if i = 0 then 0
    else
      let upMove := high.getD i 0 - high.getD (i - 1) 0
      let downMove := low.getD (i - 1) 0 - low.getD i 0
      if upMove < downMove ∧ 0 < downMove then downMove else 0

/-- `TechnicalIndicators.ADX`.  The Go code fills the `plusDI`/`minusDI`
arrays only under the guard `len(atr) > 0 && atr[last] != 0`, and each entry
additionally under `i < len(atr) && atr[i] != 0`; entries not filled stay 0.
Both guards appear below as one conjunction per entry. -/
def adx (high low close : List ℚ) (period : ℕ) : ℚ :=
  if high.length < period * 2 ∨ low.length < period * 2 ∨ close.length < period * 2 then 0
  else
    let tr := trList high low close
    let plusDM := plusDMList high low
    let minusDM := minusDMList high low
    let atr := sma (tr.drop 1) period
    let smoothedPlusDM := sma (plusDM.drop 1) period
    let smoothedMinusDM := sma (minusDM.drop 1) period
    let plusDI := (List.range plusDM.length).map fun i =>
      if 0 < atr.length ∧ atr.getLastD 0 ≠ 0 ∧ i < smoothedPlusDM.length ∧
          i < atr.length ∧ atr.getD i 0 ≠ 0
      then 100 * smoothedPlusDM.getD i 0 / atr.getD i 0 else 0
    let minusDI := (List.range minusDM.length).map fun i =>
      if 0 < atr.length ∧ atr.getLastD 0 ≠ 0 ∧ i < smoothedMinusDM.length ∧
          i < atr.length ∧ atr.getD i 0 ≠ 0
      then 100 * smoothedMinusDM.getD i 0 / atr.getD i 0 else 0
    let dx := (List.range plusDI.length).map fun i =>
      let s := plusDI.getD i 0 + minusDI.getD i 0
      if s ≠ 0 then 100 * |plusDI.getD i 0 - minusDI.getD i 0| / s else 0
    let adxValues := sma dx period
    if 0 < adxValues.length then adxValues.getLastD 0 else 0

/-- `TechnicalIndicators.VolumeAnalysis`. -/
def volumeAnalysisOf (volume : List ℚ) (period : ℕ) : VolumeAnalysis :=
  if volume.length < period then ⟨0, 0, 0, "数据不足"⟩
  else
    let volumeMA := sma volume period
    let currentVolume := volume.getLastD 0
    let avgVolume := volumeMA.getLastD 0
    let volumeRatio := if 0 < avgVolume then currentVolume / avgVolume else 0
    let volumeTrend :=
      if 2 < volumeRatio then "放量" else if volumeRatio < 1/2 then "缩量" else "正常量能"
    ⟨currentVolume, avgVolume, volumeRatio, volumeTrend⟩

/-- `TechnicalIndicators.PivotPoints` (classic floor-trader formulas). -/
def pivotPoints (high low close : ℚ) : SRAnalysis :=
  let pivot := (high + low + close) / 3
  { pivot := pivot
    r1 := 2 * pivot - low
    r2 := pivot + (high - low)
    r3 := high + 2 * (pivot - low)
    s1 := 2 * pivot - high
    s2 := pivot - (high - low)
    s3 := low - 2 * (high - pivot) }

/-! ## Trend analyzer (`pkg/analysis/trend.go`) -/

/-- `getLastValue`: the last entry if the slice has at least `minLength`
entries, `0` otherwise. -/
def getLastValue (slice : List ℚ) (minLength : ℕ) : ℚ :=
  if minLength ≤ slice.length then slice.getLastD 0 else 0

/-- `extractCloses`. -/
def extractCloses (data : List OHLCV) : List ℚ := data.map (·.close)

/-- `extractHighs`. -/
def extractHighs (data : List OHLCV) : List ℚ := data.map (·.high)

/-- `extractLows`. -/
def extractLows (data : List OHLCV) : List ℚ := data.map (·.low)

/-- `extractVolumes`. -/
def extractVolumes (data : List OHLCV) : List ℚ := data.map (·.volume)

/-- `TrendAnalyzer.classifyMAScore`. -/
def classifyMAScore (score : ℚ) : TrendDirection :=
  if 3/4 < score then .strongUptrend
  else if 1/4 < score then .uptrend
  else if -(1/4) < score then .sideways
  else if -(3/4) < score then .downtrend
  else .strongDowntrend

/-- `TrendAnalyzer.analyzeMovingAverages`. -/
def analyzeMovingAverages (closes : List ℚ) : MAAnalysis :=
  let ma5 := sma closes 5
  let ma10 := sma closes 10
  let ma20 := sma closes 20
  let ma50 := sma closes 50
  let ma200 := sma closes 200
  let currentPrice := closes.getLastD 0
  let lastMA5 := getLastValue ma5 5
  let lastMA10 := getLastValue ma10 10
  let lastMA20 := getLastValue ma20 20
  let lastMA50 := getLastValue ma50 50
  let lastMA200 := getLastValue ma200 200
  let signals : ℚ :=
    (if lastMA5 < currentPrice then 1 else -1) +
    (if lastMA10 < lastMA5 then 1 else -1) +
    (if lastMA20 < lastMA10 then 1 else -1) +
    (if lastMA50 < lastMA20 then 1 else -1)
  let score := signals / 4
  { ma5 := lastMA5, ma10 := lastMA10, ma20 := lastMA20, ma50 := lastMA50
    ma200 := lastMA200, currentPrice := currentPrice
    trend := classifyMAScore score, score := score }

/-- `TrendAnalyzer.analyzeMomentum`. -/
def analyzeMomentum (rsiVal : ℚ) : MomentumAnalysis :=
  { rsi := rsiVal
    momentum :=
      if 70 < rsiVal then "超买"
      else if 60 < rsiVal then "强势"
      else if rsiVal < 30 then "超卖"
      else if rsiVal < 40 then "弱势"
      else "中性" }

/-- `TrendAnalyzer.analyzeTrendStrength`. -/
def analyzeTrendStrength (adxVal : ℚ) : TrendStrengthAnalysis :=
  { adx := adxVal
    strength :=
      if 50 < adxVal then "非常强"
      else if 35 < adxVal then "强"
      else if 20 < adxVal then "中等"
      else if 10 < adxVal then "弱"
      else "无趋势" }

/-- `TrendAnalyzer.determineOverallTrend`. -/
def determineOverallTrend (ma : MAAnalysis) (macd : MACDAnalysis)
    (momentum : MomentumAnalysis) : TrendDirection × ℚ :=
  let s1 : ℚ :=
    if ma.trend = .strongUptrend ∨ ma.trend = .uptrend then 2
    else if ma.trend = .strongDowntrend ∨ ma.trend = .downtrend then -2
    else 0
  let s2 : ℚ := if macd.trend = "看涨" then 1 else if macd.trend = "看跌" then -1 else 0
  let s3 : ℚ :=
    if momentum.momentum = "超买" ∨ momentum.momentum = "强势" then 1
    else if momentum.momentum = "超卖" ∨ momentum.momentum = "弱势" then -1
    else 0
  let trendScore := s1 + s2 + s3
  let overall : TrendDirection :=
    if 3 ≤ trendScore then .strongUptrend
    else if 1 ≤ trendScore then .uptrend
    else if -1 < trendScore then .sideways
    else if -3 < trendScore then .downtrend
    else .strongDowntrend
  (overall, trendScore)

/-- The analysis snapshot `AnalyzeComprehensive` builds once its length
guard has passed. -/
def analysisOf (data : List OHLCV) : Analysis :=
  let closes := extractCloses data
  let highs := extractHighs data
  let lows := extractLows data
  let volumes := extractVolumes data
  let maAnalysis := analyzeMovingAverages closes
  let macdAnalysis := macdIndicator closes 12 26 9
  let momentumAnalysis := analyzeMomentum (rsi closes 14)
  let trendStrength := analyzeTrendStrength (adx highs lows closes 14)
  let volumeAnalysis := volumeAnalysisOf volumes 20
  let lastCandle := data.getLastD default
  let srAnalysis := pivotPoints lastCandle.high lastCandle.low lastCandle.close
  let ot := determineOverallTrend maAnalysis macdAnalysis momentumAnalysis
  { currentPrice := closes.getLastD 0
    timestamp := lastCandle.time
    overallTrend := ot.1
    trendScore := ot.2
    maAnalysis := maAnalysis
    macdAnalysis := macdAnalysis
    momentum := momentumAnalysis
    trendStrength := trendStrength
    volume := volumeAnalysis
    supportResistance := srAnalysis }

/-- `TrendAnalyzer.AnalyzeComprehensive`: `none` models the Go error return
for fewer than 50 candles; otherwise the full analysis snapshot. -/
def analyzeComprehensive (data : List OHLCV) : Option Analysis :=
  if data.length < 50 then none else some (analysisOf data)

/-! ## Evidence aggregator (`pkg/analysis/evidence.go`)

Each `AnalyzeXxxEvidence` method appends to the collector; here each one
returns the list of items it appends, in order.  `Evidence.Description` and
`Evidence.Data` are presentational and dropped. -/

/-- `types.EvidenceType`. -/
inductive EvidenceType
  | bullish | bearish | neutral | warning
deriving DecidableEq

/-- One appended evidence item (type, category, signed strength). -/
structure Evidence where
  etype : EvidenceType
  category : String
  strength : ℚ
deriving DecidableEq

/-- `EvidenceCollector.AnalyzeMAEvidence`. -/
def analyzeMAEvidence (ma : MAAnalysis) (currentPrice : ℚ) : List Evidence :=
  (if ma.ma5 < currentPrice then [⟨.bullish, "移动平均线", 3/10⟩]
   else [⟨.bearish, "移动平均线", -(3/10)⟩]) ++
  (if ma.ma20 < ma.ma5 then [⟨.bullish, "移动平均线", 2/5⟩]
   else [⟨.bearish, "移动平均线", -(2/5)⟩]) ++
  (if ma.ma5 < currentPrice ∧ ma.ma10 < ma.ma5 ∧ ma.ma20 < ma.ma10 ∧ ma.ma50 < ma.ma20 then
     [⟨.bullish, "移动平均线", 4/5⟩]
   else if currentPrice < ma.ma5 ∧ ma.ma5 < ma.ma10 ∧ ma.ma10 < ma.ma20 ∧ ma.ma20 < ma.ma50 then
     [⟨.bearish, "移动平均线", -(4/5)⟩]
   else [])

/-- `EvidenceCollector.AnalyzeMACDEvidence`: the MACD-vs-signal cross item
(±0.5) followed by the histogram-magnitude item (±0.4) when the histogram
clears `±macd*0.1` (the *signed* tenth of the MACD value, exactly as the Go
comparisons `Histogram > MACD*0.1` and `-Histogram > -MACD*0.1` read). -/
def analyzeMACDEvidence (m : MACDAnalysis) : List Evidence :=
  (if m.signalLine < m.macd then [⟨.bullish, "MACD", 1/2⟩]
   else [⟨.bearish, "MACD", -(1/2)⟩]) ++
  (if 0 < m.histogram ∧ m.macd * (1/10) < m.histogram then [⟨.bullish, "MACD", 2/5⟩]
   else if m.histogram < 0 ∧ -m.macd * (1/10) < -m.histogram then [⟨.bearish, "MACD", -(2/5)⟩]
   else [])

/-- `EvidenceCollector.AnalyzeRSIEvidence`. -/
def analyzeRSIEvidence (rsiVal : ℚ) : List Evidence :=
  if 70 < rsiVal then [⟨.warning, "RSI", -(3/10)⟩]
  else if 60 < rsiVal then [⟨.bullish, "RSI", 3/10⟩]
  else if rsiVal < 30 then [⟨.warning, "RSI", 3/10⟩]
  else if rsiVal < 40 then [⟨.bearish, "RSI", -(3/10)⟩]
  else [⟨.neutral, "RSI", 0⟩]

/-- `EvidenceCollector.AnalyzeVolumeEvidence`. -/
def analyzeVolumeEvidence (v : VolumeAnalysis) (priceChange : ℚ) : List Evidence :=
  if 2 < v.volumeRatio ∧ 0 < priceChange then [⟨.bullish, "成交量", 3/5⟩]
  else if 2 < v.volumeRatio ∧ priceChange < 0 then [⟨.bearish, "成交量", -(3/5)⟩]
  else if v.volumeRatio < 1/2 ∧ 0 < priceChange then [⟨.warning, "成交量", -(1/5)⟩]
  else if v.volumeRatio < 1/2 ∧ priceChange < 0 then [⟨.neutral, "成交量", 1/5⟩]
  else []

/-- `EvidenceCollector.AnalyzeSREvidence`. -/
def analyzeSREvidence (currentPrice : ℚ) (sr : SRAnalysis) : List Evidence :=
  let distanceToR1 := (sr.r1 - currentPrice) / currentPrice * 100
  let distanceToS1 := (currentPrice - sr.s1) / currentPrice * 100
  (if distanceToR1 < 1 then [⟨.warning, "支撑阻力", -(3/10)⟩] else []) ++
  (if distanceToS1 < 1 then [⟨.warning, "支撑阻力", 3/10⟩] else []) ++
  (if sr.pivot < currentPrice then [⟨.bullish, "支撑阻力", 1/5⟩]
   else [⟨.bearish, "支撑阻力", -(1/5)⟩])

/-- `EvidenceCollector.GetSummary()["totalStrength"]`: the sum of the
strengths of all collected items. -/
def totalStrength (evs : List Evidence) : ℚ := (evs.map (·.strength)).sum

/-! ## Strategy interface and the four concrete variants
(`pkg/backtest/strategy.go`)

The Go interface methods receive the whole `evidenceSummary` map; every
implementation reads only `summary["totalStrength"]`, so the embedding
passes that single rational.  `ShouldEnter` may mutate the strategy value
(only `ComboAdaptiveStrategy` actually does, via its `currentMode` field),
so it returns an updated strategy state of type `σ`. -/

/-- `TradingStrategy` as a record of the four operations over a mutable
strategy state `σ`: arguments are (state, analysis, totalStrength, position)
for entry, (state, analysis, totalStrength, position, entryPrice) for exit,
and (state, entryPrice, analysis) for the stop/target computations. -/
structure TradingStrategyS (σ : Type) where
  shouldEnter : σ → Analysis → ℚ → ℚ → Bool × String × σ
  shouldExit : σ → Analysis → ℚ → ℚ → ℚ → Bool × String
  getStopLoss : σ → ℚ → Analysis → ℚ
  getTakeProfit : σ → ℚ → Analysis → ℚ

/-- `TrendFollowingStrategy` with the `NewTrendFollowingStrategy` constants
(minADX 25, minVolumeRatio 1.2, entryThreshold 0.8, exitThreshold −0.3);
it carries no mutable state. -/
def trendFollowingStrategy : TradingStrategyS Unit where
  shouldEnter := fun s a ts position =>
    if 0 < position then (false, "", s)
    else if ts ≤ 4/5 then (false, "", s)
    else if a.trendStrength.adx < 25 then (false, "", s)
    else if a.volume.volumeRatio < 6/5 then (false, "", s)
    else if a.currentPrice < a.maAnalysis.ma20 then (false, "", s)
    else if 75 < a.momentum.rsi then (false, "", s)
    else if a.macdAnalysis.trend ≠ "看涨" then (false, "", s)
    else (true, "趋势买入", s)
  shouldExit := fun _ a ts position entryPrice =>
    if position ≤ 0 then (false, "")
    else if ts < -(3/10) then (true, "趋势反转")
    else if a.currentPrice < a.maAnalysis.ma20 then (true, "跌破MA20")
    else if a.macdAnalysis.trend = "看跌" ∧ a.macdAnalysis.histogram < 0 then (true, "MACD死叉")
    else if 3 < a.volume.volumeRatio ∧ a.currentPrice < entryPrice then (true, "放量下跌")
    else (false, "")
  getStopLoss := fun _ entryPrice a =>
    let stopLoss := a.maAnalysis.ma20
    let maxLoss := entryPrice * (95/100)
    if stopLoss < maxLoss then maxLoss else stopLoss
  getTakeProfit := fun _ entryPrice a =>
    let r1 := a.supportResistance.r1
    let minProfit := entryPrice * (105/100)
    if r1 < minProfit then minProfit else r1

/-- `MomentumBreakoutStrategy` with the `NewMomentumBreakoutStrategy`
constants (rsiThreshold 60, volumeThreshold 2). -/
def momentumBreakoutStrategy : TradingStrategyS Unit where
  shouldEnter := fun s a _ position =>
    if 0 < position then (false, "", s)
    else if a.momentum.rsi < 60 ∨ 80 < a.momentum.rsi then (false, "", s)
    else if a.volume.volumeRatio < 2 then (false, "", s)
    else if a.macdAnalysis.histogram ≤ 0 then (false, "", s)
    else if a.currentPrice ≤ a.maAnalysis.ma5 ∨ a.currentPrice ≤ a.maAnalysis.ma10 ∨
        a.currentPrice ≤ a.maAnalysis.ma20 then (false, "", s)
    else (true, "动量突破", s)
  shouldExit := fun _ a _ position _ =>
    if position ≤ 0 then (false, "")
    else if 80 < a.momentum.rsi then (true, "RSI超买")
    else if a.momentum.rsi < 50 then (true, "动量衰竭")
    else if a.macdAnalysis.histogram < 0 then (true, "MACD转负")
    else if a.currentPrice < a.maAnalysis.ma5 then (true, "跌破MA5")
    else (false, "")
  getStopLoss := fun _ entryPrice a =>
    let stopLoss := a.maAnalysis.ma5
    let maxLoss := entryPrice * (97/100)
    if stopLoss < maxLoss then maxLoss else stopLoss
  getTakeProfit := fun _ entryPrice _ => entryPrice * (106/100)

/-- `MeanReversionStrategy` with the `NewMeanReversionStrategy` constants
(oversoldRSI 30). -/
def meanReversionStrategy : TradingStrategyS Unit where
  shouldEnter := fun s a _ position =>
    if 0 < position then (false, "", s)
    else if 30 ≤ a.momentum.rsi then (false, "", s)
    else if -(3/100) < (a.currentPrice - a.maAnalysis.ma20) / a.maAnalysis.ma20 then (false, "", s)
    else if 25 < a.trendStrength.adx then (false, "", s)
    else if a.supportResistance.s1 * (101/100) < a.currentPrice then (false, "", s)
    else (true, "超卖反弹", s)
  shouldExit := fun _ a _ position entryPrice =>
    if position ≤ 0 then (false, "")
    else if a.maAnalysis.ma20 ≤ a.currentPrice then (true, "回归MA20")
    else if 50 < a.momentum.rsi then (true, "RSI恢复")
    else if a.supportResistance.r1 * (99/100) ≤ a.currentPrice then (true, "接近阻力")
    else if entryPrice * (103/100) ≤ a.currentPrice then (true, "达到止盈")
    else (false, "")
  getStopLoss := fun _ _ a => a.supportResistance.s2
  getTakeProfit := fun _ entryPrice a =>
    let target := a.maAnalysis.ma20
    let minProfit := entryPrice * (103/100)
    if target < minProfit then minProfit else target

/-- `ComboAdaptiveStrategy.DetectMarketCondition`.  In Go the `adx > 35`
branch only returns when the MA trend is (strongly) up; otherwise control
falls through to the later checks, which the nested conditions reproduce. -/
def detectMarketCondition (a : Analysis) : String :=
  if 35 < a.trendStrength.adx ∧
      (a.maAnalysis.trend = .uptrend ∨ a.maAnalysis.trend = .strongUptrend) then "trending"
  else if 20 < a.trendStrength.adx ∧ a.trendStrength.adx ≤ 35 ∧
      50 < a.momentum.rsi ∧ a.momentum.rsi < 70 then "momentum"
  else if a.trendStrength.adx < 25 ∧ a.momentum.rsi < 30 then "reversion"
  else "neutral"

/-- `ComboAdaptiveStrategy`: the strategy state `σ := String` is the mutable
`currentMode` field (initially `"detecting"`).  `ShouldEnter` returns before
re-detecting the market condition whenever the passed position is positive;
otherwise it stores the freshly detected condition and delegates. -/
def comboAdaptiveStrategy : TradingStrategyS String where
  shouldEnter := fun mode a ts position =>
    if 0 < position then (false, "", mode)
    else
      let marketCondition := detectMarketCondition a
      if marketCondition = "trending" then
        let r := trendFollowingStrategy.shouldEnter () a ts position
        if r.1 then (true, "[趋势模式] " ++ r.2.1, marketCondition)
        else (false, "", marketCondition)
      else if marketCondition = "momentum" then
        let r := momentumBreakoutStrategy.shouldEnter () a ts position
        if r.1 then (true, "[动量模式] " ++ r.2.1, marketCondition)
        else (false, "", marketCondition)
      else if marketCondition = "reversion" then
        let r := meanReversionStrategy.shouldEnter () a ts position
        if r.1 then (true, "[反转模式] " ++ r.2.1, marketCondition)
        else (false, "", marketCondition)
      else (false, "", marketCondition)
  shouldExit := fun mode a ts position entryPrice =>
    if position ≤ 0 then (false, "")
    else if mode = "trending" then trendFollowingStrategy.shouldExit () a ts position entryPrice
    else if mode = "momentum" then momentumBreakoutStrategy.shouldExit () a ts position entryPrice
    else if mode = "reversion" then meanReversionStrategy.shouldExit () a ts position entryPrice
    else if a.currentPrice < entryPrice * (95/100) then (true, "默认止损5%")
    else (false, "")
  getStopLoss := fun mode entryPrice a =>
    if mode = "trending" then trendFollowingStrategy.getStopLoss () entryPrice a
    else if mode = "momentum" then momentumBreakoutStrategy.getStopLoss () entryPrice a
    else if mode = "reversion" then meanReversionStrategy.getStopLoss () entryPrice a
    else entryPrice * (95/100)
  getTakeProfit := fun mode entryPrice a =>
    if mode = "trending" then trendFollowingStrategy.getTakeProfit () entryPrice a
    else if mode = "momentum" then momentumBreakoutStrategy.getTakeProfit () entryPrice a
    else if mode = "reversion" then meanReversionStrategy.getTakeProfit () entryPrice a
    else entryPrice * (105/100)

/-! ## Improved bidirectional strategy (`pkg/backtest/strategy_v2.go`) -/

/-- Position type of `BacktesterV2`. -/
inductive PositionType
  | noPosition | longPosition | shortPosition
deriving DecidableEq

/-- The numeric/boolean fields of `ImprovedBidirectionalStrategy` (its
mutable `currentMarketRegime` / `positionBias` strings feed nothing the
simulator reads, and the regime string passed around is an explicit
argument below). -/
structure ImprovedParams where
  trendStrengthThreshold : ℚ
  volatilityPeriod : ℕ
  longSignalThreshold : ℚ
  shortSignalThreshold : ℚ
  volumeConfirmation : ℚ
  dynamicStopLoss : Bool
  atrMultiplier : ℚ
  trailingStop : Bool
deriving DecidableEq

/-- `NewImprovedBidirectionalStrategy`. -/
def newImprovedBidirectionalStrategy : ImprovedParams :=
  { trendStrengthThreshold := 25
    volatilityPeriod := 20
    longSignalThreshold := 3/5
    shortSignalThreshold := -(3/5)
    volumeConfirmation := 3/2
    dynamicStopLoss := true
    atrMultiplier := 2
    trailingStop := true }

/-- `ImprovedBidirectionalStrategy.ShouldOpenLong`.  `bb` is the
`calculateBollingerBands(data, 20, 2)` triple (upper, middle, lower),
supplied as a parameter because the band width involves a square root. -/
def shouldOpenLong (s : ImprovedParams) (a : Analysis) (ts : ℚ)
    (marketRegime : String) (bb : ℚ × ℚ × ℚ) : Bool × String :=
  if marketRegime = "strong_downtrend" ∨ marketRegime = "downtrend" then (false, "")
  else if marketRegime = "ranging" ∧ ts < s.longSignalThreshold * (6/5) then (false, "")
  else if marketRegime = "volatile" ∧ 60 < a.momentum.rsi then (false, "")
  else if ts < s.longSignalThreshold then (false, "")
  else if a.volume.volumeRatio < s.volumeConfirmation then (false, "")
  else
    let confirmations : ℕ :=
      (if a.macdAnalysis.signalLine < a.macdAnalysis.macd ∧ 0 < a.macdAnalysis.histogram
       then 1 else 0) +
      (if 30 < a.momentum.rsi ∧ a.momentum.rsi < 70 then 1 else 0) +
      (if a.maAnalysis.ma5 < a.currentPrice ∧ a.maAnalysis.ma10 < a.currentPrice then 1 else 0) +
      (if bb.2.2 < a.currentPrice ∧ a.currentPrice < bb.2.1 then 1 else 0)
    if confirmations < 3 then (false, "") else (true, "做多信号")

/-- `ImprovedBidirectionalStrategy.ShouldOpenShort`. -/
def shouldOpenShort (s : ImprovedParams) (a : Analysis) (ts : ℚ)
    (marketRegime : String) (bb : ℚ × ℚ × ℚ) : Bool × String :=
  if marketRegime = "strong_uptrend" ∨ marketRegime = "uptrend" then (false, "")
  else if marketRegime = "ranging" ∧ s.shortSignalThreshold * (6/5) < ts then (false, "")
  else if marketRegime = "volatile" ∧ a.momentum.rsi < 40 then (false, "")
  else if s.shortSignalThreshold < ts then (false, "")
  else if a.volume.volumeRatio < s.volumeConfirmation then (false, "")
  else
    let confirmations : ℕ :=
      (if a.macdAnalysis.macd < a.macdAnalysis.signalLine ∧ a.macdAnalysis.histogram < 0
       then 1 else 0) +
      (if a.momentum.rsi < 70 ∧ 30 < a.momentum.rsi then 1 else 0) +
      (if a.currentPrice < a.maAnalysis.ma5 ∧ a.currentPrice < a.maAnalysis.ma10 then 1 else 0) +
      (if a.currentPrice < bb.1 ∧ bb.2.1 < a.currentPrice then 1 else 0)
    if confirmations < 3 then (false, "") else (true, "做空信号")

/-- `ImprovedBidirectionalStrategy.ShouldCloseLong`. -/
def shouldCloseLong (a : Analysis) (ts entryPrice currentPrice : ℚ)
    (marketRegime : String) : Bool × String :=
  let profitPct := (currentPrice - entryPrice) / entryPrice
  if 5/100 < profitPct ∧ ts < 0 then (true, "止盈平多")
  else if marketRegime = "downtrend" ∨ marketRegime = "strong_downtrend" then (true, "趋势反转平多")
  else if a.macdAnalysis.histogram < 0 ∧ 70 < a.momentum.rsi then (true, "技术背离平多")
  else if currentPrice < a.maAnalysis.ma20 * (98/100) then (true, "跌破MA20平多")
  else if ts < -(4/5) then (true, "强烈看跌平多")
  else (false, "")

/-- `ImprovedBidirectionalStrategy.ShouldCloseShort`. -/
def shouldCloseShort (a : Analysis) (ts entryPrice currentPrice : ℚ)
    (marketRegime : String) : Bool × String :=
  let profitPct := (entryPrice - currentPrice) / entryPrice
  if 5/100 < profitPct ∧ 0 < ts then (true, "止盈平空")
  else if marketRegime = "uptrend" ∨ marketRegime = "strong_uptrend" then (true, "趋势反转平空")
  else if 0 < a.macdAnalysis.histogram ∧ a.momentum.rsi < 30 then (true, "技术背离平空")
  else if a.maAnalysis.ma20 * (102/100) < currentPrice then (true, "突破MA20平空")
  else if 4/5 < ts then (true, "强烈看涨平空")
  else (false, "")

/-- `ImprovedBidirectionalStrategy.GetDynamicStopLoss`. -/
def getDynamicStopLoss (s : ImprovedParams) (entryPrice currentPrice : ℚ)
    (positionType : PositionType) (atr : ℚ) : ℚ :=
  if ¬s.dynamicStopLoss then
    if positionType = .longPosition then entryPrice * (97/100) else entryPrice * (103/100)
  else
    let stopDistance := atr * s.atrMultiplier
    if positionType = .longPosition then
      let stopLoss := currentPrice - stopDistance
      if s.trailingStop ∧ entryPrice * (102/100) < currentPrice then
        max stopLoss (entryPrice * (1005/1000))
      else max stopLoss (entryPrice * (95/100))
    else
      let stopLoss := currentPrice + stopDistance
      if s.trailingStop ∧ currentPrice < entryPrice * (98/100) then
        min stopLoss (entryPrice * (995/1000))
      else min stopLoss (entryPrice * (105/100))

/-- `BacktesterV2.calculateATR`: the mean of the true ranges of the last
`period` candles (the Go `i == 0` skip can only trigger when the slice is
exactly `period` long, which the length guard already excludes). -/
def calculateATR (data : List OHLCV) (period : ℕ) : ℚ :=
  if data.length < period + 1 then 0
  else
    let trueRanges := (List.range' (data.length - period) period).filterMap fun i =>
      if i = 0 then none
      else
        let highLow := (data.getD i default).high - (data.getD i default).low
        let highPrevClose := |(data.getD i default).high - (data.getD (i - 1) default).close|
        let lowPrevClose := |(data.getD i default).low - (data.getD (i - 1) default).close|
        some (max highLow (max highPrevClose lowPrevClose))
    if trueRanges.length = 0 then 0 else trueRanges.sum / (trueRanges.length : ℚ)

/-! ## Bidirectional simulator (`BacktesterV2.RunBacktestV2`)

The Go method is decomposed here into the per-step phases it executes:
evidence/strength computation, the stop-loss/take-profit check (whose
`continue` skips the rest of the step), the signal section, and the
drawdown update.  `regimeOf i` and `bbOf i` are the values of
`AnalyzeMarketRegime` and `calculateBollingerBands` at step `i` (both leave
the rational fragment, see the header); they are only consulted on the
`useImproved` paths. -/

/-- `TradeV2`. -/
structure TradeV2 where
  entryTime : ℕ
  entryPrice : ℚ
  entrySignal : String
  exitTime : ℕ
  exitPrice : ℚ
  exitSignal : String
  direction : String
  profit : ℚ
  profitPct : ℚ
  size : ℚ
deriving DecidableEq

/-- The `BacktesterV2` configuration fields. -/
structure ParamsV2 where
  initialCapital : ℚ
  feeRate : ℚ
  slippage : ℚ
  longThreshold : ℚ
  shortThreshold : ℚ
  closeThreshold : ℚ
  stopLoss : ℚ
  takeProfit : ℚ
  allowShort : Bool
  maxLeverage : ℚ
  useImproved : Bool
  improved : ImprovedParams
  regimeOf : ℕ → String
  bbOf : ℕ → ℚ × ℚ × ℚ

/-- `NewBacktesterV2` defaults (fee 0.1%, slippage 0.05%, thresholds
0.5/−0.5/0, stop 3%, target 6%, shorting allowed, improved mode off). -/
def defaultParamsV2 (initialCapital : ℚ) (regimeOf : ℕ → String)
    (bbOf : ℕ → ℚ × ℚ × ℚ) : ParamsV2 :=
  { initialCapital := initialCapital
    feeRate := 1/1000
    slippage := 5/10000
    longThreshold := 1/2
    shortThreshold := -(1/2)
    closeThreshold := 0
    stopLoss := 3/100
    takeProfit := 6/100
    allowShort := true
    maxLeverage := 2
    useImproved := false
    improved := newImprovedBidirectionalStrategy
    regimeOf := regimeOf
    bbOf := bbOf }

/-- The mutable per-run state of `RunBacktestV2` (the local loop variables
plus the receiver fields `positionType` / `currentStopLoss` it mutates, plus
the result's drawdown accumulators and trade ledger). -/
structure StateV2 where
  capital : ℚ
  position : ℚ
  entryPrice : ℚ
  entryTime : ℕ
  entrySignal : String
  positionType : PositionType
  maxCapital : ℚ
  maxDrawdown : ℚ
  maxDrawdownPct : ℚ
  currentStopLoss : ℚ
  trades : List TradeV2
deriving DecidableEq

/-- The state at the top of the `RunBacktestV2` loop. -/
def initStateV2 (p : ParamsV2) : StateV2 :=
  { capital := p.initialCapital, position := 0, entryPrice := 0, entryTime := 0
    entrySignal := "", positionType := .noPosition, maxCapital := p.initialCapital
    maxDrawdown := 0, maxDrawdownPct := 0, currentStopLoss := 0, trades := [] }

/-- `getPositionString`. -/
def getPositionString (pt : PositionType) : String :=
  match pt with
  | .longPosition => "LONG"
  | .shortPosition => "SHORT"
  | .noPosition => "NONE"

/-- The stop-loss/take-profit close of `RunBacktestV2` (both directions);
the recorded `ProfitPct` is the pre-cost `profitPct` the trigger used, and
the Go `continue` means the caller returns this state as the whole step. -/
def closeStopTakeV2 (p : ParamsV2) (st : StateV2) (currentPrice : ℚ) (currentTime : ℕ)
    (reason : String) (profitPct : ℚ) : StateV2 :=
  if st.positionType = .longPosition then
    let exitPrice := currentPrice * (1 - p.slippage - p.feeRate)
    let profit := st.position * (exitPrice - st.entryPrice)
    { st with
      capital := st.position * exitPrice
      position := 0
      positionType := .noPosition
      trades := st.trades ++ [⟨st.entryTime, st.entryPrice, st.entrySignal, currentTime,
        exitPrice, reason, getPositionString st.positionType, profit, profitPct, st.position⟩] }
  else
    let exitPrice := currentPrice * (1 + p.slippage + p.feeRate)
    let profit := st.position * (st.entryPrice - exitPrice)
    { st with
      capital := st.position * (2 * st.entryPrice - exitPrice)
      position := 0
      positionType := .noPosition
      trades := st.trades ++ [⟨st.entryTime, st.entryPrice, st.entrySignal, currentTime,
        exitPrice, reason, getPositionString st.positionType, profit, profitPct, st.position⟩] }

/-- The long signal-exit of `RunBacktestV2`: close at the cost-adjusted
price, then immediately re-check the opposite (short) entry at the same
step. -/
def longCloseV2 (p : ParamsV2) (st : StateV2) (currentPrice : ℚ) (currentTime : ℕ)
    (reason : String) (sig : ℚ) : StateV2 :=
  let exitPrice := currentPrice * (1 - p.slippage - p.feeRate)
  let profit := st.position * (exitPrice - st.entryPrice)
  let st1 : StateV2 :=
    { st with
      capital := st.position * exitPrice
      position := 0
      positionType := .noPosition
      trades := st.trades ++ [⟨st.entryTime, st.entryPrice, st.entrySignal, currentTime,
        exitPrice, reason, "LONG", profit, profit / (st.position * st.entryPrice), st.position⟩] }
  if p.allowShort ∧ sig < p.shortThreshold then
    let entryPrice := currentPrice * (1 - p.slippage - p.feeRate)
    { st1 with
      capital := 0
      position := st1.capital / entryPrice
      entryPrice := entryPrice
      entryTime := currentTime
      entrySignal := "反手做空"
      positionType := .shortPosition }
  else st1

/-- The short signal-exit of `RunBacktestV2`, with the same-step long
reversal re-check. -/
def shortCloseV2 (p : ParamsV2) (st : StateV2) (currentPrice : ℚ) (currentTime : ℕ)
    (reason : String) (sig : ℚ) : StateV2 :=
  let exitPrice := currentPrice * (1 + p.slippage + p.feeRate)
  let profit := st.position * (st.entryPrice - exitPrice)
  let st1 : StateV2 :=
    { st with
      capital := st.position * (2 * st.entryPrice - exitPrice)
      position := 0
      positionType := .noPosition
      trades := st.trades ++ [⟨st.entryTime, st.entryPrice, st.entrySignal, currentTime,
        exitPrice, reason, "SHORT", profit, profit / (st.position * st.entryPrice), st.position⟩] }
  if p.longThreshold < sig then
    let entryPrice := currentPrice * (1 + p.slippage + p.feeRate)
    { st1 with
      capital := 0
      position := st1.capital / entryPrice
      entryPrice := entryPrice
      entryTime := currentTime
      entrySignal := "反手做多"
      positionType := .longPosition }
  else st1

/-- The signal section of a `RunBacktestV2` step: entry when flat
(original-threshold or improved variant), otherwise the direction's exit
logic (improved mode also ratchets and checks the dynamic stop). -/
def signalPhaseV2 (p : ParamsV2) (i : ℕ) (a : Analysis) (window : List OHLCV)
    (currentPrice : ℚ) (currentTime : ℕ) (sig : ℚ) (st : StateV2) : StateV2 :=
  if st.positionType = .noPosition then
    if p.useImproved then
      let marketRegime := p.regimeOf i
      let ol := shouldOpenLong p.improved a sig marketRegime (p.bbOf i)
      if ol.1 then
        let entryPrice := currentPrice * (1 + p.slippage + p.feeRate)
        let atrV := calculateATR window 14
        { st with
          capital := 0, position := st.capital / entryPrice, entryPrice := entryPrice
          entryTime := currentTime, entrySignal := ol.2, positionType := .longPosition
          currentStopLoss := getDynamicStopLoss p.improved entryPrice currentPrice .longPosition atrV }
      else if p.allowShort then
        let os := shouldOpenShort p.improved a sig marketRegime (p.bbOf i)
        if os.1 then
          let entryPrice := currentPrice * (1 - p.slippage - p.feeRate)
          let atrV := calculateATR window 14
          { st with
            capital := 0, position := st.capital / entryPrice, entryPrice := entryPrice
            entryTime := currentTime, entrySignal := os.2, positionType := .shortPosition
            currentStopLoss := getDynamicStopLoss p.improved entryPrice currentPrice .shortPosition atrV }
        else st
      else st
    else
      if p.longThreshold < sig then
        let entryPrice := currentPrice * (1 + p.slippage + p.feeRate)
        { st with
          capital := 0, position := st.capital / entryPrice, entryPrice := entryPrice
          entryTime := currentTime, entrySignal := "做多", positionType := .longPosition }
      else if p.allowShort ∧ sig < p.shortThreshold then
        let entryPrice := currentPrice * (1 - p.slippage - p.feeRate)
        { st with
          capital := 0, position := st.capital / entryPrice, entryPrice := entryPrice
          entryTime := currentTime, entrySignal := "做空", positionType := .shortPosition }
      else st
  else if st.positionType = .longPosition then
    if p.useImproved then
      let marketRegime := p.regimeOf i
      let ce := shouldCloseLong a sig st.entryPrice currentPrice marketRegime
      if ce.1 then longCloseV2 p st currentPrice currentTime ce.2 sig
      else if p.improved.dynamicStopLoss then
        let atrV := calculateATR window 14
        let newStopLoss := getDynamicStopLoss p.improved st.entryPrice currentPrice .longPosition atrV
        let csl := if st.currentStopLoss < newStopLoss then newStopLoss else st.currentStopLoss
        if currentPrice ≤ csl then
          longCloseV2 p { st with currentStopLoss := csl } currentPrice currentTime "动态止损" sig
        else { st with currentStopLoss := csl }
      else st
    else
      if sig < p.closeThreshold then longCloseV2 p st currentPrice currentTime "平多" sig
      else st
  else
    if p.useImproved then
      let marketRegime := p.regimeOf i
      let ce := shouldCloseShort a sig st.entryPrice currentPrice marketRegime
      if ce.1 then shortCloseV2 p st currentPrice currentTime ce.2 sig
      else if p.improved.dynamicStopLoss then
        let atrV := calculateATR window 14
        let newStopLoss := getDynamicStopLoss p.improved st.entryPrice currentPrice .shortPosition atrV
        let csl := if newStopLoss < st.currentStopLoss then newStopLoss else st.currentStopLoss
        if csl ≤ currentPrice then
          shortCloseV2 p { st with currentStopLoss := csl } currentPrice currentTime "动态止损" sig
        else { st with currentStopLoss := csl }
      else st
    else
      if -p.closeThreshold < sig then shortCloseV2 p st currentPrice currentTime "平空" sig
      else st

/-- The end-of-step drawdown bookkeeping of `RunBacktestV2` (mark-to-market
equity, running peak, peak-to-trough drawdown). -/
def drawdownPhaseV2 (st : StateV2) (currentPrice : ℚ) : StateV2 :=
  let currentCapital :=
    if 0 < st.position then
      if st.positionType = .longPosition then st.position * currentPrice
      else st.position * (2 * st.entryPrice - currentPrice)
    else st.capital
  let maxCapital := if st.maxCapital < currentCapital then currentCapital else st.maxCapital
  let drawdown := (maxCapital - currentCapital) / maxCapital
  if st.maxDrawdownPct < drawdown then
    { st with
      maxCapital := maxCapital
      maxDrawdownPct := drawdown
      maxDrawdown := maxCapital - currentCapital }
  else { st with maxCapital := maxCapital }

/-- The totalStrength signal of a `RunBacktestV2` step, as a function of the
trailing window and of the fractional price change since the previous
candle (V2 collects MA, MACD, RSI, S/R and volume evidence, in this
order). -/
def sigV2w (a : Analysis) (currentPrice priceChange : ℚ) : ℚ :=
  totalStrength
    (analyzeMAEvidence a.maAnalysis currentPrice ++ analyzeMACDEvidence a.macdAnalysis ++
      analyzeRSIEvidence a.momentum.rsi ++ analyzeSREvidence currentPrice a.supportResistance ++
      analyzeVolumeEvidence a.volume priceChange)

/-- The body of a `RunBacktestV2` loop iteration once the analyzer has
produced a snapshot `a`: the stop-loss/take-profit check (whose Go
`continue` skips the rest of the step), then the signal section and the
drawdown update. -/
def stepV2Go (p : ParamsV2) (data : List OHLCV) (i : ℕ) (a : Analysis) (st : StateV2) :
    StateV2 :=
  let window := (data.drop (i - 100)).take 101
  let currentPrice := (window.getLastD default).close
  let currentTime := (window.getLastD default).time
  let priceChange : ℚ :=
    if 0 < i then
      (currentPrice - (data.getD (i - 1) default).close) / (data.getD (i - 1) default).close
    else 0
  let sig := sigV2w a currentPrice priceChange
  if st.positionType ≠ .noPosition ∧ 0 < st.position then
    let profitPct :=
      if st.positionType = .longPosition then
        (currentPrice - st.entryPrice) / st.entryPrice
      else (st.entryPrice - currentPrice) / st.entryPrice
    if profitPct ≤ -p.stopLoss then
      closeStopTakeV2 p st currentPrice currentTime "止损" profitPct
    else if p.takeProfit ≤ profitPct then
      closeStopTakeV2 p st currentPrice currentTime "止盈" profitPct
    else
      drawdownPhaseV2 (signalPhaseV2 p i a window currentPrice currentTime sig st) currentPrice
  else
    drawdownPhaseV2 (signalPhaseV2 p i a window currentPrice currentTime sig st) currentPrice

/-- One iteration of the `RunBacktestV2` sliding-window loop at index `i`
(`window = data[i-100 : i+1]`); an analyzer error (`none`) is the Go
`continue`. -/
def stepV2 (p : ParamsV2) (data : List OHLCV) (i : ℕ) (st : StateV2) : StateV2 :=
  match analyzeComprehensive ((data.drop (i - 100)).take 101) with
  | none => st
  | some a => stepV2Go p data i a st

/-- Iterating `stepV2` for `k` steps starting at index `i`. -/
def loopV2 (p : ParamsV2) (data : List OHLCV) : ℕ → ℕ → StateV2 → StateV2
  | _, 0, st => st
  | i, k + 1, st => loopV2 p data (i + 1) k (stepV2 p data i st)

/-- The forced close of any still-open position at the final close price
(only for a strictly positive position size). -/
def forcedCloseV2 (p : ParamsV2) (data : List OHLCV) (st : StateV2) : StateV2 :=
  if 0 < st.position then
    let lastClose := (data.getLastD default).close
    let lastTime := (data.getLastD default).time
    if st.positionType = .longPosition then
      let exitPrice := lastClose * (1 - p.slippage - p.feeRate)
      let profit := st.position * (exitPrice - st.entryPrice)
      { st with
        capital := st.position * exitPrice
        trades := st.trades ++ [⟨st.entryTime, st.entryPrice, st.entrySignal, lastTime,
          exitPrice, "回测结束平仓", getPositionString st.positionType, profit,
          profit / (st.position * st.entryPrice), st.position⟩] }
    else
      let exitPrice := lastClose * (1 + p.slippage + p.feeRate)
      let profit := st.position * (st.entryPrice - exitPrice)
      { st with
        capital := st.position * (2 * st.entryPrice - exitPrice)
        trades := st.trades ++ [⟨st.entryTime, st.entryPrice, st.entrySignal, lastTime,
          exitPrice, "回测结束平仓", getPositionString st.positionType, profit,
          profit / (st.position * st.entryPrice), st.position⟩] }
  else st

/-- `BacktestResultV2` (Symbol/Period presentation strings and the
square-root-based `SharpeRatio` omitted; no claim concerns them). -/
structure BacktestResultV2 where
  initialCapital : ℚ
  finalCapital : ℚ
  totalReturn : ℚ
  totalReturnPct : ℚ
  maxDrawdown : ℚ
  maxDrawdownPct : ℚ
  winRate : ℚ
  totalTrades : ℕ
  longTrades : ℕ
  shortTrades : ℕ
  winningTrades : ℕ
  losingTrades : ℕ
  averageWin : ℚ
  averageLoss : ℚ
  profitFactor : ℚ
  calmarRatio : ℚ
  trades : List TradeV2
deriving DecidableEq

/-- Accumulator of the final statistics loop of `RunBacktestV2`. -/
structure StatsAccV2 where
  longTrades : ℕ
  shortTrades : ℕ
  winningTrades : ℕ
  losingTrades : ℕ
  totalWin : ℚ
  totalLoss : ℚ
deriving DecidableEq

/-- One iteration of the statistics loop of `RunBacktestV2`: direction
counts, and winners (`Profit > 0`) versus losers (everything else, zero
included). -/
def statsStepV2 (acc : StatsAccV2) (t : TradeV2) : StatsAccV2 :=
  { longTrades := acc.longTrades + (if t.direction = "LONG" then 1 else 0)
    shortTrades := acc.shortTrades + (if t.direction = "LONG" then 0 else 1)
    winningTrades := acc.winningTrades + (if 0 < t.profit then 1 else 0)
    losingTrades := acc.losingTrades + (if 0 < t.profit then 0 else 1)
    totalWin := acc.totalWin + (if 0 < t.profit then t.profit else 0)
    totalLoss := acc.totalLoss + (if 0 < t.profit then 0 else |t.profit|) }

/-- The per-trade statistics loop of `RunBacktestV2`. -/
def statsAccV2 (trades : List TradeV2) : StatsAccV2 :=
  trades.foldl statsStepV2 ⟨0, 0, 0, 0, 0, 0⟩

/-- Assembling `BacktestResultV2` from the (forced-closed) final state. -/
def computeResultV2 (p : ParamsV2) (data : List OHLCV) (st : StateV2) : BacktestResultV2 :=
  let acc := statsAccV2 st.trades
  let totalTrades := st.trades.length
  let totalReturn := st.capital - p.initialCapital
  let totalReturnPct := totalReturn / p.initialCapital
  { initialCapital := p.initialCapital
    finalCapital := st.capital
    totalReturn := totalReturn
    totalReturnPct := totalReturnPct
    maxDrawdown := st.maxDrawdown
    maxDrawdownPct := st.maxDrawdownPct
    winRate := if 0 < totalTrades then (acc.winningTrades : ℚ) / (totalTrades : ℚ) else 0
    totalTrades := totalTrades
    longTrades := acc.longTrades
    shortTrades := acc.shortTrades
    winningTrades := acc.winningTrades
    losingTrades := acc.losingTrades
    averageWin := if 0 < acc.winningTrades then acc.totalWin / (acc.winningTrades : ℚ) else 0
    averageLoss := if 0 < acc.losingTrades then acc.totalLoss / (acc.losingTrades : ℚ) else 0
    profitFactor := if 0 < acc.totalLoss then acc.totalWin / acc.totalLoss else 0
    calmarRatio :=
      if 0 < st.maxDrawdownPct then
        totalReturnPct * 365 / ((data.length / 24 : ℕ) : ℚ) / st.maxDrawdownPct
      else 0
    trades := st.trades }

/-- `BacktesterV2.RunBacktestV2`: fail fast on fewer than 200 candles,
otherwise run the loop over `i = 100 … len-1`, force-close, and compute the
statistics. -/
def runBacktestV2 (p : ParamsV2) (data : List OHLCV) : Except String BacktestResultV2 :=
  if data.length < 200 then .error "insufficient data for backtest"
  else
    .ok (computeResultV2 p data
      (forcedCloseV2 p data (loopV2 p data 100 (data.length - 100) (initStateV2 p))))

/-- Sum of realized trade profits of a V2 ledger. -/
def sumProfitsV2 (trades : List TradeV2) : ℚ := (trades.map (·.profit)).sum

/-! ## Basic simulator (`Backtester.RunBacktest`)

Long-only.  `strat = none` models the original threshold logic
(`useStrategy` false); `strat = some s` models a `TradingStrategy` plugged
in via `SetTradingStrategy`, with its mutable state threaded through
`strategyState`.  The receiver fields `stopLoss` / `takeProfit` are mutated
on strategy entries, so they live in the state. -/

/-- `Trade` (V1). -/
structure Trade where
  entryTime : ℕ
  entryPrice : ℚ
  entrySignal : String
  exitTime : ℕ
  exitPrice : ℚ
  exitSignal : String
  profit : ℚ
  profitPct : ℚ
  holding : ℚ
deriving DecidableEq

/-- The immutable `Backtester` configuration fields. -/
structure ParamsV1 where
  initialCapital : ℚ
  feeRate : ℚ
  slippage : ℚ
  entryThreshold : ℚ
  exitThreshold : ℚ
  stopLoss : ℚ
  takeProfit : ℚ

/-- `NewBacktester` defaults (fee 0.1%, slippage 0.05%, entry 0.5,
exit −0.2, stop 5%, target 10%). -/
def defaultParamsV1 (initialCapital : ℚ) : ParamsV1 :=
  { initialCapital := initialCapital
    feeRate := 1/1000
    slippage := 5/10000
    entryThreshold := 1/2
    exitThreshold := -(1/5)
    stopLoss := 5/100
    takeProfit := 1/10 }

/-- The mutable per-run state of `RunBacktest`. -/
structure StateV1 (σ : Type) where
  capital : ℚ
  position : ℚ
  entryPrice : ℚ
  entryTime : ℕ
  entrySignal : String
  maxCapital : ℚ
  maxDrawdown : ℚ
  maxDrawdownPct : ℚ
  stopLoss : ℚ
  takeProfit : ℚ
  strategyState : σ
  trades : List Trade

/-- The state at the top of the `RunBacktest` loop. -/
def initStateV1 {σ : Type} (p : ParamsV1) (s0 : σ) : StateV1 σ :=
  { capital := p.initialCapital, position := 0, entryPrice := 0, entryTime := 0
    entrySignal := "", maxCapital := p.initialCapital, maxDrawdown := 0
    maxDrawdownPct := 0, stopLoss := p.stopLoss, takeProfit := p.takeProfit
    strategyState := s0, trades := [] }

/-- The stop-loss/take-profit close of `RunBacktest` (note the Go
`capital += position * exitPrice` accumulation), ending the step
(`continue`). -/
def closeStopTakeV1 {σ : Type} (p : ParamsV1) (st : StateV1 σ) (currentPrice : ℚ)
    (currentTime : ℕ) (reason : String) : StateV1 σ :=
  let exitPrice := currentPrice * (1 - p.slippage - p.feeRate)
  let profit := st.position * (exitPrice - st.entryPrice)
  { st with
    capital := st.capital + st.position * exitPrice
    position := 0
    trades := st.trades ++ [⟨st.entryTime, st.entryPrice, st.entrySignal, currentTime,
      exitPrice, reason, profit, profit / (st.position * st.entryPrice), st.position⟩] }

/-- A signal-driven close of `RunBacktest`. -/
def closeSignalV1 {σ : Type} (p : ParamsV1) (st : StateV1 σ) (currentPrice : ℚ)
    (currentTime : ℕ) (reason : String) : StateV1 σ :=
  let exitPrice := currentPrice * (1 - p.slippage - p.feeRate)
  let profit := st.position * (exitPrice - st.entryPrice)
  { st with
    capital := st.position * exitPrice
    position := 0
    trades := st.trades ++ [⟨st.entryTime, st.entryPrice, st.entrySignal, currentTime,
      exitPrice, reason, profit, profit / (st.position * st.entryPrice), st.position⟩] }

/-- The signal section of a `RunBacktest` step.  With a strategy plugged in,
`ShouldEnter` is invoked every step (its updated state persists even on a
`false` answer), a `true` answer deploys all capital and rewrites the
receiver's `stopLoss`/`takeProfit` from the strategy's stop/target prices,
and otherwise `ShouldExit` is consulted while a position is open.  Without a
strategy, fixed entry/exit thresholds on the signal strength apply. -/
def signalPhaseV1 {σ : Type} (p : ParamsV1) (strat : Option (TradingStrategyS σ))
    (a : Analysis) (currentPrice : ℚ) (currentTime : ℕ) (sig : ℚ) (st : StateV1 σ) :
    StateV1 σ :=
  match strat with
  | some s =>
    let r := s.shouldEnter st.strategyState a sig st.position
    let st1 := { st with strategyState := r.2.2 }
    if r.1 then
      let entryPrice := currentPrice * (1 + p.slippage + p.feeRate)
      { st1 with
        capital := 0
        position := st1.capital / entryPrice
        entryPrice := entryPrice
        entryTime := currentTime
        entrySignal := r.2.1
        stopLoss := (entryPrice - s.getStopLoss r.2.2 entryPrice a) / entryPrice
        takeProfit := (s.getTakeProfit r.2.2 entryPrice a - entryPrice) / entryPrice }
    else if 0 < st1.position then
      let e := s.shouldExit r.2.2 a sig st1.position st1.entryPrice
      if e.1 then closeSignalV1 p st1 currentPrice currentTime e.2
      else st1
    else st1
  | none =>
    if st.position = 0 ∧ p.entryThreshold < sig then
      let entryPrice := currentPrice * (1 + p.slippage + p.feeRate)
      { st with
        capital := 0
        position := st.capital / entryPrice
        entryPrice := entryPrice
        entryTime := currentTime
        entrySignal := "做多" }
    else if 0 < st.position ∧ sig < p.exitThreshold then
      closeSignalV1 p st currentPrice currentTime "平仓"
    else st

/-- The end-of-step drawdown bookkeeping of `RunBacktest`. -/
def drawdownPhaseV1 {σ : Type} (st : StateV1 σ) (currentPrice : ℚ) : StateV1 σ :=
  let currentCapital := if 0 < st.position then st.position * currentPrice else st.capital
  let maxCapital := if st.maxCapital < currentCapital then currentCapital else st.maxCapital
  let drawdown := (maxCapital - currentCapital) / maxCapital
  if st.maxDrawdownPct < drawdown then
    { st with
      maxCapital := maxCapital
      maxDrawdownPct := drawdown
      maxDrawdown := maxCapital - currentCapital }
  else { st with maxCapital := maxCapital }

/-- The totalStrength signal of a `RunBacktest` step (V1 collects MA, MACD,
RSI and S/R evidence; no volume item). -/
def sigV1w (a : Analysis) (currentPrice : ℚ) : ℚ :=
  totalStrength
    (analyzeMAEvidence a.maAnalysis currentPrice ++ analyzeMACDEvidence a.macdAnalysis ++
      analyzeRSIEvidence a.momentum.rsi ++ analyzeSREvidence currentPrice a.supportResistance)

/-- The body of a `RunBacktest` loop iteration once the analyzer has
produced a snapshot `a`. -/
def stepV1Go {σ : Type} (p : ParamsV1) (strat : Option (TradingStrategyS σ))
    (data : List OHLCV) (i : ℕ) (a : Analysis) (st : StateV1 σ) : StateV1 σ :=
  let window := (data.drop (i - 100)).take 101
  let currentPrice := (window.getLastD default).close
  let currentTime := (window.getLastD default).time
  let sig := sigV1w a currentPrice
  if 0 < st.position then
    let profitPct := (currentPrice - st.entryPrice) / st.entryPrice
    if profitPct ≤ -st.stopLoss then
      closeStopTakeV1 p st currentPrice currentTime "止损"
    else if st.takeProfit ≤ profitPct then
      closeStopTakeV1 p st currentPrice currentTime "止盈"
    else
      drawdownPhaseV1 (signalPhaseV1 p strat a currentPrice currentTime sig st) currentPrice
  else
    drawdownPhaseV1 (signalPhaseV1 p strat a currentPrice currentTime sig st) currentPrice

/-- One iteration of the `RunBacktest` sliding-window loop at index `i`. -/
def stepV1 {σ : Type} (p : ParamsV1) (strat : Option (TradingStrategyS σ))
    (data : List OHLCV) (i : ℕ) (st : StateV1 σ) : StateV1 σ :=
  match analyzeComprehensive ((data.drop (i - 100)).take 101) with
  | none => st
  | some a => stepV1Go p strat data i a st

/-- Iterating `stepV1` for `k` steps starting at index `i`. -/
def loopV1 {σ : Type} (p : ParamsV1) (strat : Option (TradingStrategyS σ))
    (data : List OHLCV) : ℕ → ℕ → StateV1 σ → StateV1 σ
  | _, 0, st => st
  | i, k + 1, st => loopV1 p strat data (i + 1) k (stepV1 p strat data i st)

/-- The forced close of `RunBacktest` at the final (cost-adjusted) close. -/
def forcedCloseV1 {σ : Type} (p : ParamsV1) (data : List OHLCV) (st : StateV1 σ) :
    StateV1 σ :=
  if 0 < st.position then
    let exitPrice := (data.getLastD default).close * (1 - p.slippage - p.feeRate)
    let profit := st.position * (exitPrice - st.entryPrice)
    { st with
      capital := st.position * exitPrice
      trades := st.trades ++ [⟨st.entryTime, st.entryPrice, st.entrySignal,
        (data.getLastD default).time, exitPrice, "回测结束平仓", profit,
        profit / (st.position * st.entryPrice), st.position⟩] }
  else st

/-- `BacktestResult` (V1; Symbol/Period strings and the square-root-based
`SharpeRatio` omitted). -/
structure BacktestResult where
  initialCapital : ℚ
  finalCapital : ℚ
  totalReturn : ℚ
  totalReturnPct : ℚ
  maxDrawdown : ℚ
  maxDrawdownPct : ℚ
  winRate : ℚ
  totalTrades : ℕ
  winningTrades : ℕ
  losingTrades : ℕ
  averageWin : ℚ
  averageLoss : ℚ
  profitFactor : ℚ
  trades : List Trade
deriving DecidableEq

/-- Accumulator of the final statistics loop of `RunBacktest`. -/
structure StatsAccV1 where
  winningTrades : ℕ
  losingTrades : ℕ
  totalWin : ℚ
  totalLoss : ℚ
deriving DecidableEq

/-- One iteration of the statistics loop of `RunBacktest`: winners are the
trades with `Profit > 0`, everything else (zero included) counts as a
loser. -/
def statsStepV1 (acc : StatsAccV1) (t : Trade) : StatsAccV1 :=
  { winningTrades := acc.winningTrades + (if 0 < t.profit then 1 else 0)
    losingTrades := acc.losingTrades + (if 0 < t.profit then 0 else 1)
    totalWin := acc.totalWin + (if 0 < t.profit then t.profit else 0)
    totalLoss := acc.totalLoss + (if 0 < t.profit then 0 else |t.profit|) }

/-- The per-trade statistics loop of `RunBacktest`. -/
def statsAccV1 (trades : List Trade) : StatsAccV1 :=
  trades.foldl statsStepV1 ⟨0, 0, 0, 0⟩

/-- Assembling `BacktestResult` from the (forced-closed) final state. -/
def computeResultV1 {σ : Type} (p : ParamsV1) (st : StateV1 σ) : BacktestResult :=
  let acc := statsAccV1 st.trades
  let totalTrades := st.trades.length
  let totalReturn := st.capital - p.initialCapital
  { initialCapital := p.initialCapital
    finalCapital := st.capital
    totalReturn := totalReturn
    totalReturnPct := totalReturn / p.initialCapital
    maxDrawdown := st.maxDrawdown
    maxDrawdownPct := st.maxDrawdownPct
    winRate := if 0 < totalTrades then (acc.winningTrades : ℚ) / (totalTrades : ℚ) else 0
    totalTrades := totalTrades
    winningTrades := acc.winningTrades
    losingTrades := acc.losingTrades
    averageWin := if 0 < acc.winningTrades then acc.totalWin / (acc.winningTrades : ℚ) else 0
    averageLoss := if 0 < acc.losingTrades then acc.totalLoss / (acc.losingTrades : ℚ) else 0
    profitFactor := if 0 < acc.totalLoss then acc.totalWin / acc.totalLoss else 0
    trades := st.trades }

/-- `Backtester.RunBacktest`: fail fast on fewer than 200 candles, otherwise
run the loop over `i = 100 … len-1`, force-close, and compute the
statistics. -/
def runBacktestV1 {σ : Type} (p : ParamsV1) (strat : Option (TradingStrategyS σ))
    (s0 : σ) (data : List OHLCV) : Except String BacktestResult :=
  if data.length < 200 then
    .error "insufficient data for backtest (need at least 200 candles)"
  else
    .ok (computeResultV1 p
      (forcedCloseV1 p data (loopV1 p strat data 100 (data.length - 100) (initStateV1 p s0))))

/-- Sum of realized trade profits of a V1 ledger. -/
def sumProfitsV1 (trades : List Trade) : ℚ := (trades.map (·.profit)).sum

/-! ## Concrete fixtures for witnesses and counterexamples -/

/-- A flat synthetic candle: open = high = low = close = `c`, volume `v`. -/
def candC (c v : ℚ) : OHLCV := ⟨0, c, c, c, c, v⟩

/-- A trivial regime oracle (never consulted while `useImproved` is off). -/
def emptyRegime : ℕ → String := fun _ => ""

/-- A trivial Bollinger oracle (never consulted while `useImproved` is off). -/
def zeroBB : ℕ → ℚ × ℚ × ℚ := fun _ => (0, 0, 0)

/-- The `backtest-v2` command defaults: `NewBacktesterV2(10000)`. -/
def std2 : ParamsV2 := defaultParamsV2 10000 emptyRegime zeroBB

/-- `NewBacktester(10000)`. -/
def std1 : ParamsV1 := defaultParamsV1 10000

/-- A constant-price, constant-volume series of `n` candles. -/
def constData (n : ℕ) (c v : ℚ) : List OHLCV := List.replicate n (candC c v)

/-- 198 flat candles at 100 followed by 2 at 210: the short opened at step
100 is stopped out at step 198 above twice its entry price (capital turns
negative), and step 199 re-enters long with that negative capital. -/
def bankruptData : List OHLCV :=
  List.replicate 198 (candC 100 1) ++ List.replicate 2 (candC 210 1)

/-- 101 flat candles at 100 followed by 99 at 90: the short opened at step
100 hits its take-profit at step 101. -/
def mismatchData : List OHLCV :=
  List.replicate 101 (candC 100 1) ++ List.replicate 99 (candC 90 1)

/-- 101 flat candles at 100 followed by 99 at 210: the short opened at step
100 hits its stop-loss at step 101, at which step the long entry condition
holds. -/
def skipEntryData : List OHLCV :=
  List.replicate 101 (candC 100 1) ++ List.replicate 99 (candC 210 1)

/-- All-zero `BacktestResultV2`, used as the junk value of `okOrV2`. -/
def junkResultV2 : BacktestResultV2 := ⟨0, 0, 0, 0, 0, 0, 0, 0, 0, 0, 0, 0, 0, 0, 0, 0, []⟩

/-- All-zero `BacktestResult`, used as the junk value of `okOrV1`. -/
def junkResultV1 : BacktestResult := ⟨0, 0, 0, 0, 0, 0, 0, 0, 0, 0, 0, 0, 0, []⟩

/-- Extract the `ok` payload of a V2 run (junk on error). -/
def okOrV2 (x : Except String BacktestResultV2) : BacktestResultV2 :=
  match x with
  | .ok r => r
  | .error _ => junkResultV2

/-- Extract the `ok` payload of a V1 run (junk on error). -/
def okOrV1 (x : Except String BacktestResult) : BacktestResult :=
  match x with
  | .ok r => r
  | .error _ => junkResultV1

/-- The state of a combo-driven `RunBacktest` after `k` loop steps. -/
def comboStateAt (p : ParamsV1) (data : List OHLCV) (s0 : String) (k : ℕ) :
    StateV1 String :=
  loopV1 p (some comboAdaptiveStrategy) data 100 k (initStateV1 p s0)

/-- The close price of the active window at step `i`. -/
def currentCloseAt (data : List OHLCV) (i : ℕ) : ℚ :=
  (((data.drop (i - 100)).take 101).getLastD default).close

/-- The per-trade record consistency of V2 trades appended at a step whose
current close is `cur`. -/
def tradePropV2 (cur : ℚ) (t : TradeV2) : Prop :=
  ((t.exitSignal = "止损" ∨ t.exitSignal = "止盈") →
      (t.direction = "LONG" → t.profitPct = (cur - t.entryPrice) / t.entryPrice) ∧
      (t.direction = "SHORT" → t.profitPct = (t.entryPrice - cur) / t.entryPrice)) ∧
  (t.exitSignal ≠ "止损" → t.exitSignal ≠ "止盈" →
      t.profitPct = t.profit / (t.size * t.entryPrice)) ∧
  (0 < t.size →
      (t.direction = "LONG" → (0 < t.profit ↔ t.entryPrice < t.exitPrice)) ∧
      (t.direction = "SHORT" → (0 < t.profit ↔ t.exitPrice < t.entryPrice)))

/-- The per-trade record consistency of V1 trades. -/
def tradePropV1 (t : Trade) : Prop :=
  t.profitPct = t.profit / (t.holding * t.entryPrice) ∧
  (0 < t.holding → (0 < t.profit ↔ t.entryPrice < t.exitPrice))

/-- A sample V2 trade record used to instantiate per-trade statements. -/
def tau0 : TradeV2 := ⟨0, 1, "", 0, 2, "X", "LONG", 1, 1, 1⟩

/-- A V2 state whose ledger already holds `tau0`. -/
def stTau : StateV2 := { initStateV2 std2 with trades := [tau0] }

/-- The current-candle timestamp of the window at step `i`. -/
def currentTimeAt (data : List OHLCV) (i : ℕ) : ℕ :=
  (((data.drop (i - 100)).take 101).getLastD default).time

/-- The pre-cost profit percentage a `RunBacktestV2` step computes for an
open position (long: move from entry; short: negated move). -/
def profitPctAt (data : List OHLCV) (i : ℕ) (st : StateV2) : ℚ :=
  if st.positionType = .longPosition then
    (currentCloseAt data i - st.entryPrice) / st.entryPrice
  else (st.entryPrice - currentCloseAt data i) / st.entryPrice

/-- The analysis snapshot of the window at step `i` (junk constant-window
snapshot when the analyzer errors). -/
def anaAt (data : List OHLCV) (i : ℕ) : Analysis :=
  match analyzeComprehensive ((data.drop (i - 100)).take 101) with
  | some a => a
  | none => analysisOf (constData 101 1 1)

/-- The conservation invariant of `RunBacktestV2`: committed-plus-free
equity equals initial capital plus realized profits, capital is fully
deployed while a position is open, and a flat state holds no position. -/
def InvV2 (init : ℚ) (st : StateV2) : Prop :=
  st.capital + st.position * st.entryPrice = init + sumProfitsV2 st.trades ∧
  (st.positionType ≠ .noPosition → st.capital = 0) ∧
  (st.positionType = .noPosition → st.position = 0)

/-- The conservation invariant of `RunBacktest` (long-only V1). -/
def InvV1 {σ : Type} (init : ℚ) (st : StateV1 σ) : Prop :=
  st.capital + st.position * st.entryPrice = init + sumProfitsV1 st.trades ∧
  (st.position ≠ 0 → st.capital = 0) ∧
  0 ≤ st.position ∧ 0 ≤ st.capital

/-- The V2 variant with the improved bidirectional strategy enabled. -/
def imp2 (ro : ℕ → String) (bo : ℕ → ℚ × ℚ × ℚ) : ParamsV2 :=
  { defaultParamsV2 10000 ro bo with useImproved := true }

/-- The V2 default state after the short entry on the first constant-window
step (price `c`), held unchanged for the rest of the run. -/
def constShortState (c : ℚ) : StateV2 :=
  { capital := 0
    position := 20000000 / (1997 * c)
    entryPrice := 1997 * c / 2000
    entryTime := 0
    entrySignal := "做空"
    positionType := .shortPosition
    maxCapital := 10000
    maxDrawdown := 30000 / 1997
    maxDrawdownPct := 3 / 1997
    currentStopLoss := 0
    trades := [] }

/-- The V2 state right after the stop-loss close of step 198 on
`bankruptData`: the short loses more than the whole account, so the free
capital is negative. -/
def S199 : StateV2 :=
  { capital := -(2123000/1997), position := 0, entryPrice := 1997/20, entryTime := 0,
    entrySignal := "做空", positionType := .noPosition, maxCapital := 10000,
    maxDrawdown := 30000/1997, maxDrawdownPct := 3/1997, currentStopLoss := 0,
    trades := [⟨0, 1997/20, "做空", 0, 42063/200, "止损", "SHORT", -(22093000/1997),
      -(2203/1997), 200000/1997⟩] }

/-- The V2 state after step 199 on `bankruptData`: the long entry deploys the
negative capital, zeroing it and leaving a negative position that the forced
close then skips. -/
def S200 : StateV2 :=
  { capital := 0, position := -(424600000/83999811), entryPrice := 42063/200, entryTime := 0,
    entrySignal := "做多", positionType := .longPosition, maxCapital := 10000,
    maxDrawdown := 10000, maxDrawdownPct := 1, currentStopLoss := 0,
    trades := [⟨0, 1997/20, "做空", 0, 42063/200, "止损", "SHORT", -(22093000/1997),
      -(2203/1997), 200000/1997⟩] }

/-! # Theorems -/

/-! ## C7: pivot-point ordering -/

/-- C7 counterexample: the claim asserts `R1 > Pivot > S1` for every input
with `high > low` and the close unconstrained, but at
`(high, low, close) = (2, 1, -100)` (high > low) the pivot-point function
yields `R1 < Pivot`. -/
theorem pivotPoints_order_counterexample :
    (1 : ℚ) < 2 ∧ (pivotPoints 2 1 (-100)).r1 < (pivotPoints 2 1 (-100)).pivot := by
  refine ⟨by norm_num, ?_⟩
  show (2 * ((2 + 1 + -100) / 3) - 1 : ℚ) < (2 + 1 + -100) / 3
  norm_num

/-- C7 (amended): for every input with `high > low` whose close lies in the
candle's range (`low ≤ close ≤ high`), the pivot-point function satisfies
`R1 > Pivot > S1`. -/
theorem pivotPoints_order (high low close : ℚ) (hlh : low < high)
    (hlc : low ≤ close) (hch : close ≤ high) :
    (pivotPoints high low close).s1 < (pivotPoints high low close).pivot ∧
      (pivotPoints high low close).pivot < (pivotPoints high low close).r1 := by
  constructor
  · show 2 * ((high + low + close) / 3) - high < (high + low + close) / 3
    linarith
  · show (high + low + close) / 3 < 2 * ((high + low + close) / 3) - low
    linarith

/-- Witness for `pivotPoints_order` at `(2, 1, 3/2)`. -/
theorem pivotPoints_order_witness :
    (pivotPoints 2 1 (3/2)).s1 < (pivotPoints 2 1 (3/2)).pivot ∧
      (pivotPoints 2 1 (3/2)).pivot < (pivotPoints 2 1 (3/2)).r1 :=
  pivotPoints_order 2 1 (3/2) (by norm_num) (by norm_num) (by norm_num)

/-! ## C6: the MACD histogram-magnitude evidence item -/

/-- C6 counterexample: at `macd = 1`, `signal = 1.01`,
`histogram = macd - signal = -0.01` the aggregator appends a `-0.4`
histogram-magnitude item although `|histogram| ≤ 10% · |macd|`, because the
Go comparison is against the signed `macd*0.1`, not `|macd|*0.1`. -/
theorem macd_histogram_item_counterexample :
    ((1 : ℚ) - 101/100 = -(1/100)) ∧
      (⟨.bearish, "MACD", -(2/5)⟩ : Evidence) ∈
        analyzeMACDEvidence ⟨1, 101/100, -(1/100), "", ""⟩ ∧
      ¬ (1/10 : ℚ) * |(1 : ℚ)| < |(-(1/100) : ℚ)| := by
  refine ⟨by norm_num, ?_, ?_⟩
  · have h : analyzeMACDEvidence ⟨1, 101/100, -(1/100), "", ""⟩ =
        [⟨.bearish, "MACD", -(1/2)⟩, ⟨.bearish, "MACD", -(2/5)⟩] := by
      unfold analyzeMACDEvidence
      norm_num
    rw [h]; simp
  · rw [abs_neg, abs_one, abs_of_pos (by norm_num : (0:ℚ) < 1/100)]; norm_num

/-- C6 (amended): a histogram-magnitude item of strength `+0.4` is appended
iff the histogram is positive and exceeds one tenth of the *signed* MACD
value, one of strength `-0.4` iff the histogram is negative and
`-histogram > -macd/10`, and no `±0.4` item is appended otherwise (for a
nonnegative MACD value these conditions coincide with the `10%·|macd|`
reading; for a negative MACD value they do not). -/
theorem macd_histogram_item (m : MACDAnalysis) :
    ((⟨.bullish, "MACD", 2/5⟩ : Evidence) ∈ analyzeMACDEvidence m ↔
      0 < m.histogram ∧ m.macd * (1/10) < m.histogram) ∧
    ((⟨.bearish, "MACD", -(2/5)⟩ : Evidence) ∈ analyzeMACDEvidence m ↔
      m.histogram < 0 ∧ -m.macd * (1/10) < -m.histogram) ∧
    ((analyzeMACDEvidence m).filter
        (fun e => e.strength = 2/5 ∨ e.strength = -(2/5))).length =
      (if 0 < m.histogram ∧ m.macd * (1/10) < m.histogram then 1
       else if m.histogram < 0 ∧ -m.macd * (1/10) < -m.histogram then 1 else 0) := by
  by_cases hA : 0 < m.histogram ∧ m.macd * (1/10) < m.histogram
  · have h1 : (0:ℚ) < m.histogram := hA.1
    have h2 : m.macd * (1/10) < m.histogram := hA.2
    have h3 : ¬ m.histogram < 0 := asymm h1
    unfold analyzeMACDEvidence
    rw [if_pos hA]
    by_cases hc : m.signalLine < m.macd <;>
      (simp [hc, h1, h2, h3, Evidence.mk.injEq, List.filter]
       norm_num
       try exact ⟨h2, (if_pos h2).symm⟩)
  · by_cases hB : m.histogram < 0 ∧ -m.macd * (1/10) < -m.histogram
    · have h1 : m.histogram < 0 := hB.1
      have h2 : -m.macd * (1/10) < -m.histogram := hB.2
      have h2b : m.histogram < m.macd * (1/10) := by linarith
      have h3 : ¬ (0:ℚ) < m.histogram := asymm h1
      have h4 : ¬ m.macd * (1/10) < m.histogram := asymm h2b
      unfold analyzeMACDEvidence
      rw [if_neg hA, if_pos hB]
      by_cases hc : m.signalLine < m.macd <;>
        (simp [hc, h1, h2, h2b, h3, h4, Evidence.mk.injEq, List.filter]
         norm_num
         try exact ⟨h2b, (if_pos h2b).symm⟩)
    · have hA2 := hA
      have hB2 := hB
      push_neg at hA2 hB2
      have hBc : ¬(m.histogram < 0 ∧ m.histogram < m.macd * (1/10)) := by
        rintro ⟨hx, hy⟩; linarith [hB2 hx]
      unfold analyzeMACDEvidence
      rw [if_neg hA, if_neg hB]
      by_cases hc : m.signalLine < m.macd <;>
        (simp [hc, Evidence.mk.injEq, List.filter]
         norm_num
         try exact ⟨hA2, fun h => by linarith [hB2 h], by rw [if_neg hA, if_neg hBc]⟩)

/-! ## C9: fail-fast on insufficient data -/

/-- C9: for every candle sequence shorter than 200 both simulators return
the insufficient-data error and nothing else (no result value, hence no
trades and no statistics); for sequences of at least 200 candles the error
is never raised and a result is always produced. -/
theorem insufficient_data_failfast {σ : Type} (p1 : ParamsV1)
    (strat : Option (TradingStrategyS σ)) (s0 : σ) (p2 : ParamsV2) (data : List OHLCV) :
    (data.length < 200 →
      runBacktestV1 p1 strat s0 data =
          .error "insufficient data for backtest (need at least 200 candles)" ∧
        runBacktestV2 p2 data = .error "insufficient data for backtest") ∧
    (200 ≤ data.length →
      (∃ r, runBacktestV1 p1 strat s0 data = .ok r) ∧
        ∃ r, runBacktestV2 p2 data = .ok r) := by
  constructor
  · intro h
    constructor <;> simp [runBacktestV1, runBacktestV2, h]
  · intro h
    have h2 : ¬ data.length < 200 := not_lt.mpr h
    exact ⟨⟨_, by unfold runBacktestV1; rw [if_neg h2]⟩,
      ⟨_, by unfold runBacktestV2; rw [if_neg h2]⟩⟩

/-- Witness for `insufficient_data_failfast`: the empty sequence errors out,
a 200-candle sequence yields a result. -/
theorem insufficient_data_failfast_witness :
    (runBacktestV1 std1 (none : Option (TradingStrategyS Unit)) () [] =
        .error "insufficient data for backtest (need at least 200 candles)" ∧
      runBacktestV2 std2 [] = .error "insufficient data for backtest") ∧
      ((∃ r, runBacktestV1 std1 (none : Option (TradingStrategyS Unit)) ()
          (constData 200 100 1) = .ok r) ∧
        ∃ r, runBacktestV2 std2 (constData 200 100 1) = .ok r) :=
  ⟨(insufficient_data_failfast std1 none () std2 []).1 (by simp),
   (insufficient_data_failfast std1 none () std2 (constData 200 100 1)).2
     (by rw [constData, List.length_replicate])⟩

/-! ## C10: zero-profit trades count as losses -/

/-- The statistics fold of V1 counts strictly positive profits as winners
and everything else as losers. -/
theorem statsFoldV1 (l : List Trade) (acc : StatsAccV1) :
    (List.foldl statsStepV1 acc l).winningTrades
        = acc.winningTrades + (l.filter (fun t => 0 < t.profit)).length ∧
      (List.foldl statsStepV1 acc l).losingTrades
        = acc.losingTrades + (l.filter (fun t => t.profit ≤ 0)).length := by
  induction l generalizing acc with
  | nil => simp
  | cons t l ih =>
    rcases ih (statsStepV1 acc t) with ⟨h1, h2⟩
    constructor
    · rw [List.foldl_cons, h1]
      by_cases hp : 0 < t.profit <;> simp [statsStepV1, hp, List.filter_cons] <;> omega
    · rw [List.foldl_cons, h2]
      by_cases hp : 0 < t.profit
      · simp [statsStepV1, hp, not_le.mpr hp, List.filter_cons]
      · simp [statsStepV1, hp, not_lt.mp hp, List.filter_cons]; omega

/-- The statistics fold of V2 counts strictly positive profits as winners
and everything else as losers. -/
theorem statsFoldV2 (l : List TradeV2) (acc : StatsAccV2) :
    (List.foldl statsStepV2 acc l).winningTrades
        = acc.winningTrades + (l.filter (fun t => 0 < t.profit)).length ∧
      (List.foldl statsStepV2 acc l).losingTrades
        = acc.losingTrades + (l.filter (fun t => t.profit ≤ 0)).length := by
  induction l generalizing acc with
  | nil => simp
  | cons t l ih =>
    rcases ih (statsStepV2 acc t) with ⟨h1, h2⟩
    constructor
    · rw [List.foldl_cons, h1]
      by_cases hp : 0 < t.profit <;> simp [statsStepV2, hp, List.filter_cons] <;> omega
    · rw [List.foldl_cons, h2]
      by_cases hp : 0 < t.profit
      · simp [statsStepV2, hp, not_le.mpr hp, List.filter_cons]
      · simp [statsStepV2, hp, not_lt.mp hp, List.filter_cons]; omega

/-- C10: in both simulators' final statistics a trade counts as winning only
when its profit is strictly positive, every other trade (zero profit
included) counts as losing, `WinningTrades + LosingTrades = TotalTrades`,
and the win rate is the strictly-positive count over the total. -/
theorem stats_zero_profit_is_loss {σ : Type} (p1 : ParamsV1) (st1 : StateV1 σ)
    (p2 : ParamsV2) (data : List OHLCV) (st2 : StateV2) :
    ((computeResultV1 p1 st1).winningTrades
        = (st1.trades.filter (fun t => 0 < t.profit)).length ∧
      (computeResultV1 p1 st1).losingTrades
        = (st1.trades.filter (fun t => t.profit ≤ 0)).length ∧
      (computeResultV1 p1 st1).winningTrades + (computeResultV1 p1 st1).losingTrades
        = (computeResultV1 p1 st1).totalTrades ∧
      (computeResultV1 p1 st1).winRate =
        (if 0 < st1.trades.length then
          ((st1.trades.filter (fun t => 0 < t.profit)).length : ℚ) / (st1.trades.length : ℚ)
         else 0)) ∧
    ((computeResultV2 p2 data st2).winningTrades
        = (st2.trades.filter (fun t => 0 < t.profit)).length ∧
      (computeResultV2 p2 data st2).losingTrades
        = (st2.trades.filter (fun t => t.profit ≤ 0)).length ∧
      (computeResultV2 p2 data st2).winningTrades + (computeResultV2 p2 data st2).losingTrades
        = (computeResultV2 p2 data st2).totalTrades ∧
      (computeResultV2 p2 data st2).winRate =
        (if 0 < st2.trades.length then
          ((st2.trades.filter (fun t => 0 < t.profit)).length : ℚ) / (st2.trades.length : ℚ)
         else 0)) := by
  rcases statsFoldV1 st1.trades ⟨0, 0, 0, 0⟩ with ⟨hw1, hl1⟩
  rcases statsFoldV2 st2.trades ⟨0, 0, 0, 0, 0, 0⟩ with ⟨hw2, hl2⟩
  have hsum1 : (st1.trades.filter (fun t => 0 < t.profit)).length
      + (st1.trades.filter (fun t => t.profit ≤ 0)).length = st1.trades.length := by
    induction st1.trades with
    | nil => simp
    | cons t l ih =>
      by_cases hp : 0 < t.profit
      · simp [List.filter_cons, hp, not_le.mpr hp]; omega
      · simp [List.filter_cons, hp, not_lt.mp hp]; omega
  have hsum2 : (st2.trades.filter (fun t => 0 < t.profit)).length
      + (st2.trades.filter (fun t => t.profit ≤ 0)).length = st2.trades.length := by
    induction st2.trades with
    | nil => simp
    | cons t l ih =>
      by_cases hp : 0 < t.profit
      · simp [List.filter_cons, hp, not_le.mpr hp]; omega
      · simp [List.filter_cons, hp, not_lt.mp hp]; omega
  refine ⟨⟨?_, ?_, ?_, ?_⟩, ?_, ?_, ?_, ?_⟩ <;>
    simp [computeResultV1, computeResultV2, statsAccV1, statsAccV2, hw1, hl1, hw2, hl2,
      hsum1, hsum2]

/-! ## C8: RSI range and extremes -/

/-- The initial gain/loss fold keeps both components nonnegative. -/
theorem rsiInitFold_nonneg (l : List ℚ) (acc : ℚ × ℚ) (h1 : 0 ≤ acc.1) (h2 : 0 ≤ acc.2) :
    0 ≤ (l.foldl rsiInitStep acc).1 ∧ 0 ≤ (l.foldl rsiInitStep acc).2 := by
  induction l generalizing acc with
  | nil => exact ⟨h1, h2⟩
  | cons c l ih =>
    rw [List.foldl_cons]
    refine ih _ ?_ ?_ <;> unfold rsiInitStep <;> split_ifs <;> simp <;>
      first
        | positivity
        | assumption
        | (apply add_nonneg h1 (le_of_lt (by assumption)))
        | (apply add_nonneg h2 (abs_nonneg _))

/-- The Wilder smoothing fold keeps both components nonnegative for a
positive period. -/
theorem rsiSmoothFold_nonneg (p : ℕ) (hp : 0 < p) (l : List ℚ) (acc : ℚ × ℚ)
    (h1 : 0 ≤ acc.1) (h2 : 0 ≤ acc.2) :
    0 ≤ (l.foldl (rsiSmoothStep p) acc).1 ∧ 0 ≤ (l.foldl (rsiSmoothStep p) acc).2 := by
  have hp1 : (0:ℚ) ≤ (p : ℚ) - 1 := by
    have : (1:ℚ) ≤ (p : ℚ) := by exact_mod_cast hp
    linarith
  have hpq : (0:ℚ) ≤ (p : ℚ) := by positivity
  induction l generalizing acc with
  | nil => exact ⟨h1, h2⟩
  | cons c l ih =>
    rw [List.foldl_cons]
    refine ih _ ?_ ?_ <;> unfold rsiSmoothStep <;> split_ifs with hc <;> simp only
    · exact div_nonneg (add_nonneg (mul_nonneg h1 hp1) (le_of_lt hc)) hpq
    · exact div_nonneg (mul_nonneg h1 hp1) hpq
    · exact div_nonneg (mul_nonneg h2 hp1) hpq
    · exact div_nonneg (add_nonneg (mul_nonneg h2 hp1) (abs_nonneg _)) hpq

/-- Both smoothed RSI averages are nonnegative. -/
theorem rsiAvgs_nonneg (data : List ℚ) (p : ℕ) (hp : 0 < p) :
    0 ≤ (rsiAvgs data p).1 ∧ 0 ≤ (rsiAvgs data p).2 := by
  have hpq : (0:ℚ) ≤ (p : ℚ) := by positivity
  have hinit := rsiInitFold_nonneg ((rsiChanges data).take p) (0, 0) le_rfl le_rfl
  unfold rsiAvgs rsiSmooth
  exact rsiSmoothFold_nonneg p hp _ _
    (div_nonneg hinit.1 hpq) (div_nonneg hinit.2 hpq)

/-- The tail recursion of `rsiChanges` on two leading elements. -/
theorem rsiChanges_cons (a b : ℚ) (t : List ℚ) :
    rsiChanges (a :: b :: t) = (b - a) :: rsiChanges (b :: t) := by
  simp [rsiChanges]

/-- A strictly increasing series has strictly positive changes. -/
theorem rsiChanges_pos_of_chain (data : List ℚ) (h : List.Chain' (· < ·) data) :
    ∀ c ∈ rsiChanges data, 0 < c := by
  induction data with
  | nil => intro c hc; simp [rsiChanges] at hc
  | cons a t ih =>
    match t with
    | [] => intro c hc; simp [rsiChanges] at hc
    | b :: t =>
      intro c hc
      rw [rsiChanges_cons] at hc
      rcases List.mem_cons.mp hc with h1 | h1
      · subst h1
        have hab : a < b := (List.chain'_cons.mp h).1
        linarith
      · exact ih (List.chain'_cons.mp h).2 c h1

/-- A strictly decreasing series has strictly negative changes. -/
theorem rsiChanges_neg_of_chain (data : List ℚ) (h : List.Chain' (· > ·) data) :
    ∀ c ∈ rsiChanges data, c < 0 := by
  induction data with
  | nil => intro c hc; simp [rsiChanges] at hc
  | cons a t ih =>
    match t with
    | [] => intro c hc; simp [rsiChanges] at hc
    | b :: t =>
      intro c hc
      rw [rsiChanges_cons] at hc
      rcases List.mem_cons.mp hc with h1 | h1
      · subst h1
        have hab : b < a := (List.chain'_cons.mp h).1
        linarith
      · exact ih (List.chain'_cons.mp h).2 c h1

/-- Over strictly positive changes the loss side of the initial fold never
moves. -/
theorem rsiInitFold_loss_zero (l : List ℚ) (acc : ℚ × ℚ) (h : ∀ c ∈ l, 0 < c) :
    (l.foldl rsiInitStep acc).2 = acc.2 := by
  induction l generalizing acc with
  | nil => rfl
  | cons c l ih =>
    rw [List.foldl_cons, ih _ (fun x hx => h x (List.mem_cons_of_mem c hx))]
    unfold rsiInitStep
    rw [if_pos (h c (List.mem_cons_self _ _))]

/-- Over strictly positive changes the loss side of the smoothing fold stays
zero. -/
theorem rsiSmoothFold_loss_zero (p : ℕ) (l : List ℚ) (acc : ℚ × ℚ)
    (h : ∀ c ∈ l, 0 < c) (h2 : acc.2 = 0) :
    (l.foldl (rsiSmoothStep p) acc).2 = 0 := by
  induction l generalizing acc with
  | nil => exact h2
  | cons c l ih =>
    rw [List.foldl_cons]
    refine ih _ (fun x hx => h x (List.mem_cons_of_mem c hx)) ?_
    unfold rsiSmoothStep
    rw [if_pos (h c (List.mem_cons_self _ _))]
    simp [h2]

/-- Over strictly negative changes the gain side of the initial fold never
moves. -/
theorem rsiInitFold_gain_zero (l : List ℚ) (acc : ℚ × ℚ) (h : ∀ c ∈ l, c < 0) :
    (l.foldl rsiInitStep acc).1 = acc.1 := by
  induction l generalizing acc with
  | nil => rfl
  | cons c l ih =>
    rw [List.foldl_cons, ih _ (fun x hx => h x (List.mem_cons_of_mem c hx))]
    unfold rsiInitStep
    rw [if_neg (asymm (h c (List.mem_cons_self _ _)))]

/-- Over strictly negative changes the gain side of the smoothing fold stays
zero. -/
theorem rsiSmoothFold_gain_zero (p : ℕ) (l : List ℚ) (acc : ℚ × ℚ)
    (h : ∀ c ∈ l, c < 0) (h1 : acc.1 = 0) :
    (l.foldl (rsiSmoothStep p) acc).1 = 0 := by
  induction l generalizing acc with
  | nil => exact h1
  | cons c l ih =>
    rw [List.foldl_cons]
    refine ih _ (fun x hx => h x (List.mem_cons_of_mem c hx)) ?_
    unfold rsiSmoothStep
    rw [if_neg (asymm (h c (List.mem_cons_self _ _)))]
    simp [h1]

/-- Over strictly negative changes a nonempty initial fold makes the loss
side strictly positive. -/
theorem rsiInitFold_loss_pos (l : List ℚ) (acc : ℚ × ℚ) (hl : l ≠ [])
    (hacc : 0 ≤ acc.2) (h : ∀ c ∈ l, c < 0) :
    acc.2 < (l.foldl rsiInitStep acc).2 := by
  induction l generalizing acc with
  | nil => exact absurd rfl hl
  | cons c l ih =>
    rw [List.foldl_cons]
    have hc : c < 0 := h c (List.mem_cons_self _ _)
    have hstep : rsiInitStep acc c = (acc.1, acc.2 + |c|) := by
      unfold rsiInitStep; rw [if_neg (asymm hc)]
    have habs : 0 < |c| := abs_pos.mpr (ne_of_lt hc)
    match l with
    | [] =>
      rw [hstep]
      simpa using by linarith
    | d :: l2 =>
      have := ih (rsiInitStep acc c) (by simp)
        (by rw [hstep]; simpa using by linarith)
        (fun x hx => h x (List.mem_cons_of_mem c hx))
      rw [hstep] at this ⊢
      simp only at this
      linarith

/-- Over strictly negative changes the smoothing fold keeps the loss side
strictly positive (positive period). -/
theorem rsiSmoothFold_loss_pos (p : ℕ) (hp : 0 < p) (l : List ℚ) (acc : ℚ × ℚ)
    (h : ∀ c ∈ l, c < 0) (h2 : 0 < acc.2) :
    0 < (l.foldl (rsiSmoothStep p) acc).2 := by
  have hp1 : (0:ℚ) ≤ (p : ℚ) - 1 := by
    have : (1:ℚ) ≤ (p : ℚ) := by exact_mod_cast hp
    linarith
  have hpq : (0:ℚ) < (p : ℚ) := by exact_mod_cast hp
  induction l generalizing acc with
  | nil => exact h2
  | cons c l ih =>
    rw [List.foldl_cons]
    refine ih _ (fun x hx => h x (List.mem_cons_of_mem c hx)) ?_
    have hc : c < 0 := h c (List.mem_cons_self _ _)
    have habs : 0 < |c| := abs_pos.mpr (ne_of_lt hc)
    unfold rsiSmoothStep
    rw [if_neg (asymm hc)]
    have : 0 < acc.2 * ((p : ℚ) - 1) + |c| := by nlinarith
    positivity

/-- C8: for every series and positive period the RSI lies in `[0,100]`; it
is exactly 50 when the series is shorter than `period+1`, exactly 100 when
the smoothed average loss is zero, strictly above 90 for a strictly
increasing series of length `> period+1`, and strictly below 10 for a
strictly decreasing series of that length (the code then returns exactly
100 and exactly 0 respectively). -/
theorem rsi_range_and_extremes (data : List ℚ) (period : ℕ) (hp : 0 < period) :
    (0 ≤ rsi data period ∧ rsi data period ≤ 100) ∧
    (data.length < period + 1 → rsi data period = 50) ∧
    (period + 1 ≤ data.length → (rsiAvgs data period).2 = 0 → rsi data period = 100) ∧
    (period + 1 < data.length → List.Chain' (· < ·) data → 90 < rsi data period) ∧
    (period + 1 < data.length → List.Chain' (· > ·) data → rsi data period < 10) := by
  have hpq : (0:ℚ) < (period : ℚ) := by exact_mod_cast hp
  refine ⟨?_, ?_, ?_, ?_, ?_⟩
  · by_cases hlen : data.length < period + 1
    · unfold rsi; rw [if_pos hlen]; norm_num
    · unfold rsi
      rw [if_neg hlen]
      rcases rsiAvgs_nonneg data period hp with ⟨hg, hl⟩
      by_cases hz : (rsiAvgs data period).2 = 0
      · rw [if_pos hz]; norm_num
      · rw [if_neg hz]
        have hlpos : 0 < (rsiAvgs data period).2 := lt_of_le_of_ne hl (Ne.symm hz)
        have hrs : 0 ≤ (rsiAvgs data period).1 / (rsiAvgs data period).2 :=
          div_nonneg hg (le_of_lt hlpos)
        have hden : (0:ℚ) < 1 + (rsiAvgs data period).1 / (rsiAvgs data period).2 := by
          linarith
        have hfrac1 : 100 / (1 + (rsiAvgs data period).1 / (rsiAvgs data period).2) ≤ 100 := by
          rw [div_le_iff hden]; nlinarith
        have hfrac2 : 0 < 100 / (1 + (rsiAvgs data period).1 / (rsiAvgs data period).2) :=
          div_pos (by norm_num) hden
        constructor <;> linarith
  · intro hlen; unfold rsi; rw [if_pos hlen]
  · intro hlen hz
    unfold rsi
    rw [if_neg (not_lt.mpr hlen), if_pos hz]
  · intro hlen hchain
    have hposall := rsiChanges_pos_of_chain data hchain
    have hz : (rsiAvgs data period).2 = 0 := by
      unfold rsiAvgs rsiSmooth
      refine rsiSmoothFold_loss_zero period _ _
        (fun c hc => hposall c (List.mem_of_mem_drop hc)) ?_
      unfold rsiInitAvg
      simp only
      rw [rsiInitFold_loss_zero _ _ (fun c hc => hposall c (List.take_subset _ _ hc))]
      norm_num
    have := (by
      unfold rsi
      rw [if_neg (not_lt.mpr (le_of_lt hlen)), if_pos hz] : rsi data period = 100)
    rw [this]; norm_num
  · intro hlen hchain
    have hnegall := rsiChanges_neg_of_chain data hchain
    have hcl : period ≤ (rsiChanges data).length := by
      have : (rsiChanges data).length = data.length - 1 := by
        simp [rsiChanges]
      omega
    have htakene : (rsiChanges data).take period ≠ [] := by
      have : ((rsiChanges data).take period).length = period := by
        rw [List.length_take]
        omega
      intro hnil
      rw [hnil] at this
      simp at this
      omega
    have hg : (rsiAvgs data period).1 = 0 := by
      unfold rsiAvgs rsiSmooth
      refine rsiSmoothFold_gain_zero period _ _
        (fun c hc => hnegall c (List.mem_of_mem_drop hc)) ?_
      unfold rsiInitAvg
      simp only
      rw [rsiInitFold_gain_zero _ _ (fun c hc => hnegall c (List.take_subset _ _ hc))]
      norm_num
    have hlpos : 0 < (rsiAvgs data period).2 := by
      unfold rsiAvgs rsiSmooth
      refine rsiSmoothFold_loss_pos period hp _ _
        (fun c hc => hnegall c (List.mem_of_mem_drop hc)) ?_
      unfold rsiInitAvg
      simp only
      have := rsiInitFold_loss_pos ((rsiChanges data).take period) (0, 0) htakene
        le_rfl (fun c hc => hnegall c (List.take_subset _ _ hc))
      simp only at this
      positivity
    unfold rsi
    rw [if_neg (not_lt.mpr (le_of_lt hlen)), if_neg (ne_of_gt hlpos)]
    rw [hg, zero_div]
    norm_num

/-- Witness for `rsi_range_and_extremes` at period 2 and the 5-element
strictly increasing and decreasing series `[1,2,3,4,5]` / `[5,4,3,2,1]`. -/
theorem rsi_range_and_extremes_witness :
    (90 < rsi [1, 2, 3, 4, 5] 2) ∧ (rsi [5, 4, 3, 2, 1] 2 < 10) ∧
      (rsi [1] 2 = 50) :=
  ⟨(rsi_range_and_extremes [1, 2, 3, 4, 5] 2 (by norm_num)).2.2.2.1 (by norm_num)
      (by norm_num),
   (rsi_range_and_extremes [5, 4, 3, 2, 1] 2 (by norm_num)).2.2.2.2 (by norm_num)
      (by norm_num),
   (rsi_range_and_extremes [1] 2 (by norm_num)).2.1 (by norm_num)⟩

/-! ## C5: the combo strategy's regime is frozen while a position is open -/

/-- `ComboAdaptiveStrategy.ShouldEnter` returns before re-detecting the
market condition whenever the passed position is positive, leaving
`currentMode` untouched. -/
theorem comboShouldEnter_frozen (mode : String) (a : Analysis) (ts position : ℚ)
    (hpos : 0 < position) :
    comboAdaptiveStrategy.shouldEnter mode a ts position = (false, "", mode) := by
  simp only [comboAdaptiveStrategy]
  rw [if_pos hpos]

/-- The V1 drawdown phase never touches the strategy state. -/
theorem drawdownPhaseV1_mode {σ : Type} (st : StateV1 σ) (c : ℚ) :
    (drawdownPhaseV1 st c).strategyState = st.strategyState := by
  simp only [drawdownPhaseV1]
  split_ifs <;> rfl

/-- While a position is open, the signal phase of a combo-driven V1 step
leaves the combo mode unchanged (entry returns early, exit only reads). -/
theorem signalPhaseV1_combo_mode (p : ParamsV1) (a : Analysis)
    (currentPrice : ℚ) (currentTime : ℕ) (sig : ℚ) (st : StateV1 String)
    (hpos : 0 < st.position) :
    (signalPhaseV1 p (some comboAdaptiveStrategy) a currentPrice currentTime sig
        st).strategyState = st.strategyState := by
  simp only [signalPhaseV1]
  rw [comboShouldEnter_frozen st.strategyState a sig st.position hpos]
  simp only [Bool.false_eq_true, if_false]
  split_ifs <;> simp [closeSignalV1]

/-- While a position is open, the post-analysis body of a combo-driven V1
step leaves the combo mode unchanged. -/
theorem stepV1Go_combo_mode (p : ParamsV1) (data : List OHLCV) (i : ℕ) (a : Analysis)
    (st : StateV1 String) (hpos : 0 < st.position) :
    (stepV1Go p (some comboAdaptiveStrategy) data i a st).strategyState
      = st.strategyState := by
  dsimp only [stepV1Go]
  rw [if_pos hpos]
  split_ifs
  · simp [closeStopTakeV1]
  · simp [closeStopTakeV1]
  · rw [drawdownPhaseV1_mode, signalPhaseV1_combo_mode _ _ _ _ _ _ hpos]

/-- While a position is open, a whole combo-driven V1 step leaves the combo
mode unchanged. -/
theorem stepV1_combo_mode (p : ParamsV1) (data : List OHLCV) (i : ℕ)
    (st : StateV1 String) (hpos : 0 < st.position) :
    (stepV1 p (some comboAdaptiveStrategy) data i st).strategyState
      = st.strategyState := by
  unfold stepV1
  cases h : analyzeComprehensive ((data.drop (i - 100)).take 101) with
  | none => rfl
  | some a => exact stepV1Go_combo_mode p data i a st hpos

/-- `loopV1` peels its last step. -/
theorem loopV1_succ {σ : Type} (p : ParamsV1) (strat : Option (TradingStrategyS σ))
    (data : List OHLCV) (i k : ℕ) (st : StateV1 σ) :
    loopV1 p strat data i (k + 1) st
      = stepV1 p strat data (i + k) (loopV1 p strat data i k st) := by
  induction k generalizing i st with
  | zero => simp [loopV1]
  | succ k ih =>
    show loopV1 p strat data (i + 1) (k + 1) (stepV1 p strat data i st) = _
    rw [ih (i + 1) (stepV1 p strat data i st)]
    have harith : i + 1 + k = i + (k + 1) := by omega
    rw [harith]
    rfl

/-- `comboStateAt` peels its last step. -/
theorem comboStateAt_succ (p : ParamsV1) (data : List OHLCV) (s0 : String) (k : ℕ) :
    comboStateAt p data s0 (k + 1)
      = stepV1 p (some comboAdaptiveStrategy) data (100 + k) (comboStateAt p data s0 k) := by
  unfold comboStateAt
  rw [loopV1_succ]

/-- C5: driving `ComboAdaptiveStrategy` through the V1 simulator's strategy
interface, the combo mode (`currentMode`) consulted by an exit decision is
the one captured at the position's entry step: (i) `ShouldEnter` returns
before re-detecting the market condition whenever the passed position is
positive, and (ii) across any span of loop steps during which the position
stays open, the stored mode — the value every `ShouldExit` call of those
steps receives — is unchanged. -/
theorem combo_regime_frozen_while_open (p : ParamsV1) (data : List OHLCV)
    (s0 : String) (j k : ℕ) (hjk : j ≤ k)
    (hopen : ∀ m, j ≤ m → m < k → 0 < (comboStateAt p data s0 m).position) :
    ((comboStateAt p data s0 k).strategyState
        = (comboStateAt p data s0 j).strategyState) ∧
      ∀ (mode : String) (a : Analysis) (ts position : ℚ), 0 < position →
        comboAdaptiveStrategy.shouldEnter mode a ts position = (false, "", mode) := by
  refine ⟨?_, fun mode a ts position h => comboShouldEnter_frozen mode a ts position h⟩
  induction k with
  | zero =>
    have : j = 0 := Nat.le_zero.mp hjk
    rw [this]
  | succ k ih =>
    rcases Nat.lt_or_ge j (k + 1) with hlt | hge
    · have hjle : j ≤ k := Nat.lt_succ_iff.mp hlt
      have hmode := ih hjle (fun m h1 h2 => hopen m h1 (Nat.lt_succ_of_lt h2))
      have hpos : 0 < (comboStateAt p data s0 k).position :=
        hopen k hjle (Nat.lt_succ_self k)
      rw [comboStateAt_succ, stepV1_combo_mode p data (100 + k) _ hpos]
      exact hmode
    · have : j = k + 1 := le_antisymm hjk hge
      rw [this]

/-- Witness for `combo_regime_frozen_while_open` at `j = k = 0` on a
200-candle flat series (the position-open hypothesis is vacuous there). -/
theorem combo_regime_frozen_while_open_witness :
    ((comboStateAt std1 (constData 200 100 1) "detecting" 0).strategyState
        = (comboStateAt std1 (constData 200 100 1) "detecting" 0).strategyState) ∧
      ∀ (mode : String) (a : Analysis) (ts position : ℚ), 0 < position →
        comboAdaptiveStrategy.shouldEnter mode a ts position = (false, "", mode) :=
  combo_regime_frozen_while_open std1 (constData 200 100 1) "detecting" 0 0
    (Nat.le_refl 0) (fun m _ h2 => absurd h2 (Nat.not_lt_zero m))

attribute [local semireducible] Rat.mul Rat.inv Rat.add Rat.sub

theorem drawdownPhaseV2_trades (st : StateV2) (c : ℚ) :
    (drawdownPhaseV2 st c).trades = st.trades := by
  dsimp only [drawdownPhaseV2]; split_ifs <;> rfl

theorem sign_iff_long (s e x : ℚ) (hs : 0 < s) : 0 < s * (x - e) ↔ e < x := by
  constructor
  · intro h
    nlinarith
  · intro h
    have := mul_pos hs (sub_pos.mpr h)
    linarith

theorem sign_iff_short (s e x : ℚ) (hs : 0 < s) : 0 < s * (e - x) ↔ x < e := by
  constructor
  · intro h
    nlinarith
  · intro h
    have := mul_pos hs (sub_pos.mpr h)
    linarith

theorem closeStopTakeV2_mem (p : ParamsV2) (st : StateV2) (cur : ℚ) (tm : ℕ)
    (r : String) (hr : r = "止损" ∨ r = "止盈")
    (pct : ℚ)
    (hpct : pct = if st.positionType = .longPosition then (cur - st.entryPrice) / st.entryPrice
      else (st.entryPrice - cur) / st.entryPrice)
    (hpt : st.positionType ≠ .noPosition) :
    ∀ t ∈ (closeStopTakeV2 p st cur tm r pct).trades,
      t ∈ st.trades ∨ tradePropV2 cur t := by
  intro t ht
  unfold closeStopTakeV2 at ht
  by_cases hl : st.positionType = .longPosition
  · rw [if_pos hl] at ht
    simp only [List.mem_append, List.mem_singleton] at ht
    rcases ht with ht | ht
    · exact Or.inl ht
    · right
      subst ht
      have hdirL : getPositionString st.positionType = "LONG" := by rw [hl]; rfl
      refine ⟨fun _ => ⟨fun _ => ?_, fun hdir => ?_⟩, fun h1 h2 => ?_,
        fun hs => ⟨fun _ => ?_, fun hdir => ?_⟩⟩
      · simp only [hpct, if_pos hl]
      · simp [hdirL] at hdir
      · rcases hr with h | h <;> simp [h] at h1 h2
      · exact sign_iff_long _ _ _ hs
      · simp [hdirL] at hdir
  · rw [if_neg hl] at ht
    simp only [List.mem_append, List.mem_singleton] at ht
    rcases ht with ht | ht
    · exact Or.inl ht
    · right
      subst ht
      have hdirS : getPositionString st.positionType = "SHORT" := by
        cases hps : st.positionType
        · exact absurd hps hpt
        · exact absurd hps hl
        · rfl
      refine ⟨fun _ => ⟨fun hdir => ?_, fun _ => ?_⟩, fun h1 h2 => ?_,
        fun hs => ⟨fun hdir => ?_, fun _ => ?_⟩⟩
      · simp [hdirS] at hdir
      · simp only [hpct, if_neg hl]
      · rcases hr with h | h <;> simp [h] at h1 h2
      · simp [hdirS] at hdir
      · exact sign_iff_short _ _ _ hs

theorem shouldCloseLong_reason (a : Analysis) (ts e cur : ℚ) (r : String) :
    (shouldCloseLong a ts e cur r).2 ≠ "止损" ∧ (shouldCloseLong a ts e cur r).2 ≠ "止盈" := by
  unfold shouldCloseLong
  simp only [apply_ite Prod.snd]
  split_ifs <;> exact ⟨by decide, by decide⟩

theorem shouldCloseShort_reason (a : Analysis) (ts e cur : ℚ) (r : String) :
    (shouldCloseShort a ts e cur r).2 ≠ "止损" ∧ (shouldCloseShort a ts e cur r).2 ≠ "止盈" := by
  unfold shouldCloseShort
  simp only [apply_ite Prod.snd]
  split_ifs <;> exact ⟨by decide, by decide⟩

theorem longCloseV2_mem (p : ParamsV2) (st : StateV2) (cur : ℚ) (tm : ℕ)
    (r : String) (hr1 : r ≠ "止损") (hr2 : r ≠ "止盈") (sig : ℚ) :
    ∀ t ∈ (longCloseV2 p st cur tm r sig).trades,
      t ∈ st.trades ∨ tradePropV2 cur t := by
  intro t ht
  dsimp only [longCloseV2] at ht
  split_ifs at ht <;>
    (simp only [List.mem_append, List.mem_singleton] at ht
     rcases ht with ht | ht
     · exact Or.inl ht
     · right
       subst ht
       refine ⟨fun hss => ?_, fun _ _ => rfl, fun hs => ⟨fun _ => sign_iff_long _ _ _ hs, fun hdir => ?_⟩⟩
       · rcases hss with h | h
         · exact absurd h hr1
         · exact absurd h hr2
       · simp at hdir)

theorem shortCloseV2_mem (p : ParamsV2) (st : StateV2) (cur : ℚ) (tm : ℕ)
    (r : String) (hr1 : r ≠ "止损") (hr2 : r ≠ "止盈") (sig : ℚ) :
    ∀ t ∈ (shortCloseV2 p st cur tm r sig).trades,
      t ∈ st.trades ∨ tradePropV2 cur t := by
  intro t ht
  dsimp only [shortCloseV2] at ht
  split_ifs at ht <;>
    (simp only [List.mem_append, List.mem_singleton] at ht
     rcases ht with ht | ht
     · exact Or.inl ht
     · right
       subst ht
       refine ⟨fun hss => ?_, fun _ _ => rfl, fun hs => ⟨fun hdir => ?_, fun _ => sign_iff_short _ _ _ hs⟩⟩
       · rcases hss with h | h
         · exact absurd h hr1
         · exact absurd h hr2
       · simp at hdir)

theorem signalPhaseV2_mem (p : ParamsV2) (i : ℕ) (a : Analysis) (w : List OHLCV)
    (cur : ℚ) (tm : ℕ) (sig : ℚ) (st : StateV2) :
    ∀ t ∈ (signalPhaseV2 p i a w cur tm sig st).trades,
      t ∈ st.trades ∨ tradePropV2 cur t := by
  intro t ht
  dsimp only [signalPhaseV2] at ht
  split_ifs at ht
  all_goals try exact Or.inl ht
  all_goals try exact longCloseV2_mem p st cur tm _ (shouldCloseLong_reason a sig st.entryPrice cur (p.regimeOf i)).1 (shouldCloseLong_reason a sig st.entryPrice cur (p.regimeOf i)).2 sig t ht
  all_goals try exact shortCloseV2_mem p st cur tm _ (shouldCloseShort_reason a sig st.entryPrice cur (p.regimeOf i)).1 (shouldCloseShort_reason a sig st.entryPrice cur (p.regimeOf i)).2 sig t ht
  all_goals try exact longCloseV2_mem p st cur tm "平多" (by decide) (by decide) sig t ht
  all_goals try exact shortCloseV2_mem p st cur tm "平空" (by decide) (by decide) sig t ht
  all_goals try (have h9 := longCloseV2_mem p _ cur tm "动态止损" (by decide) (by decide) sig t ht; exact h9)
  all_goals (have h9 := shortCloseV2_mem p _ cur tm "动态止损" (by decide) (by decide) sig t ht; exact h9)

theorem stepV2Go_mem (p : ParamsV2) (data : List OHLCV) (i : ℕ) (a : Analysis) (st : StateV2) :
    ∀ t ∈ (stepV2Go p data i a st).trades,
      t ∈ st.trades ∨ tradePropV2 (currentCloseAt data i) t := by
  intro t ht
  dsimp only [stepV2Go] at ht
  split_ifs at ht with h1 h2 h3 h4
  all_goals try (rw [drawdownPhaseV2_trades] at ht; exact signalPhaseV2_mem p i a _ _ _ _ st t ht)
  all_goals try exact closeStopTakeV2_mem p st _ _ "止损" (Or.inl rfl) _ (by simp_all [currentCloseAt]) h1.1 t ht
  all_goals exact closeStopTakeV2_mem p st _ _ "止盈" (Or.inr rfl) _ (by simp_all [currentCloseAt]) h1.1 t ht

theorem stepV2_mem (p : ParamsV2) (data : List OHLCV) (i : ℕ) (st : StateV2) :
    ∀ t ∈ (stepV2 p data i st).trades,
      t ∈ st.trades ∨ tradePropV2 (currentCloseAt data i) t := by
  intro t ht
  unfold stepV2 at ht
  cases h : analyzeComprehensive ((data.drop (i - 100)).take 101) with
  | none => rw [h] at ht; exact Or.inl ht
  | some a => rw [h] at ht; exact stepV2Go_mem p data i a st t ht

theorem forcedCloseV2_mem (p : ParamsV2) (data : List OHLCV) (st : StateV2) (c : ℚ) :
    ∀ t ∈ (forcedCloseV2 p data st).trades,
      t ∈ st.trades ∨ tradePropV2 c t := by
  intro t ht
  dsimp only [forcedCloseV2] at ht
  split_ifs at ht with h1 h2
  · simp only [List.mem_append, List.mem_singleton] at ht
    rcases ht with ht | ht
    · exact Or.inl ht
    · right
      subst ht
      have hdirL : getPositionString st.positionType = "LONG" := by rw [h2]; rfl
      refine ⟨fun hss => ?_, fun _ _ => rfl, fun hs => ⟨fun _ => sign_iff_long _ _ _ hs, fun hdir => ?_⟩⟩
      · rcases hss with h | h <;> simp at h
      · simp [hdirL] at hdir
  · simp only [List.mem_append, List.mem_singleton] at ht
    rcases ht with ht | ht
    · exact Or.inl ht
    · right
      subst ht
      refine ⟨fun hss => ?_, fun _ _ => rfl,
        fun hs => ⟨fun hdir => ?_, fun _ => sign_iff_short _ _ _ hs⟩⟩
      · rcases hss with h | h <;> simp at h
      · cases hpt : st.positionType with
        | noPosition => rw [hpt] at hdir; simp [getPositionString] at hdir
        | longPosition => exact absurd hpt h2
        | shortPosition => rw [hpt] at hdir; simp [getPositionString] at hdir
  · exact Or.inl ht

theorem tradePropV1_mk (et : ℕ) (e : ℚ) (esig : String) (ct : ℕ) (ex : ℚ) (r : String)
    (pos : ℚ) :
    tradePropV1 ⟨et, e, esig, ct, ex, r, pos * (ex - e), pos * (ex - e) / (pos * e), pos⟩ :=
  ⟨rfl, fun hs => sign_iff_long _ _ _ hs⟩

theorem closeStopTakeV1_mem {σ : Type} (p : ParamsV1) (st : StateV1 σ) (cur : ℚ) (tm : ℕ)
    (r : String) :
    ∀ t ∈ (closeStopTakeV1 p st cur tm r).trades, t ∈ st.trades ∨ tradePropV1 t := by
  intro t ht
  dsimp only [closeStopTakeV1] at ht
  simp only [List.mem_append, List.mem_singleton] at ht
  rcases ht with ht | ht
  · exact Or.inl ht
  · right; subst ht; exact tradePropV1_mk _ _ _ _ _ _ _

theorem closeSignalV1_mem {σ : Type} (p : ParamsV1) (st : StateV1 σ) (cur : ℚ) (tm : ℕ)
    (r : String) :
    ∀ t ∈ (closeSignalV1 p st cur tm r).trades, t ∈ st.trades ∨ tradePropV1 t := by
  intro t ht
  dsimp only [closeSignalV1] at ht
  simp only [List.mem_append, List.mem_singleton] at ht
  rcases ht with ht | ht
  · exact Or.inl ht
  · right; subst ht; exact tradePropV1_mk _ _ _ _ _ _ _

theorem drawdownPhaseV1_trades {σ : Type} (st : StateV1 σ) (c : ℚ) :
    (drawdownPhaseV1 st c).trades = st.trades := by
  dsimp only [drawdownPhaseV1]; split_ifs <;> rfl

theorem signalPhaseV1_mem {σ : Type} (p : ParamsV1) (strat : Option (TradingStrategyS σ))
    (a : Analysis) (cur : ℚ) (tm : ℕ) (sig : ℚ) (st : StateV1 σ) :
    ∀ t ∈ (signalPhaseV1 p strat a cur tm sig st).trades, t ∈ st.trades ∨ tradePropV1 t := by
  intro t ht
  cases strat with
  | none =>
    simp only [signalPhaseV1] at ht
    split_ifs at ht
    all_goals try exact Or.inl ht
    all_goals exact closeSignalV1_mem p st cur tm "平仓" t ht
  | some str =>
    simp only [signalPhaseV1] at ht
    split_ifs at ht
    all_goals try exact Or.inl ht
    all_goals (have h9 := closeSignalV1_mem p _ cur tm _ t ht; exact h9)

theorem stepV1Go_mem {σ : Type} (p : ParamsV1) (strat : Option (TradingStrategyS σ))
    (data : List OHLCV) (i : ℕ) (a : Analysis) (st : StateV1 σ) :
    ∀ t ∈ (stepV1Go p strat data i a st).trades, t ∈ st.trades ∨ tradePropV1 t := by
  intro t ht
  dsimp only [stepV1Go] at ht
  split_ifs at ht
  all_goals try (rw [drawdownPhaseV1_trades] at ht
                 exact signalPhaseV1_mem p strat a _ _ _ st t ht)
  all_goals try exact closeStopTakeV1_mem p st _ _ "止损" t ht
  all_goals exact closeStopTakeV1_mem p st _ _ "止盈" t ht

theorem stepV1_mem {σ : Type} (p : ParamsV1) (strat : Option (TradingStrategyS σ))
    (data : List OHLCV) (i : ℕ) (st : StateV1 σ) :
    ∀ t ∈ (stepV1 p strat data i st).trades, t ∈ st.trades ∨ tradePropV1 t := by
  intro t ht
  unfold stepV1 at ht
  cases h : analyzeComprehensive ((data.drop (i - 100)).take 101) with
  | none => rw [h] at ht; exact Or.inl ht
  | some a => rw [h] at ht; exact stepV1Go_mem p strat data i a st t ht

theorem forcedCloseV1_mem {σ : Type} (p : ParamsV1) (data : List OHLCV) (st : StateV1 σ) :
    ∀ t ∈ (forcedCloseV1 p data st).trades, t ∈ st.trades ∨ tradePropV1 t := by
  intro t ht
  dsimp only [forcedCloseV1] at ht
  split_ifs at ht
  · simp only [List.mem_append, List.mem_singleton] at ht
    rcases ht with ht | ht
    · exact Or.inl ht
    · right; subst ht; exact tradePropV1_mk _ _ _ _ _ _ _
  · exact Or.inl ht

/-- C3 (amended): every trade appended by a V2 step or forced close
satisfies `tradePropV2` (ProfitPct is the pre-cost move for stop/take
closes and `Profit/(Size*EntryPrice)` otherwise, with direction-consistent
profit sign), and every trade appended by a V1 step or forced close
satisfies `tradePropV1` (ProfitPct equals `Profit/(Holding*EntryPrice)`
with the long profit-sign rule). -/
theorem trade_record_consistency (p2 : ParamsV2) (d2 : List OHLCV) (i : ℕ) (s2 : StateV2)
    {σ : Type} (p1 : ParamsV1) (strat : Option (TradingStrategyS σ)) (d1 : List OHLCV)
    (j : ℕ) (s1 : StateV1 σ) (c : ℚ) :
    (∀ t ∈ (stepV2 p2 d2 i s2).trades, t ∈ s2.trades ∨ tradePropV2 (currentCloseAt d2 i) t) ∧
    (∀ t ∈ (forcedCloseV2 p2 d2 s2).trades, t ∈ s2.trades ∨ tradePropV2 c t) ∧
    (∀ t ∈ (stepV1 p1 strat d1 j s1).trades, t ∈ s1.trades ∨ tradePropV1 t) ∧
    (∀ t ∈ (forcedCloseV1 p1 d1 s1).trades, t ∈ s1.trades ∨ tradePropV1 t) :=
  ⟨stepV2_mem p2 d2 i s2, forcedCloseV2_mem p2 d2 s2 c,
   stepV1_mem p1 strat d1 j s1, forcedCloseV1_mem p1 d1 s1⟩

/-- C3 witness: the V2 part applied at empty data and a one-trade state. -/
theorem trade_record_consistency_witness :
    tau0 ∈ stTau.trades ∨ tradePropV2 (currentCloseAt [] 0) tau0 :=
  (trade_record_consistency std2 [] 0 stTau std1 (none : Option (TradingStrategyS Unit)) []
      0 (initStateV1 std1 ()) 0).1 tau0 (by decide)

/-- C4 (amended): at a V2 step where the stop-loss or take-profit trigger
fires, the whole step is the `continue`-terminated close alone, so the step
ends flat with only the close appended and no same-step entry occurs. -/
theorem stop_take_skips_same_step_entry (p : ParamsV2) (data : List OHLCV) (i : ℕ)
    (st : StateV2) (a : Analysis)
    (ha : analyzeComprehensive ((data.drop (i - 100)).take 101) = some a)
    (hopen : st.positionType ≠ .noPosition ∧ 0 < st.position)
    (hfire : profitPctAt data i st ≤ -p.stopLoss ∨
      (¬profitPctAt data i st ≤ -p.stopLoss ∧ p.takeProfit ≤ profitPctAt data i st)) :
    stepV2 p data i st =
      closeStopTakeV2 p st (currentCloseAt data i) (currentTimeAt data i)
        (if profitPctAt data i st ≤ -p.stopLoss then "止损" else "止盈")
        (profitPctAt data i st) ∧
    (stepV2 p data i st).positionType = .noPosition ∧
    (stepV2 p data i st).position = 0 := by
  have hstep : stepV2 p data i st =
      closeStopTakeV2 p st (currentCloseAt data i) (currentTimeAt data i)
        (if profitPctAt data i st ≤ -p.stopLoss then "止损" else "止盈")
        (profitPctAt data i st) := by
    unfold profitPctAt currentCloseAt at hfire
    unfold profitPctAt currentCloseAt currentTimeAt
    unfold stepV2
    rw [ha]
    dsimp only [stepV2Go]
    rw [if_pos hopen]
    rcases hfire with h1 | ⟨h1, h2⟩
    · rw [if_pos h1, if_pos h1]
    · rw [if_neg h1, if_pos h2, if_neg h1]
  refine ⟨hstep, ?_, ?_⟩ <;>
    · rw [hstep]
      dsimp only [closeStopTakeV2]
      split_ifs <;> rfl

set_option maxRecDepth 40000 in
/-- C4 witness: the short opened on the first step of `skipEntryData` hits
its stop at step 101, and the step is exactly that close. -/
theorem stop_take_skips_same_step_entry_witness :
    (loopV2 std2 skipEntryData 100 1 (initStateV2 std2)).positionType ≠ .noPosition ∧
    stepV2 std2 skipEntryData 101 (loopV2 std2 skipEntryData 100 1 (initStateV2 std2)) =
      closeStopTakeV2 std2 (loopV2 std2 skipEntryData 100 1 (initStateV2 std2))
        (currentCloseAt skipEntryData 101) (currentTimeAt skipEntryData 101)
        (if profitPctAt skipEntryData 101
              (loopV2 std2 skipEntryData 100 1 (initStateV2 std2)) ≤ -std2.stopLoss
         then "止损" else "止盈")
        (profitPctAt skipEntryData 101 (loopV2 std2 skipEntryData 100 1 (initStateV2 std2))) :=
  ⟨by decide,
   (stop_take_skips_same_step_entry std2 skipEntryData 101
      (loopV2 std2 skipEntryData 100 1 (initStateV2 std2))
      (anaAt skipEntryData 101) (by decide) (by decide) (Or.inl (by decide))).1⟩

set_option maxRecDepth 40000 in
/-- C4 counterexample: at step 101 of `skipEntryData` the stop-loss fires
while the long-entry condition `longThreshold < sig` holds (the signal is
`19/10 > 1/2`), yet after that step the simulator is flat with only the
stop-loss trade recorded — the entry did not happen at that step. -/
theorem stop_take_skips_same_step_entry_counterexample :
    std2.longThreshold <
      sigV2w (anaAt skipEntryData 101) (currentCloseAt skipEntryData 101) (11/10) ∧
    (loopV2 std2 skipEntryData 100 2 (initStateV2 std2)).positionType = .noPosition ∧
    (loopV2 std2 skipEntryData 100 2 (initStateV2 std2)).position = 0 ∧
    ((loopV2 std2 skipEntryData 100 2 (initStateV2 std2)).trades.map
      (fun t => t.exitSignal)) = ["止损"] := by decide

theorem sumProfitsV2_append (ts : List TradeV2) (t : TradeV2) :
    sumProfitsV2 (ts ++ [t]) = sumProfitsV2 ts + t.profit := by
  simp [sumProfitsV2]

theorem sumProfitsV1_append (ts : List Trade) (t : Trade) :
    sumProfitsV1 (ts ++ [t]) = sumProfitsV1 ts + t.profit := by
  simp [sumProfitsV1]

theorem closeStopTakeV2_inv (init : ℚ) (p : ParamsV2) (st : StateV2) (cur : ℚ) (tm : ℕ)
    (r : String) (pct : ℚ) (hpt : st.positionType ≠ .noPosition) (hinv : InvV2 init st) :
    InvV2 init (closeStopTakeV2 p st cur tm r pct) := by
  obtain ⟨hE, hcap, hflat⟩ := hinv
  have hcap0 : st.capital = 0 := hcap hpt
  dsimp only [closeStopTakeV2]
  split_ifs with hl
  · refine ⟨?_, fun h => absurd rfl h, fun _ => rfl⟩
    rw [sumProfitsV2_append]
    dsimp only
    rw [hcap0] at hE
    linarith [hE]
  · refine ⟨?_, fun h => absurd rfl h, fun _ => rfl⟩
    rw [sumProfitsV2_append]
    dsimp only
    rw [hcap0] at hE
    linarith [hE]

theorem longCloseV2_inv (init : ℚ) (p : ParamsV2) (st : StateV2) (cur : ℚ) (tm : ℕ)
    (r : String) (sig : ℚ) (hcur : 0 < cur) (hf : 0 ≤ p.feeRate) (hs : 0 ≤ p.slippage)
    (hfs : p.feeRate + p.slippage < 1)
    (hpt : st.positionType ≠ .noPosition) (hinv : InvV2 init st) :
    InvV2 init (longCloseV2 p st cur tm r sig) := by
  obtain ⟨hE, hcap, hflat⟩ := hinv
  have hcap0 : st.capital = 0 := hcap hpt
  have he2 : cur * (1 - p.slippage - p.feeRate) ≠ 0 := by nlinarith
  dsimp only [longCloseV2]
  split_ifs with hrev
  · refine ⟨?_, fun h => rfl, fun h => by simp at h⟩
    dsimp only
    rw [sumProfitsV2_append]
    dsimp only
    rw [div_mul_cancel₀ _ he2]
    rw [hcap0] at hE
    linarith [hE]
  · refine ⟨?_, fun h => absurd rfl h, fun _ => rfl⟩
    dsimp only
    rw [sumProfitsV2_append]
    dsimp only
    rw [hcap0] at hE
    linarith [hE]

theorem shortCloseV2_inv (init : ℚ) (p : ParamsV2) (st : StateV2) (cur : ℚ) (tm : ℕ)
    (r : String) (sig : ℚ) (hcur : 0 < cur) (hf : 0 ≤ p.feeRate) (hs : 0 ≤ p.slippage)
    (hfs : p.feeRate + p.slippage < 1)
    (hpt : st.positionType ≠ .noPosition) (hinv : InvV2 init st) :
    InvV2 init (shortCloseV2 p st cur tm r sig) := by
  obtain ⟨hE, hcap, hflat⟩ := hinv
  have hcap0 : st.capital = 0 := hcap hpt
  have he2 : cur * (1 + p.slippage + p.feeRate) ≠ 0 := by nlinarith
  dsimp only [shortCloseV2]
  split_ifs with hrev
  · refine ⟨?_, fun h => rfl, fun h => by simp at h⟩
    dsimp only
    rw [sumProfitsV2_append]
    dsimp only
    rw [div_mul_cancel₀ _ he2]
    rw [hcap0] at hE
    linarith [hE]
  · refine ⟨?_, fun h => absurd rfl h, fun _ => rfl⟩
    dsimp only
    rw [sumProfitsV2_append]
    dsimp only
    rw [hcap0] at hE
    linarith [hE]

set_option maxHeartbeats 1600000 in
theorem signalPhaseV2_inv (init : ℚ) (p : ParamsV2) (i : ℕ) (a : Analysis) (w : List OHLCV)
    (cur : ℚ) (tm : ℕ) (sig : ℚ) (st : StateV2) (hcur : 0 < cur) (hf : 0 ≤ p.feeRate)
    (hs : 0 ≤ p.slippage) (hfs : p.feeRate + p.slippage < 1) (hinv : InvV2 init st) :
    InvV2 init (signalPhaseV2 p i a w cur tm sig st) := by
  have heL : cur * (1 + p.slippage + p.feeRate) ≠ 0 := by nlinarith
  have heS : cur * (1 - p.slippage - p.feeRate) ≠ 0 := by nlinarith
  obtain ⟨hE, hcap, hflat⟩ := hinv
  dsimp only [signalPhaseV2]
  split_ifs with h1 h2 h3 h4 h5 h6 h7 h8 h9 h10 h11 h12 h13 h14 h15
  all_goals try exact ⟨hE, hcap, hflat⟩
  -- flat entry branches: position was 0, equity is the free capital
  all_goals try
    (refine ⟨?_, fun h => rfl, fun h => by simp at h⟩
     dsimp only
     rw [div_mul_cancel₀ _ heL]
     rw [hflat h1] at hE
     linarith [hE])
  all_goals try
    (refine ⟨?_, fun h => rfl, fun h => by simp at h⟩
     dsimp only
     rw [div_mul_cancel₀ _ heS]
     rw [hflat h1] at hE
     linarith [hE])
  -- open-position branches: signal exits, dynamic stops, ratchet updates
  all_goals try exact longCloseV2_inv init p st cur tm _ sig hcur hf hs hfs h1 ⟨hE, hcap, hflat⟩
  all_goals try exact shortCloseV2_inv init p st cur tm _ sig hcur hf hs hfs h1 ⟨hE, hcap, hflat⟩
  all_goals try exact longCloseV2_inv init p { st with currentStopLoss := getDynamicStopLoss p.improved st.entryPrice cur PositionType.longPosition (calculateATR w 14) } cur tm "动态止损" sig hcur hf hs hfs h1 ⟨hE, hcap, hflat⟩
  all_goals try exact shortCloseV2_inv init p { st with currentStopLoss := getDynamicStopLoss p.improved st.entryPrice cur PositionType.shortPosition (calculateATR w 14) } cur tm "动态止损" sig hcur hf hs hfs h1 ⟨hE, hcap, hflat⟩
  all_goals exact ⟨hE, hcap, hflat⟩

theorem drawdownPhaseV2_inv (init : ℚ) (st : StateV2) (c : ℚ) (hinv : InvV2 init st) :
    InvV2 init (drawdownPhaseV2 st c) := by
  have h1 : (drawdownPhaseV2 st c).capital = st.capital := by
    dsimp only [drawdownPhaseV2]; split_ifs <;> rfl
  have h2 : (drawdownPhaseV2 st c).position = st.position := by
    dsimp only [drawdownPhaseV2]; split_ifs <;> rfl
  have h3 : (drawdownPhaseV2 st c).entryPrice = st.entryPrice := by
    dsimp only [drawdownPhaseV2]; split_ifs <;> rfl
  have h4 : (drawdownPhaseV2 st c).positionType = st.positionType := by
    dsimp only [drawdownPhaseV2]; split_ifs <;> rfl
  have h5 : (drawdownPhaseV2 st c).trades = st.trades := drawdownPhaseV2_trades st c
  unfold InvV2
  rw [h1, h2, h3, h4, h5]
  exact hinv

theorem getLastD_mem {α : Type} (l : List α) (d : α) (h : l ≠ []) : l.getLastD d ∈ l := by
  induction l with
  | nil => exact absurd rfl h
  | cons x tl ih =>
    cases tl with
    | nil => exact List.mem_singleton.mpr rfl
    | cons y tl2 =>
      rw [List.getLastD_cons]
      exact List.mem_cons_of_mem x (ih (by simp))

theorem window_close_pos (data : List OHLCV) (i : ℕ)
    (hdata : ∀ q ∈ data, 0 < q.close)
    (hne : ((data.drop (i - 100)).take 101) ≠ []) :
    0 < (((data.drop (i - 100)).take 101).getLastD default).close :=
  hdata _ (List.drop_subset _ _ (List.take_subset _ _ (getLastD_mem _ _ hne)))

theorem stepV2_inv (init : ℚ) (p : ParamsV2) (data : List OHLCV) (i : ℕ) (st : StateV2)
    (hdata : ∀ q ∈ data, 0 < q.close) (hf : 0 ≤ p.feeRate) (hs : 0 ≤ p.slippage)
    (hfs : p.feeRate + p.slippage < 1) (hinv : InvV2 init st) :
    InvV2 init (stepV2 p data i st) := by
  unfold stepV2
  cases h : analyzeComprehensive ((data.drop (i - 100)).take 101) with
  | none => exact hinv
  | some a =>
    have hne : ((data.drop (i - 100)).take 101) ≠ [] := by
      intro hnil
      unfold analyzeComprehensive at h
      rw [hnil] at h
      simp at h
    have hcur := window_close_pos data i hdata hne
    dsimp only [stepV2Go]
    split_ifs with h1 h2 h3 h4 h5 h6
    all_goals try exact closeStopTakeV2_inv init p st _ _ _ _ h1.1 hinv
    all_goals exact drawdownPhaseV2_inv init _ _ (signalPhaseV2_inv init p i a _ _ _ _ st hcur hf hs hfs hinv)

theorem loopV2_inv (init : ℚ) (p : ParamsV2) (data : List OHLCV)
    (hdata : ∀ q ∈ data, 0 < q.close) (hf : 0 ≤ p.feeRate) (hs : 0 ≤ p.slippage)
    (hfs : p.feeRate + p.slippage < 1) :
    ∀ (k i : ℕ) (st : StateV2), InvV2 init st → InvV2 init (loopV2 p data i k st) := by
  intro k
  induction k with
  | zero => exact fun i st h => h
  | succ n ih =>
    intro i st h
    exact ih (i + 1) (stepV2 p data i st) (stepV2_inv init p data i st hdata hf hs hfs h)

theorem forcedCloseV2_capital (init : ℚ) (p : ParamsV2) (data : List OHLCV) (st : StateV2)
    (hinv : InvV2 init st) (hpos : 0 ≤ st.position) :
    (forcedCloseV2 p data st).capital =
      init + sumProfitsV2 (forcedCloseV2 p data st).trades := by
  obtain ⟨hE, hcap, hflat⟩ := hinv
  dsimp only [forcedCloseV2]
  split_ifs with h1 h2
  · have hpt : st.positionType ≠ .noPosition := by
      intro hn
      rw [hflat hn] at h1
      exact absurd h1 (by norm_num)
    have hcap0 : st.capital = 0 := hcap hpt
    dsimp only
    rw [sumProfitsV2_append]
    dsimp only
    rw [hcap0] at hE
    linarith [hE]
  · have hpt : st.positionType ≠ .noPosition := by
      intro hn
      rw [hflat hn] at h1
      exact absurd h1 (by norm_num)
    have hcap0 : st.capital = 0 := hcap hpt
    dsimp only
    rw [sumProfitsV2_append]
    dsimp only
    rw [hcap0] at hE
    linarith [hE]
  · have hz : st.position = 0 := le_antisymm (not_lt.mp h1) hpos
    rw [hz] at hE
    linarith [hE]

theorem closeStopTakeV1_inv {σ : Type} (init : ℚ) (p : ParamsV1) (st : StateV1 σ)
    (cur : ℚ) (tm : ℕ) (r : String) (hcur : 0 < cur) (hf : 0 ≤ p.feeRate)
    (hs : 0 ≤ p.slippage) (hfs : p.feeRate + p.slippage < 1) (hinv : InvV1 init st) :
    InvV1 init (closeStopTakeV1 p st cur tm r) := by
  obtain ⟨hE, hcap, hpos, hcappos⟩ := hinv
  have hex : 0 < cur * (1 - p.slippage - p.feeRate) := by nlinarith
  dsimp only [closeStopTakeV1]
  refine ⟨?_, fun h => absurd rfl h, le_refl 0, ?_⟩
  · dsimp only
    rw [sumProfitsV1_append]
    dsimp only
    linarith [hE]
  · dsimp only
    nlinarith [mul_nonneg hpos (le_of_lt hex)]

theorem closeSignalV1_inv {σ : Type} (init : ℚ) (p : ParamsV1) (st : StateV1 σ)
    (cur : ℚ) (tm : ℕ) (r : String) (hcur : 0 < cur) (hf : 0 ≤ p.feeRate)
    (hs : 0 ≤ p.slippage) (hfs : p.feeRate + p.slippage < 1)
    (hp : 0 < st.position) (hinv : InvV1 init st) :
    InvV1 init (closeSignalV1 p st cur tm r) := by
  obtain ⟨hE, hcap, hpos, hcappos⟩ := hinv
  have hcap0 : st.capital = 0 := hcap (ne_of_gt hp)
  have hex : 0 < cur * (1 - p.slippage - p.feeRate) := by nlinarith
  dsimp only [closeSignalV1]
  refine ⟨?_, fun h => absurd rfl h, le_refl 0, ?_⟩
  · dsimp only
    rw [sumProfitsV1_append]
    dsimp only
    rw [hcap0] at hE
    linarith [hE]
  · dsimp only
    nlinarith [mul_nonneg (le_of_lt hp) (le_of_lt hex)]

theorem signalPhaseV1_inv {σ : Type} (init : ℚ) (p : ParamsV1)
    (strat : Option (TradingStrategyS σ)) (a : Analysis) (cur : ℚ) (tm : ℕ) (sig : ℚ)
    (st : StateV1 σ) (hcur : 0 < cur) (hf : 0 ≤ p.feeRate) (hs : 0 ≤ p.slippage)
    (hfs : p.feeRate + p.slippage < 1)
    (hguard : ∀ s, strat = some s → ∀ (m : σ) (b : Analysis) (ts pos : ℚ), 0 < pos →
      (s.shouldEnter m b ts pos).1 = false)
    (hinv : InvV1 init st) : InvV1 init (signalPhaseV1 p strat a cur tm sig st) := by
  obtain ⟨hE, hcap, hpos, hcappos⟩ := hinv
  have heL : cur * (1 + p.slippage + p.feeRate) ≠ 0 := by nlinarith
  have heLpos : 0 < cur * (1 + p.slippage + p.feeRate) := by nlinarith
  cases strat with
  | none =>
    simp only [signalPhaseV1]
    split_ifs with h1 h2
    · refine ⟨?_, fun h => rfl, ?_, le_refl 0⟩
      · dsimp only
        rw [div_mul_cancel₀ _ heL]
        rw [h1.1] at hE
        linarith [hE]
      · dsimp only
        exact div_nonneg hcappos (le_of_lt heLpos)
    · exact closeSignalV1_inv init p st cur tm "平仓" hcur hf hs hfs h2.1
        ⟨hE, hcap, hpos, hcappos⟩
    · exact ⟨hE, hcap, hpos, hcappos⟩
  | some str =>
    have hinv1 : InvV1 init { st with strategyState :=
        (str.shouldEnter st.strategyState a sig st.position).2.2 } :=
      ⟨hE, hcap, hpos, hcappos⟩
    simp only [signalPhaseV1]
    split_ifs with h1 h2 h3
    · -- entry accepted: the strategy guard forces a flat prior position
      have hz : st.position = 0 := by
        rcases lt_or_eq_of_le hpos with h | h
        · exact absurd h1 (by rw [hguard str rfl _ _ _ _ h]; exact Bool.false_ne_true)
        · exact h.symm
      refine ⟨?_, fun h => rfl, ?_, le_refl 0⟩
      · dsimp only
        rw [div_mul_cancel₀ _ heL]
        rw [hz] at hE
        linarith [hE]
      · dsimp only
        exact div_nonneg hcappos (le_of_lt heLpos)
    · have h9 := closeSignalV1_inv init p _ cur tm
        (str.shouldExit (str.shouldEnter st.strategyState a sig st.position).2.2 a sig
          st.position st.entryPrice).2 hcur hf hs hfs h2 hinv1
      exact h9
    · exact hinv1
    · exact hinv1

theorem drawdownPhaseV1_inv {σ : Type} (init : ℚ) (st : StateV1 σ) (c : ℚ)
    (hinv : InvV1 init st) : InvV1 init (drawdownPhaseV1 st c) := by
  have h1 : (drawdownPhaseV1 st c).capital = st.capital := by
    dsimp only [drawdownPhaseV1]; split_ifs <;> rfl
  have h2 : (drawdownPhaseV1 st c).position = st.position := by
    dsimp only [drawdownPhaseV1]; split_ifs <;> rfl
  have h3 : (drawdownPhaseV1 st c).entryPrice = st.entryPrice := by
    dsimp only [drawdownPhaseV1]; split_ifs <;> rfl
  have h5 : (drawdownPhaseV1 st c).trades = st.trades := drawdownPhaseV1_trades st c
  unfold InvV1
  rw [h1, h2, h3, h5]
  exact hinv

theorem stepV1_inv {σ : Type} (init : ℚ) (p : ParamsV1)
    (strat : Option (TradingStrategyS σ)) (data : List OHLCV) (i : ℕ) (st : StateV1 σ)
    (hdata : ∀ q ∈ data, 0 < q.close) (hf : 0 ≤ p.feeRate) (hs : 0 ≤ p.slippage)
    (hfs : p.feeRate + p.slippage < 1)
    (hguard : ∀ s, strat = some s → ∀ (m : σ) (b : Analysis) (ts pos : ℚ), 0 < pos →
      (s.shouldEnter m b ts pos).1 = false)
    (hinv : InvV1 init st) : InvV1 init (stepV1 p strat data i st) := by
  unfold stepV1
  cases h : analyzeComprehensive ((data.drop (i - 100)).take 101) with
  | none => exact hinv
  | some a =>
    have hne : ((data.drop (i - 100)).take 101) ≠ [] := by
      intro hnil
      unfold analyzeComprehensive at h
      rw [hnil] at h
      simp at h
    have hcur := window_close_pos data i hdata hne
    dsimp only [stepV1Go]
    split_ifs with h1 h2 h3 h4
    all_goals try exact closeStopTakeV1_inv init p st _ _ _ hcur hf hs hfs hinv
    all_goals exact drawdownPhaseV1_inv init _ _ (signalPhaseV1_inv init p strat a _ _ _ st hcur hf hs hfs hguard hinv)

theorem loopV1_inv {σ : Type} (init : ℚ) (p : ParamsV1)
    (strat : Option (TradingStrategyS σ)) (data : List OHLCV)
    (hdata : ∀ q ∈ data, 0 < q.close) (hf : 0 ≤ p.feeRate) (hs : 0 ≤ p.slippage)
    (hfs : p.feeRate + p.slippage < 1)
    (hguard : ∀ s, strat = some s → ∀ (m : σ) (b : Analysis) (ts pos : ℚ), 0 < pos →
      (s.shouldEnter m b ts pos).1 = false) :
    ∀ (k i : ℕ) (st : StateV1 σ), InvV1 init st →
      InvV1 init (loopV1 p strat data i k st) := by
  intro k
  induction k with
  | zero => exact fun i st h => h
  | succ n ih =>
    intro i st h
    exact ih (i + 1) (stepV1 p strat data i st)
      (stepV1_inv init p strat data i st hdata hf hs hfs hguard h)

theorem forcedCloseV1_capital {σ : Type} (init : ℚ) (p : ParamsV1) (data : List OHLCV)
    (st : StateV1 σ) (hinv : InvV1 init st) :
    (forcedCloseV1 p data st).capital =
      init + sumProfitsV1 (forcedCloseV1 p data st).trades := by
  obtain ⟨hE, hcap, hpos, hcappos⟩ := hinv
  dsimp only [forcedCloseV1]
  split_ifs with h1
  · have hcap0 : st.capital = 0 := hcap (ne_of_gt h1)
    dsimp only
    rw [sumProfitsV1_append]
    dsimp only
    rw [hcap0] at hE
    linarith [hE]
  · have hz : st.position = 0 := le_antisymm (not_lt.mp h1) hpos
    rw [hz] at hE
    linarith [hE]

/-- C1 (amended): over positive-close data with sane cost parameters,
`FinalCapital − InitialCapital = Σ Trade.Profit` holds for every V1 run
whose plugged strategy never enters on an open position (the four shipped
strategies all satisfy the guard), and for every V2 run whose end-of-loop
position is nonnegative; a V2 short bankruptcy can leave a negative
position that the forced close skips, breaking the unconditioned claim. -/
theorem capital_conservation {σ : Type} (p1 : ParamsV1)
    (strat : Option (TradingStrategyS σ)) (s0 : σ) (d1 : List OHLCV)
    (p2 : ParamsV2) (d2 : List OHLCV)
    (hd1 : ∀ q ∈ d1, 0 < q.close) (hf1 : 0 ≤ p1.feeRate) (hs1 : 0 ≤ p1.slippage)
    (hfs1 : p1.feeRate + p1.slippage < 1) (hi1 : 0 ≤ p1.initialCapital)
    (hguard : ∀ s, strat = some s → ∀ (m : σ) (b : Analysis) (ts pos : ℚ), 0 < pos →
      (s.shouldEnter m b ts pos).1 = false)
    (hd2 : ∀ q ∈ d2, 0 < q.close) (hf2 : 0 ≤ p2.feeRate) (hs2 : 0 ≤ p2.slippage)
    (hfs2 : p2.feeRate + p2.slippage < 1)
    (hend : 0 ≤ (loopV2 p2 d2 100 (d2.length - 100) (initStateV2 p2)).position) :
    (∀ r, runBacktestV1 p1 strat s0 d1 = .ok r →
      r.finalCapital - r.initialCapital = sumProfitsV1 r.trades) ∧
    (∀ r, runBacktestV2 p2 d2 = .ok r →
      r.finalCapital - r.initialCapital = sumProfitsV2 r.trades) := by
  constructor
  · intro r hr
    unfold runBacktestV1 at hr
    split_ifs at hr with hlen
    have hinv0 : InvV1 p1.initialCapital (initStateV1 p1 s0) := by
      refine ⟨?_, fun h => absurd rfl h, le_refl 0, hi1⟩
      dsimp only [initStateV1]
      simp [sumProfitsV1]
    have hinv := loopV1_inv p1.initialCapital p1 strat d1 hd1 hf1 hs1 hfs1 hguard
      (d1.length - 100) 100 (initStateV1 p1 s0) hinv0
    have hfin := forcedCloseV1_capital p1.initialCapital p1 d1 _ hinv
    have hok : r = computeResultV1 p1
        (forcedCloseV1 p1 d1 (loopV1 p1 strat d1 100 (d1.length - 100)
          (initStateV1 p1 s0))) := by
      injection hr.symm
    rw [hok]
    dsimp only [computeResultV1]
    linarith [hfin]
  · intro r hr
    unfold runBacktestV2 at hr
    split_ifs at hr with hlen
    have hinv0 : InvV2 p2.initialCapital (initStateV2 p2) := by
      refine ⟨?_, fun h => absurd rfl h, fun _ => rfl⟩
      dsimp only [initStateV2]
      simp [sumProfitsV2]
    have hinv := loopV2_inv p2.initialCapital p2 d2 hd2 hf2 hs2 hfs2
      (d2.length - 100) 100 (initStateV2 p2) hinv0
    have hfin := forcedCloseV2_capital p2.initialCapital p2 d2 _ hinv hend
    have hok : r = computeResultV2 p2 d2
        (forcedCloseV2 p2 d2 (loopV2 p2 d2 100 (d2.length - 100) (initStateV2 p2))) := by
      injection hr.symm
    rw [hok]
    dsimp only [computeResultV2]
    linarith [hfin]

/-! ### Constant-window indicator values (for the constant-series claim) -/

theorem replicate_getLastD {α : Type} (n : ℕ) (a d : α) (h : n ≠ 0) :
    (List.replicate n a).getLastD d = a := by
  obtain ⟨m, rfl⟩ := Nat.exists_eq_succ_of_ne_zero h
  rw [List.replicate_succ']
  exact List.getLastD_concat _ _ _

theorem rangeMap_getLastD {α : Type} (f : ℕ → α) (n : ℕ) (d : α) (h : n ≠ 0) :
    ((List.range n).map f).getLastD d = f (n - 1) := by
  obtain ⟨m, rfl⟩ := Nat.exists_eq_succ_of_ne_zero h
  rw [List.range_succ, List.map_append]
  simp

theorem foldl_const {α β : Type} (f : β → α → β) (b : β) (a : α) (h : f b a = b) :
    ∀ n, List.foldl f b (List.replicate n a) = b := by
  intro n
  induction n with
  | zero => rfl
  | succ m ih => rw [List.replicate_succ, List.foldl_cons, h]; exact ih

theorem scanl_const {α β : Type} (f : β → α → β) (b : β) (a : α) (h : f b a = b) :
    ∀ n, List.scanl f b (List.replicate n a) = List.replicate (n + 1) b := by
  intro n
  induction n with
  | zero => rfl
  | succ m ih =>
    rw [List.replicate_succ, List.scanl_cons, h, ih, List.singleton_append,
      ← List.replicate_succ]

theorem replicate_getD {α : Type} (n k : ℕ) (a d : α) (h : k < n) :
    (List.replicate n a).getD k d = a := by
  simp [List.getD, List.getElem?_replicate, h]

theorem rangeMap_eq_replicate {α : Type} (n : ℕ) (a : α) (f : ℕ → α)
    (h : ∀ i, i < n → f i = a) : (List.range n).map f = List.replicate n a := by
  apply List.eq_replicate.mpr
  refine ⟨by simp, ?_⟩
  intro b hb
  simp only [List.mem_map, List.mem_range] at hb
  obtain ⟨i, hi, rfl⟩ := hb
  exact h i hi

theorem sma_length (data : List ℚ) (p : ℕ) : (sma data p).length = data.length := by
  unfold sma
  split_ifs <;> simp

theorem sma_replicate_getLastD (n p : ℕ) (a : ℚ) (hp : 0 < p) (hpn : p ≤ n) :
    (sma (List.replicate n a) p).getLastD 0 = a := by
  unfold sma
  rw [List.length_replicate, if_neg (by omega)]
  rw [rangeMap_getLastD _ n 0 (by omega)]
  rw [if_neg (by omega)]
  rw [List.drop_replicate, List.take_replicate]
  have h1 : min p (n - (n - 1 + 1 - p)) = p := by omega
  rw [h1, List.sum_replicate, nsmul_eq_mul]
  rw [mul_comm, mul_div_assoc, div_self (Nat.cast_ne_zero.mpr (by omega)), mul_one]

theorem getLastValue_sma_replicate (n p : ℕ) (a : ℚ) (hp : 0 < p) (hpn : p ≤ n) :
    getLastValue (sma (List.replicate n a) p) p = a := by
  unfold getLastValue
  rw [sma_length, List.length_replicate, if_pos hpn]
  exact sma_replicate_getLastD n p a hp hpn

theorem getLastValue_short (l : List ℚ) (m : ℕ) (h : l.length < m) :
    getLastValue l m = 0 := by
  unfold getLastValue
  rw [if_neg (by omega)]

theorem emaStep_const (mult a : ℚ) : emaStep mult a a = a := by
  unfold emaStep; ring

theorem ema_replicate (n p : ℕ) (a : ℚ) (hp : 0 < p) (hpn : p ≤ n) :
    ema (List.replicate n a) p =
      List.replicate (p - 1) 0 ++ List.replicate (n - p + 1) a := by
  unfold ema
  rw [List.length_replicate, if_neg (by omega)]
  rw [List.take_replicate, List.drop_replicate]
  have h1 : min p n = p := by omega
  rw [h1, List.sum_replicate, nsmul_eq_mul]
  have h2 : (p : ℚ) * a / (p : ℚ) = a := by
    rw [mul_comm, mul_div_assoc, div_self (Nat.cast_ne_zero.mpr (by omega)), mul_one]
  rw [h2, scanl_const _ _ _ (emaStep_const _ a)]

theorem zipWith_replicate_succ {α : Type} (f : α → α → α) (a b : α) :
    ∀ n, List.zipWith f (List.replicate n a) (List.replicate (n + 1) b) =
      List.replicate n (f a b) := by
  intro n
  induction n with
  | zero => rfl
  | succ m ih =>
    rw [List.replicate_succ, List.replicate_succ b, List.zipWith_cons_cons, ih,
      ← List.replicate_succ]

theorem rsiChanges_replicate (n : ℕ) (a : ℚ) (h : n ≠ 0) :
    rsiChanges (List.replicate n a) = List.replicate (n - 1) 0 := by
  obtain ⟨m, rfl⟩ := Nat.exists_eq_succ_of_ne_zero h
  unfold rsiChanges
  rw [List.replicate_succ, List.drop_succ_cons, List.drop_zero]
  rw [← List.replicate_succ]
  rw [zipWith_replicate_succ (fun x y => x - y) a a m]
  rw [sub_self]
  simp

theorem rsiInitStep_zero : rsiInitStep (0, 0) 0 = (0, 0) := by
  unfold rsiInitStep
  norm_num

theorem rsiSmoothStep_zero (p : ℕ) : rsiSmoothStep p (0, 0) 0 = (0, 0) := by
  unfold rsiSmoothStep
  norm_num

theorem rsi_replicate (n p : ℕ) (a : ℚ) (hp : 0 < p) (hpn : p + 1 ≤ n) :
    rsi (List.replicate n a) p = 100 := by
  unfold rsi
  rw [List.length_replicate, if_neg (by omega)]
  have h1 : rsiAvgs (List.replicate n a) p = (0, 0) := by
    unfold rsiAvgs rsiInitAvg rsiSmooth
    rw [rsiChanges_replicate n a (by omega)]
    rw [List.take_replicate, List.drop_replicate]
    have h2 : min p (n - 1) = p := by omega
    rw [h2, foldl_const _ _ _ rsiInitStep_zero]
    norm_num
    exact foldl_const _ _ _ (rsiSmoothStep_zero p) _
  rw [h1]
  norm_num

theorem analyzeMovingAverages_const (c : ℚ) :
    analyzeMovingAverages (List.replicate 101 c) =
      ⟨c, c, c, c, 0, c, .strongDowntrend, -1⟩ := by
  unfold analyzeMovingAverages
  dsimp only
  rw [getLastValue_sma_replicate 101 5 c (by norm_num) (by norm_num),
    getLastValue_sma_replicate 101 10 c (by norm_num) (by norm_num),
    getLastValue_sma_replicate 101 20 c (by norm_num) (by norm_num),
    getLastValue_sma_replicate 101 50 c (by norm_num) (by norm_num),
    getLastValue_short _ 200 (by rw [sma_length, List.length_replicate]; norm_num),
    replicate_getLastD 101 c 0 (by norm_num)]
  simp only [lt_irrefl, if_false]
  norm_num [classifyMAScore]

theorem macd_const (c : ℚ) :
    macdIndicator (List.replicate 101 c) 12 26 9 = ⟨0, 0, 0, "中性", "无背离"⟩ := by
  unfold macdIndicator
  rw [List.length_replicate, if_neg (by norm_num)]
  dsimp only
  rw [ema_replicate 101 12 c (by norm_num) (by norm_num),
    ema_replicate 101 26 c (by norm_num) (by norm_num)]
  have hline : (List.range 101).map (fun i =>
      if 26 - 1 ≤ i then
        (List.replicate (12 - 1) (0:ℚ) ++ List.replicate (101 - 12 + 1) c).getD i 0 -
          (List.replicate (26 - 1) (0:ℚ) ++ List.replicate (101 - 26 + 1) c).getD i 0
      else 0) = List.replicate 101 0 := by
    apply rangeMap_eq_replicate
    intro i hi
    by_cases h : 26 - 1 ≤ i
    · rw [if_pos h]
      rw [List.getD_append_right _ _ _ _ (by simp; omega),
        List.getD_append_right _ _ _ _ (by simp; omega)]
      rw [List.length_replicate, List.length_replicate]
      rw [replicate_getD (101 - 12 + 1) (i - (12 - 1)) c 0 (by omega),
        replicate_getD (101 - 26 + 1) (i - (26 - 1)) c 0 (by omega)]
      ring
    · rw [if_neg h]
  rw [hline]
  rw [List.drop_replicate]
  rw [ema_replicate (101 - (26 - 1)) 9 0 (by norm_num) (by norm_num)]
  rw [← List.replicate_add]
  rw [List.length_replicate]
  rw [if_pos (by norm_num : 0 < 9 - 1 + (101 - (26 - 1) - 9 + 1))]
  rw [replicate_getLastD 101 (0:ℚ) 0 (by norm_num),
    replicate_getLastD (9 - 1 + (101 - (26 - 1) - 9 + 1)) (0:ℚ) 0 (by norm_num)]
  norm_num

theorem sma_replicate_zero (n p : ℕ) : sma (List.replicate n (0:ℚ)) p = List.replicate n 0 := by
  unfold sma
  rw [List.length_replicate]
  split_ifs with h
  · rfl
  · apply rangeMap_eq_replicate
    intro i hi
    split_ifs with h2
    · rfl
    · rw [List.drop_replicate, List.take_replicate, List.sum_replicate]
      simp

theorem replicate_zero_getD (n k : ℕ) : (List.replicate n (0:ℚ)).getD k 0 = 0 := by
  by_cases h : k < n
  · exact replicate_getD n k 0 0 h
  · rw [List.getD_eq_default]
    rw [List.length_replicate]
    omega

theorem adx_const (c : ℚ) :
    adx (List.replicate 101 c) (List.replicate 101 c) (List.replicate 101 c) 14 = 0 := by
  unfold adx
  rw [List.length_replicate, if_neg (by norm_num)]
  have htr : trList (List.replicate 101 c) (List.replicate 101 c) (List.replicate 101 c) =
      List.replicate 101 0 := by
    unfold trList
    rw [List.length_replicate]
    apply rangeMap_eq_replicate
    intro i hi
    by_cases h : i = 0
    · rw [if_pos h]
    · rw [if_neg h]
      rw [replicate_getD 101 i c 0 hi, replicate_getD 101 (i - 1) c 0 (by omega)]
      norm_num
  have hplus : plusDMList (List.replicate 101 c) (List.replicate 101 c) =
      List.replicate 101 0 := by
    unfold plusDMList
    rw [List.length_replicate]
    apply rangeMap_eq_replicate
    intro i hi
    by_cases h : i = 0
    · rw [if_pos h]
    · rw [if_neg h]
      rw [replicate_getD 101 i c 0 hi, replicate_getD 101 (i - 1) c 0 (by omega)]
      norm_num
  have hminus : minusDMList (List.replicate 101 c) (List.replicate 101 c) =
      List.replicate 101 0 := by
    unfold minusDMList
    rw [List.length_replicate]
    apply rangeMap_eq_replicate
    intro i hi
    by_cases h : i = 0
    · rw [if_pos h]
    · rw [if_neg h]
      rw [replicate_getD 101 i c 0 hi, replicate_getD 101 (i - 1) c 0 (by omega)]
      norm_num
  rw [htr, hplus, hminus]
  dsimp only
  have hdrop : (List.replicate 101 (0:ℚ)).drop 1 = List.replicate 100 0 := by
    rw [List.drop_replicate]
  rw [hdrop, sma_replicate_zero 100 14]
  have hlast : (List.replicate 100 (0:ℚ)).getLastD 0 = 0 :=
    replicate_getLastD 100 0 0 (by norm_num)
  simp only [hlast, ne_eq, not_true_eq_false, false_and, and_false, if_false,
    List.length_replicate]
  have hmapz : (List.range 101).map (fun _ => (0:ℚ)) = List.replicate 101 0 :=
    rangeMap_eq_replicate 101 0 _ (fun _ _ => rfl)
  rw [hmapz]
  simp only [replicate_zero_getD]
  norm_num
  intro hlen
  rw [sma_replicate_zero 101 14, ← List.getLastD_eq_getLast?,
    replicate_getLastD 101 (0:ℚ) 0 (by norm_num)]

theorem volumeRatio_const (v : ℚ) :
    (volumeAnalysisOf (List.replicate 101 v) 20).volumeRatio = if 0 < v then 1 else 0 := by
  unfold volumeAnalysisOf
  rw [List.length_replicate, if_neg (by norm_num)]
  dsimp only
  rw [sma_replicate_getLastD 101 20 v (by norm_num) (by norm_num),
    replicate_getLastD 101 v 0 (by norm_num)]
  split_ifs with h
  · exact div_self (ne_of_gt h)
  · rfl

theorem pivot_const (c : ℚ) : pivotPoints c c c = ⟨c, c, c, c, c, c, c⟩ := by
  unfold pivotPoints
  have h : (c + c + c) / 3 = c := by ring
  rw [h]
  congr 1 <;> ring

theorem extractCloses_const (c v : ℚ) :
    extractCloses (constData 101 c v) = List.replicate 101 c := by
  unfold extractCloses constData
  rw [List.map_replicate]
  rfl

theorem extractHighs_const (c v : ℚ) :
    extractHighs (constData 101 c v) = List.replicate 101 c := by
  unfold extractHighs constData
  rw [List.map_replicate]
  rfl

theorem extractLows_const (c v : ℚ) :
    extractLows (constData 101 c v) = List.replicate 101 c := by
  unfold extractLows constData
  rw [List.map_replicate]
  rfl

theorem extractVolumes_const (c v : ℚ) :
    extractVolumes (constData 101 c v) = List.replicate 101 v := by
  unfold extractVolumes constData
  rw [List.map_replicate]
  rfl

theorem constData_getLastD (n : ℕ) (c v : ℚ) (h : n ≠ 0) :
    (constData n c v).getLastD default = candC c v := by
  unfold constData
  exact replicate_getLastD n _ _ h

theorem ana_ma (c v : ℚ) :
    (analysisOf (constData 101 c v)).maAnalysis = ⟨c, c, c, c, 0, c, .strongDowntrend, -1⟩ := by
  show analyzeMovingAverages (extractCloses (constData 101 c v)) = _
  rw [extractCloses_const]
  exact analyzeMovingAverages_const c

theorem ana_macd (c v : ℚ) :
    (analysisOf (constData 101 c v)).macdAnalysis = ⟨0, 0, 0, "中性", "无背离"⟩ := by
  show macdIndicator (extractCloses (constData 101 c v)) 12 26 9 = _
  rw [extractCloses_const]
  exact macd_const c

theorem ana_mom (c v : ℚ) :
    (analysisOf (constData 101 c v)).momentum = ⟨100, "超买"⟩ := by
  show analyzeMomentum (rsi (extractCloses (constData 101 c v)) 14) = _
  rw [extractCloses_const, rsi_replicate 101 14 c (by norm_num) (by norm_num)]
  unfold analyzeMomentum
  norm_num

theorem ana_adx (c v : ℚ) :
    (analysisOf (constData 101 c v)).trendStrength = ⟨0, "无趋势"⟩ := by
  show analyzeTrendStrength (adx (extractHighs (constData 101 c v))
    (extractLows (constData 101 c v)) (extractCloses (constData 101 c v)) 14) = _
  rw [extractHighs_const, extractLows_const, extractCloses_const, adx_const]
  unfold analyzeTrendStrength
  norm_num

theorem ana_volRatio (c v : ℚ) :
    (analysisOf (constData 101 c v)).volume.volumeRatio = if 0 < v then 1 else 0 := by
  show (volumeAnalysisOf (extractVolumes (constData 101 c v)) 20).volumeRatio = _
  rw [extractVolumes_const]
  exact volumeRatio_const v

theorem ana_sr (c v : ℚ) :
    (analysisOf (constData 101 c v)).supportResistance = ⟨c, c, c, c, c, c, c⟩ := by
  show pivotPoints ((constData 101 c v).getLastD default).high
      ((constData 101 c v).getLastD default).low
      ((constData 101 c v).getLastD default).close = _
  rw [constData_getLastD 101 c v (by norm_num)]
  show pivotPoints c c c = _
  exact pivot_const c

theorem ana_cur (c v : ℚ) : (analysisOf (constData 101 c v)).currentPrice = c := by
  show (extractCloses (constData 101 c v)).getLastD 0 = c
  rw [extractCloses_const]
  exact replicate_getLastD 101 c 0 (by norm_num)

theorem volumeEvidence_zero_change (v : VolumeAnalysis) : analyzeVolumeEvidence v 0 = [] := by
  unfold analyzeVolumeEvidence
  norm_num

theorem sigV2w_const (c v : ℚ) :
    sigV2w (analysisOf (constData 101 c v)) c 0 = -(17/10) := by
  unfold sigV2w
  rw [ana_ma, ana_macd, ana_sr, volumeEvidence_zero_change]
  have hmom : (analysisOf (constData 101 c v)).momentum.rsi = 100 := by
    rw [ana_mom]
  rw [hmom]
  unfold analyzeMAEvidence analyzeMACDEvidence analyzeRSIEvidence analyzeSREvidence
  dsimp only
  rw [if_neg (lt_irrefl c), if_neg (lt_irrefl c), if_neg (by simp), if_neg (by simp)]
  norm_num [totalStrength, sub_self]

theorem sigV1w_const (c v : ℚ) :
    sigV1w (analysisOf (constData 101 c v)) c = -(17/10) := by
  unfold sigV1w
  rw [ana_ma, ana_macd, ana_sr]
  have hmom : (analysisOf (constData 101 c v)).momentum.rsi = 100 := by
    rw [ana_mom]
  rw [hmom]
  unfold analyzeMAEvidence analyzeMACDEvidence analyzeRSIEvidence analyzeSREvidence
  dsimp only
  rw [if_neg (lt_irrefl c), if_neg (lt_irrefl c), if_neg (by simp), if_neg (by simp)]
  norm_num [totalStrength, sub_self]

theorem trendFollowing_no_entry (c v : ℚ) :
    trendFollowingStrategy.shouldEnter () (analysisOf (constData 101 c v)) (-(17/10)) 0 =
      (false, "", ()) := by
  unfold trendFollowingStrategy
  dsimp only
  rw [if_neg (lt_irrefl 0), if_pos (by norm_num)]

theorem momentumBreakout_no_entry (c v : ℚ) :
    momentumBreakoutStrategy.shouldEnter () (analysisOf (constData 101 c v)) (-(17/10)) 0 =
      (false, "", ()) := by
  unfold momentumBreakoutStrategy
  dsimp only
  have hmom : (analysisOf (constData 101 c v)).momentum.rsi = 100 := by rw [ana_mom]
  rw [if_neg (lt_irrefl 0), if_pos (by rw [hmom]; norm_num)]

theorem meanReversion_no_entry (c v : ℚ) :
    meanReversionStrategy.shouldEnter () (analysisOf (constData 101 c v)) (-(17/10)) 0 =
      (false, "", ()) := by
  unfold meanReversionStrategy
  dsimp only
  have hmom : (analysisOf (constData 101 c v)).momentum.rsi = 100 := by rw [ana_mom]
  rw [if_neg (lt_irrefl 0), if_pos (by rw [hmom]; norm_num)]

theorem detectMarketCondition_const (c v : ℚ) :
    detectMarketCondition (analysisOf (constData 101 c v)) = "neutral" := by
  unfold detectMarketCondition
  have hadx : (analysisOf (constData 101 c v)).trendStrength.adx = 0 := by rw [ana_adx]
  have hmom : (analysisOf (constData 101 c v)).momentum.rsi = 100 := by rw [ana_mom]
  rw [if_neg (by rw [hadx]; norm_num), if_neg (by rw [hadx]; norm_num),
    if_neg (by rw [hmom]; norm_num)]

theorem combo_no_entry (c v : ℚ) (m : String) :
    comboAdaptiveStrategy.shouldEnter m (analysisOf (constData 101 c v)) (-(17/10)) 0 =
      (false, "", "neutral") := by
  unfold comboAdaptiveStrategy
  dsimp only
  rw [if_neg (lt_irrefl 0), detectMarketCondition_const]
  rw [if_neg (by decide : ¬("neutral" : String) = "trending"),
    if_neg (by decide : ¬("neutral" : String) = "momentum"),
    if_neg (by decide : ¬("neutral" : String) = "reversion")]

theorem shouldOpenLong_const (c v : ℚ) (r : String) (bb : ℚ × ℚ × ℚ) :
    shouldOpenLong newImprovedBidirectionalStrategy (analysisOf (constData 101 c v))
      (-(17/10)) r bb = (false, "") := by
  unfold shouldOpenLong newImprovedBidirectionalStrategy
  dsimp only
  split_ifs with h1 h2 h3 h4
  any_goals rfl
  all_goals exact absurd (by norm_num : (-(17/10) : ℚ) < 3/5) h4

theorem shouldOpenShort_const (c v : ℚ) (r : String) (bb : ℚ × ℚ × ℚ) :
    shouldOpenShort newImprovedBidirectionalStrategy (analysisOf (constData 101 c v))
      (-(17/10)) r bb = (false, "") := by
  unfold shouldOpenShort newImprovedBidirectionalStrategy
  dsimp only
  have hvr : (analysisOf (constData 101 c v)).volume.volumeRatio < 3/2 := by
    rw [ana_volRatio]
    split_ifs <;> norm_num
  split_ifs with h1 h2 h3 h4 h5 h6
  any_goals rfl
  all_goals exact absurd hvr h5

theorem window_const (c v : ℚ) (n i : ℕ) (h1 : 100 ≤ i) (h2 : i < n) :
    ((constData n c v).drop (i - 100)).take 101 = constData 101 c v := by
  unfold constData
  rw [List.drop_replicate, List.take_replicate]
  congr 1
  omega

theorem analyze_const (c v : ℚ) :
    analyzeComprehensive (constData 101 c v) = some (analysisOf (constData 101 c v)) := by
  unfold analyzeComprehensive
  rw [if_neg]
  unfold constData
  rw [List.length_replicate]
  norm_num

theorem close_const (c v : ℚ) : ((constData 101 c v).getLastD default).close = c := by
  rw [constData_getLastD 101 c v (by norm_num)]
  rfl

theorem time_const (c v : ℚ) : ((constData 101 c v).getLastD default).time = 0 := by
  rw [constData_getLastD 101 c v (by norm_num)]
  rfl

theorem drawdown_init_fix {σ : Type} (s0 : σ) (x : ℚ) :
    drawdownPhaseV1 (initStateV1 std1 s0) x = initStateV1 std1 s0 := by
  unfold drawdownPhaseV1 initStateV1 std1 defaultParamsV1
  norm_num

theorem stepV1_none_fix {σ : Type} (s0 : σ) (c v : ℚ) (n i : ℕ)
    (h1 : 100 ≤ i) (h2 : i < n) :
    stepV1 std1 (none : Option (TradingStrategyS σ)) (constData n c v) i
      (initStateV1 std1 s0) = initStateV1 std1 s0 := by
  unfold stepV1
  rw [window_const c v n i h1 h2, analyze_const]
  show stepV1Go std1 none (constData n c v) i (analysisOf (constData 101 c v))
    (initStateV1 std1 s0) = initStateV1 std1 s0
  unfold stepV1Go
  rw [window_const c v n i h1 h2]
  dsimp only
  rw [close_const, time_const, sigV1w_const]
  rw [if_neg (by unfold initStateV1; norm_num)]
  have hsig : signalPhaseV1 std1 (none : Option (TradingStrategyS σ))
      (analysisOf (constData 101 c v)) c 0 (-(17/10)) (initStateV1 std1 s0) =
      initStateV1 std1 s0 := by
    simp only [signalPhaseV1]
    rw [if_neg (by unfold std1 defaultParamsV1; norm_num),
      if_neg (by unfold initStateV1; norm_num)]
  rw [hsig, drawdown_init_fix]

theorem stepV1_trend_fix (c v : ℚ) (n i : ℕ) (h1 : 100 ≤ i) (h2 : i < n) :
    stepV1 std1 (some trendFollowingStrategy) (constData n c v) i (initStateV1 std1 ()) =
      initStateV1 std1 () := by
  unfold stepV1
  rw [window_const c v n i h1 h2, analyze_const]
  show stepV1Go std1 (some trendFollowingStrategy) (constData n c v) i
    (analysisOf (constData 101 c v)) (initStateV1 std1 ()) = initStateV1 std1 ()
  unfold stepV1Go
  rw [window_const c v n i h1 h2]
  dsimp only
  rw [close_const, time_const, sigV1w_const]
  rw [if_neg (by unfold initStateV1; norm_num)]
  have hsig : signalPhaseV1 std1 (some trendFollowingStrategy)
      (analysisOf (constData 101 c v)) c 0 (-(17/10)) (initStateV1 std1 ()) =
      initStateV1 std1 () := by
    simp only [signalPhaseV1]
    rw [show (initStateV1 std1 ()).strategyState = () from rfl,
      show (initStateV1 std1 ()).position = 0 from rfl,
      trendFollowing_no_entry c v]
    norm_num
    rfl
  rw [hsig, drawdown_init_fix]

theorem stepV1_momentum_fix (c v : ℚ) (n i : ℕ) (h1 : 100 ≤ i) (h2 : i < n) :
    stepV1 std1 (some momentumBreakoutStrategy) (constData n c v) i (initStateV1 std1 ()) =
      initStateV1 std1 () := by
  unfold stepV1
  rw [window_const c v n i h1 h2, analyze_const]
  show stepV1Go std1 (some momentumBreakoutStrategy) (constData n c v) i
    (analysisOf (constData 101 c v)) (initStateV1 std1 ()) = initStateV1 std1 ()
  unfold stepV1Go
  rw [window_const c v n i h1 h2]
  dsimp only
  rw [close_const, time_const, sigV1w_const]
  rw [if_neg (by unfold initStateV1; norm_num)]
  have hsig : signalPhaseV1 std1 (some momentumBreakoutStrategy)
      (analysisOf (constData 101 c v)) c 0 (-(17/10)) (initStateV1 std1 ()) =
      initStateV1 std1 () := by
    simp only [signalPhaseV1]
    rw [show (initStateV1 std1 ()).strategyState = () from rfl,
      show (initStateV1 std1 ()).position = 0 from rfl,
      momentumBreakout_no_entry c v]
    norm_num
    rfl
  rw [hsig, drawdown_init_fix]

theorem stepV1_meanrev_fix (c v : ℚ) (n i : ℕ) (h1 : 100 ≤ i) (h2 : i < n) :
    stepV1 std1 (some meanReversionStrategy) (constData n c v) i (initStateV1 std1 ()) =
      initStateV1 std1 () := by
  unfold stepV1
  rw [window_const c v n i h1 h2, analyze_const]
  show stepV1Go std1 (some meanReversionStrategy) (constData n c v) i
    (analysisOf (constData 101 c v)) (initStateV1 std1 ()) = initStateV1 std1 ()
  unfold stepV1Go
  rw [window_const c v n i h1 h2]
  dsimp only
  rw [close_const, time_const, sigV1w_const]
  rw [if_neg (by unfold initStateV1; norm_num)]
  have hsig : signalPhaseV1 std1 (some meanReversionStrategy)
      (analysisOf (constData 101 c v)) c 0 (-(17/10)) (initStateV1 std1 ()) =
      initStateV1 std1 () := by
    simp only [signalPhaseV1]
    rw [show (initStateV1 std1 ()).strategyState = () from rfl,
      show (initStateV1 std1 ()).position = 0 from rfl,
      meanReversion_no_entry c v]
    norm_num
    rfl
  rw [hsig, drawdown_init_fix]

theorem signalPhaseV1_skip_entry {σ : Type} (p : ParamsV1) (s : TradingStrategyS σ)
    (a : Analysis) (cur : ℚ) (tm : ℕ) (sig : ℚ) (st : StateV1 σ) (es : String) (m2 : σ)
    (hse : s.shouldEnter st.strategyState a sig st.position = (false, es, m2))
    (hpos : st.position = 0) :
    signalPhaseV1 p (some s) a cur tm sig st = { st with strategyState := m2 } := by
  simp only [signalPhaseV1]
  rw [hse]
  dsimp only
  rw [hpos]
  rw [if_neg (lt_irrefl 0)]
  rw [if_neg (by decide : ¬(false = true))]

theorem stepV1_combo_step (c v : ℚ) (n i : ℕ) (h1 : 100 ≤ i) (h2 : i < n) (m : String) :
    stepV1 std1 (some comboAdaptiveStrategy) (constData n c v) i (initStateV1 std1 m) =
      initStateV1 std1 "neutral" := by
  unfold stepV1
  rw [window_const c v n i h1 h2, analyze_const]
  show stepV1Go std1 (some comboAdaptiveStrategy) (constData n c v) i
    (analysisOf (constData 101 c v)) (initStateV1 std1 m) = initStateV1 std1 "neutral"
  unfold stepV1Go
  rw [window_const c v n i h1 h2]
  dsimp only
  rw [close_const, time_const, sigV1w_const]
  rw [if_neg (by unfold initStateV1; norm_num)]
  have hsig : signalPhaseV1 std1 (some comboAdaptiveStrategy)
      (analysisOf (constData 101 c v)) c 0 (-(17/10)) (initStateV1 std1 m) =
      initStateV1 std1 "neutral" := by
    rw [signalPhaseV1_skip_entry std1 comboAdaptiveStrategy _ c 0 (-(17/10))
      (initStateV1 std1 m) "" "neutral" (combo_no_entry c v m) rfl]
    unfold initStateV1
    rfl
  rw [hsig, drawdown_init_fix]

theorem drawdownV2_init_fix (p : ParamsV2) (x : ℚ) :
    drawdownPhaseV2 (initStateV2 p) x = initStateV2 p := by
  unfold drawdownPhaseV2 initStateV2
  norm_num

theorem priceChange_const (c v : ℚ) (n i : ℕ) (h1 : 100 ≤ i) (h2 : i < n) :
    ((constData n c v).getD (i - 1) default).close = c := by
  unfold constData
  rw [replicate_getD n (i - 1) _ _ (by omega)]
  rfl

theorem stepV2_improved_fix (ro : ℕ → String) (bo : ℕ → ℚ × ℚ × ℚ) (c v : ℚ) (n i : ℕ)
    (h1 : 100 ≤ i) (h2 : i < n) :
    stepV2 (imp2 ro bo) (constData n c v) i (initStateV2 (imp2 ro bo)) =
      initStateV2 (imp2 ro bo) := by
  unfold stepV2
  rw [window_const c v n i h1 h2, analyze_const]
  show stepV2Go (imp2 ro bo) (constData n c v) i (analysisOf (constData 101 c v))
    (initStateV2 (imp2 ro bo)) = initStateV2 (imp2 ro bo)
  unfold stepV2Go
  rw [window_const c v n i h1 h2]
  dsimp only
  rw [close_const, time_const, priceChange_const c v n i h1 h2]
  rw [if_pos (by omega : 0 < i), sub_self, zero_div, sigV2w_const]
  rw [if_neg (by unfold initStateV2; norm_num)]
  have hsig : signalPhaseV2 (imp2 ro bo) i (analysisOf (constData 101 c v))
      (constData 101 c v) c 0 (-(17/10)) (initStateV2 (imp2 ro bo)) =
      initStateV2 (imp2 ro bo) := by
    unfold signalPhaseV2
    rw [if_pos (by unfold initStateV2; rfl)]
    rw [if_pos (by unfold imp2 defaultParamsV2; rfl)]
    have hol : (shouldOpenLong (imp2 ro bo).improved (analysisOf (constData 101 c v))
        (-(17/10)) ((imp2 ro bo).regimeOf i) ((imp2 ro bo).bbOf i)) = (false, "") :=
      shouldOpenLong_const c v _ _
    have hos : (shouldOpenShort (imp2 ro bo).improved (analysisOf (constData 101 c v))
        (-(17/10)) ((imp2 ro bo).regimeOf i) ((imp2 ro bo).bbOf i)) = (false, "") :=
      shouldOpenShort_const c v _ _
    dsimp only
    rw [hol, hos]
    norm_num
    try rw [if_pos (by unfold imp2 defaultParamsV2; rfl)]
  rw [hsig, drawdownV2_init_fix]

theorem drawdown_entry (c : ℚ) (hc : 0 < c) :
    drawdownPhaseV2
      { capital := 0, position := 10000 / (c * (1 - 5/10000 - 1/1000)),
        entryPrice := c * (1 - 5/10000 - 1/1000), entryTime := 0, entrySignal := "做空",
        positionType := .shortPosition, maxCapital := 10000, maxDrawdown := 0,
        maxDrawdownPct := 0, currentStopLoss := 0, trades := [] } c = constShortState c := by
  have hk : (0:ℚ) < 1 - 5/10000 - 1/1000 := by norm_num
  have he : (0:ℚ) < c * (1 - 5/10000 - 1/1000) := mul_pos hc hk
  have hcc : 10000 / (c * (1 - 5/10000 - 1/1000)) * (2 * (c * (1 - 5/10000 - 1/1000)) - c) =
      19940000 / 1997 := by
    field_simp
    ring
  unfold drawdownPhaseV2
  dsimp only
  rw [if_pos (div_pos (by norm_num) he)]
  rw [if_neg (by decide : ¬(PositionType.shortPosition = PositionType.longPosition))]
  rw [hcc]
  rw [if_neg (by norm_num : ¬((10000:ℚ) < 19940000 / 1997))]
  rw [if_pos (by norm_num : ((0:ℚ) < (10000 - 19940000 / 1997) / 10000))]
  unfold constShortState
  congr 1
  all_goals try rfl
  · rw [div_eq_div_iff (by positivity) (by positivity)]
    ring
  · ring

theorem stepV2_entry_w (c v : ℚ) (hc : 0 < c) (data : List OHLCV) (i : ℕ) (h0 : 0 < i)
    (hw : (data.drop (i - 100)).take 101 = constData 101 c v)
    (hprev : (data.getD (i - 1) default).close = c) :
    stepV2 std2 data i (initStateV2 std2) = constShortState c := by
  unfold stepV2
  rw [hw, analyze_const]
  show stepV2Go std2 data i (analysisOf (constData 101 c v))
    (initStateV2 std2) = constShortState c
  unfold stepV2Go
  rw [hw]
  dsimp only
  rw [close_const, time_const, hprev]
  rw [if_pos h0, sub_self, zero_div, sigV2w_const]
  rw [if_neg (by unfold initStateV2; norm_num)]
  have hsig : signalPhaseV2 std2 i (analysisOf (constData 101 c v))
      (constData 101 c v) c 0 (-(17/10)) (initStateV2 std2) =
      { capital := 0, position := 10000 / (c * (1 - 5/10000 - 1/1000)),
        entryPrice := c * (1 - 5/10000 - 1/1000), entryTime := 0, entrySignal := "做空",
        positionType := .shortPosition, maxCapital := 10000, maxDrawdown := 0,
        maxDrawdownPct := 0, currentStopLoss := 0, trades := [] } := by
    unfold signalPhaseV2
    rw [if_pos (by unfold initStateV2; rfl)]
    rw [if_neg (by unfold std2 defaultParamsV2; norm_num)]
    rw [if_neg (by unfold std2 defaultParamsV2; norm_num)]
    rw [if_pos (by unfold std2 defaultParamsV2; norm_num)]
    rfl
  rw [hsig]
  exact drawdown_entry c hc

theorem stepV2_short_fix_w (c v : ℚ) (hc : 0 < c) (data : List OHLCV) (i : ℕ) (h0 : 0 < i)
    (hw : (data.drop (i - 100)).take 101 = constData 101 c v)
    (hprev : (data.getD (i - 1) default).close = c) :
    stepV2 std2 data i (constShortState c) = constShortState c := by
  have hk : (0:ℚ) < 1997 * c := by positivity
  have hpos : (0:ℚ) < 20000000 / (1997 * c) := div_pos (by norm_num) hk
  have hpct : (1997 * c / 2000 - c) / (1997 * c / 2000) = -(3 / 1997) := by
    rw [div_eq_iff (by positivity)]
    ring
  have hcc : 20000000 / (1997 * c) * (2 * (1997 * c / 2000) - c) = 19940000 / 1997 := by
    field_simp
    ring
  unfold stepV2
  rw [hw, analyze_const]
  show stepV2Go std2 data i (analysisOf (constData 101 c v))
    (constShortState c) = constShortState c
  unfold stepV2Go
  rw [hw]
  dsimp only [constShortState]
  rw [close_const, time_const, hprev]
  rw [if_pos h0, sub_self, zero_div, sigV2w_const]
  rw [if_pos ⟨by decide, hpos⟩]
  rw [if_neg (by decide : ¬(PositionType.shortPosition = PositionType.longPosition))]
  rw [hpct]
  rw [if_neg (by unfold std2 defaultParamsV2; norm_num)]
  rw [if_neg (by unfold std2 defaultParamsV2; norm_num)]
  have hsig : signalPhaseV2 std2 i (analysisOf (constData 101 c v)) (constData 101 c v) c 0
      (-(17/10))
      { capital := 0, position := 20000000 / (1997 * c), entryPrice := 1997 * c / 2000,
        entryTime := 0, entrySignal := "做空", positionType := .shortPosition,
        maxCapital := 10000, maxDrawdown := 30000 / 1997, maxDrawdownPct := 3 / 1997,
        currentStopLoss := 0, trades := [] } =
      { capital := 0, position := 20000000 / (1997 * c), entryPrice := 1997 * c / 2000,
        entryTime := 0, entrySignal := "做空", positionType := .shortPosition,
        maxCapital := 10000, maxDrawdown := 30000 / 1997, maxDrawdownPct := 3 / 1997,
        currentStopLoss := 0, trades := [] } := by
    unfold signalPhaseV2
    rw [if_neg (by decide : ¬(PositionType.shortPosition = PositionType.noPosition))]
    rw [if_neg (by decide : ¬(PositionType.shortPosition = PositionType.longPosition))]
    rw [if_neg (by unfold std2 defaultParamsV2; norm_num : ¬std2.useImproved = true)]
    rw [if_neg (by unfold std2 defaultParamsV2; norm_num : ¬(-std2.closeThreshold < -(17/10)))]
  rw [hsig]
  unfold drawdownPhaseV2
  dsimp only
  rw [if_pos hpos]
  rw [if_neg (by decide : ¬(PositionType.shortPosition = PositionType.longPosition))]
  rw [hcc]
  rw [if_neg (by norm_num : ¬((10000:ℚ) < 19940000 / 1997))]
  rw [if_neg (by norm_num : ¬((3:ℚ)/1997 < (10000 - 19940000 / 1997) / 10000))]

theorem stepV2_default_entry (c v : ℚ) (hc : 0 < c) (n i : ℕ) (h1 : 100 ≤ i) (h2 : i < n) :
    stepV2 std2 (constData n c v) i (initStateV2 std2) = constShortState c :=
  stepV2_entry_w c v hc (constData n c v) i (by omega) (window_const c v n i h1 h2)
    (priceChange_const c v n i h1 h2)

theorem stepV2_short_fix (c v : ℚ) (hc : 0 < c) (n i : ℕ) (h1 : 100 ≤ i) (h2 : i < n) :
    stepV2 std2 (constData n c v) i (constShortState c) = constShortState c :=
  stepV2_short_fix_w c v hc (constData n c v) i (by omega) (window_const c v n i h1 h2)
    (priceChange_const c v n i h1 h2)

theorem loopV2_peel (p : ParamsV2) (data : List OHLCV) (i k : ℕ) (st : StateV2) :
    loopV2 p data i (k + 1) st = loopV2 p data (i + 1) k (stepV2 p data i st) := rfl

theorem loopV2_fixpoint (p : ParamsV2) (data : List OHLCV) (st : StateV2) (lo n : ℕ)
    (hstep : ∀ i, lo ≤ i → i < n → stepV2 p data i st = st) :
    ∀ k i, lo ≤ i → i + k ≤ n → loopV2 p data i k st = st := by
  intro k
  induction k with
  | zero => intro i _ _; rfl
  | succ k ih =>
      intro i hi hik
      rw [loopV2_peel, hstep i hi (by omega)]
      exact ih (i + 1) (by omega) (by omega)

theorem loopV2_add (p : ParamsV2) (data : List OHLCV) :
    ∀ (k1 k2 i : ℕ) (st : StateV2), loopV2 p data i (k1 + k2) st =
      loopV2 p data (i + k1) k2 (loopV2 p data i k1 st) := by
  intro k1
  induction k1 with
  | zero => intro k2 i st; rw [Nat.zero_add]; rfl
  | succ k ih =>
      intro k2 i st
      have h1 : k + 1 + k2 = (k + k2) + 1 := by omega
      rw [h1, loopV2_peel, ih k2 (i + 1) (stepV2 p data i st), loopV2_peel]
      have h2 : i + 1 + k = i + (k + 1) := by omega
      rw [h2]

theorem loopV1_peel {σ : Type} (p : ParamsV1) (strat : Option (TradingStrategyS σ))
    (data : List OHLCV) (i k : ℕ) (st : StateV1 σ) :
    loopV1 p strat data i (k + 1) st
      = loopV1 p strat data (i + 1) k (stepV1 p strat data i st) := rfl

theorem loopV1_fixpoint {σ : Type} (p : ParamsV1) (strat : Option (TradingStrategyS σ))
    (data : List OHLCV) (st : StateV1 σ) (lo n : ℕ)
    (hstep : ∀ i, lo ≤ i → i < n → stepV1 p strat data i st = st) :
    ∀ k i, lo ≤ i → i + k ≤ n → loopV1 p strat data i k st = st := by
  intro k
  induction k with
  | zero => intro i _ _; rfl
  | succ k ih =>
      intro i hi hik
      rw [loopV1_peel, hstep i hi (by omega)]
      exact ih (i + 1) (by omega) (by omega)

theorem constData_length (n : ℕ) (c v : ℚ) : (constData n c v).length = n := by
  unfold constData
  exact List.length_replicate n _

theorem loopV2_const_run (c v : ℚ) (hc : 0 < c) (n : ℕ) (hn : 200 ≤ n) :
    loopV2 std2 (constData n c v) 100 (n - 100) (initStateV2 std2) = constShortState c := by
  obtain ⟨k, hk⟩ : ∃ k, n - 100 = k + 1 := ⟨n - 101, by omega⟩
  rw [hk, loopV2_peel, stepV2_default_entry c v hc n 100 (le_refl _) (by omega)]
  exact loopV2_fixpoint std2 (constData n c v) (constShortState c) 101 n
    (fun i hi hin => stepV2_short_fix c v hc n i (by omega) hin) k 101 (le_refl _) (by omega)

theorem loopV2_improved_run (ro : ℕ → String) (bo : ℕ → ℚ × ℚ × ℚ) (n : ℕ) (hn : 200 ≤ n)
    (c v : ℚ) :
    loopV2 (imp2 ro bo) (constData n c v) 100 (n - 100) (initStateV2 (imp2 ro bo)) =
      initStateV2 (imp2 ro bo) :=
  loopV2_fixpoint (imp2 ro bo) (constData n c v) (initStateV2 (imp2 ro bo)) 100 n
    (fun i hi hin => stepV2_improved_fix ro bo c v n i hi hin) (n - 100) 100 (le_refl _)
    (by omega)

theorem loopV1_none_run {σ : Type} (s0 : σ) (n : ℕ) (hn : 200 ≤ n) (c v : ℚ) :
    loopV1 std1 (none : Option (TradingStrategyS σ)) (constData n c v) 100 (n - 100)
      (initStateV1 std1 s0) = initStateV1 std1 s0 :=
  loopV1_fixpoint std1 none (constData n c v) (initStateV1 std1 s0) 100 n
    (fun i hi hin => stepV1_none_fix s0 c v n i hi hin) (n - 100) 100 (le_refl _) (by omega)

theorem loopV1_trend_run (n : ℕ) (hn : 200 ≤ n) (c v : ℚ) :
    loopV1 std1 (some trendFollowingStrategy) (constData n c v) 100 (n - 100)
      (initStateV1 std1 ()) = initStateV1 std1 () :=
  loopV1_fixpoint std1 (some trendFollowingStrategy) (constData n c v) (initStateV1 std1 ())
    100 n (fun i hi hin => stepV1_trend_fix c v n i hi hin) (n - 100) 100 (le_refl _)
    (by omega)

theorem loopV1_momentum_run (n : ℕ) (hn : 200 ≤ n) (c v : ℚ) :
    loopV1 std1 (some momentumBreakoutStrategy) (constData n c v) 100 (n - 100)
      (initStateV1 std1 ()) = initStateV1 std1 () :=
  loopV1_fixpoint std1 (some momentumBreakoutStrategy) (constData n c v)
    (initStateV1 std1 ()) 100 n (fun i hi hin => stepV1_momentum_fix c v n i hi hin)
    (n - 100) 100 (le_refl _) (by omega)

theorem loopV1_meanrev_run (n : ℕ) (hn : 200 ≤ n) (c v : ℚ) :
    loopV1 std1 (some meanReversionStrategy) (constData n c v) 100 (n - 100)
      (initStateV1 std1 ()) = initStateV1 std1 () :=
  loopV1_fixpoint std1 (some meanReversionStrategy) (constData n c v) (initStateV1 std1 ())
    100 n (fun i hi hin => stepV1_meanrev_fix c v n i hi hin) (n - 100) 100 (le_refl _)
    (by omega)

theorem loopV1_combo_run (n : ℕ) (hn : 200 ≤ n) (c v : ℚ) (m : String) :
    loopV1 std1 (some comboAdaptiveStrategy) (constData n c v) 100 (n - 100)
      (initStateV1 std1 m) = initStateV1 std1 "neutral" := by
  obtain ⟨k, hk⟩ : ∃ k, n - 100 = k + 1 := ⟨n - 101, by omega⟩
  rw [hk, loopV1_peel, stepV1_combo_step c v n 100 (le_refl _) (by omega) m]
  exact loopV1_fixpoint std1 (some comboAdaptiveStrategy) (constData n c v)
    (initStateV1 std1 "neutral") 101 n
    (fun i hi hin => stepV1_combo_step c v n i (by omega) hin "neutral") k 101 (le_refl _)
    (by omega)

theorem forcedV1_init_skip {σ : Type} (p : ParamsV1) (data : List OHLCV) (s0 : σ) :
    forcedCloseV1 p data (initStateV1 p s0) = initStateV1 p s0 := by
  unfold forcedCloseV1
  rw [if_neg (by rw [show (initStateV1 p s0).position = 0 from rfl]; exact lt_irrefl 0)]

theorem forcedV2_init_skip (p : ParamsV2) (data : List OHLCV) :
    forcedCloseV2 p data (initStateV2 p) = initStateV2 p := by
  unfold forcedCloseV2
  rw [if_neg (by rw [show (initStateV2 p).position = 0 from rfl]; exact lt_irrefl 0)]

theorem forced_const_trades (n : ℕ) (hn : 1 ≤ n) (c v : ℚ) (hc : 0 < c) :
    ∃ t, (forcedCloseV2 std2 (constData n c v) (constShortState c)).trades = [t] ∧
      t.direction = "SHORT" ∧ t.exitSignal = "回测结束平仓" := by
  have hpos : (0:ℚ) < 20000000 / (1997 * c) := div_pos (by norm_num) (by positivity)
  unfold forcedCloseV2
  dsimp only [constShortState]
  rw [if_pos hpos]
  rw [if_neg (by decide : ¬(PositionType.shortPosition = PositionType.longPosition))]
  exact ⟨_, rfl, rfl, rfl⟩

theorem bankrupt_length : bankruptData.length = 200 := by
  unfold bankruptData
  rw [List.length_append, List.length_replicate, List.length_replicate]

theorem bankrupt_window (i : ℕ) (h1 : 100 ≤ i) (h2 : i ≤ 197) :
    (bankruptData.drop (i - 100)).take 101 = constData 101 100 1 := by
  unfold bankruptData constData
  rw [List.drop_append_of_le_length (by rw [List.length_replicate]; omega)]
  rw [List.drop_replicate]
  rw [List.take_append_of_le_length (by rw [List.length_replicate]; omega)]
  rw [List.take_replicate]
  congr 1
  omega

theorem bankrupt_prev (i : ℕ) (h1 : 1 ≤ i) (h2 : i ≤ 198) :
    ((bankruptData.getD (i - 1) default)).close = 100 := by
  unfold bankruptData
  rw [List.getD_append _ _ _ _ (by rw [List.length_replicate]; omega)]
  rw [replicate_getD 198 (i - 1) _ _ (by omega)]
  rfl

set_option maxRecDepth 1000000 in
theorem step198_bust : stepV2 std2 bankruptData 198 (constShortState 100) = S199 := by decide

set_option maxRecDepth 1000000 in
theorem step199_bust : stepV2 std2 bankruptData 199 S199 = S200 := by decide

theorem bankrupt_loop : loopV2 std2 bankruptData 100 100 (initStateV2 std2) = S200 := by
  have h100 : stepV2 std2 bankruptData 100 (initStateV2 std2) = constShortState 100 :=
    stepV2_entry_w 100 1 (by norm_num) bankruptData 100 (by omega)
      (bankrupt_window 100 (by omega) (by omega)) (bankrupt_prev 100 (by omega) (by omega))
  have hfix : ∀ i, 101 ≤ i → i < 198 →
      stepV2 std2 bankruptData i (constShortState 100) = constShortState 100 :=
    fun i hi hin => stepV2_short_fix_w 100 1 (by norm_num) bankruptData i (by omega)
      (bankrupt_window i (by omega) (by omega)) (bankrupt_prev i (by omega) (by omega))
  have h1 : loopV2 std2 bankruptData 100 100 (initStateV2 std2)
      = loopV2 std2 bankruptData 101 99 (constShortState 100) := by
    have h := loopV2_peel std2 bankruptData 100 99 (initStateV2 std2)
    rw [h100] at h
    exact h
  have h2 : loopV2 std2 bankruptData 101 99 (constShortState 100)
      = loopV2 std2 bankruptData 198 2 (constShortState 100) := by
    have h := loopV2_add std2 bankruptData 97 2 101 (constShortState 100)
    rw [loopV2_fixpoint std2 bankruptData (constShortState 100) 101 198 hfix 97 101
      (le_refl _) (by omega)] at h
    exact h
  have h3 : loopV2 std2 bankruptData 198 2 (constShortState 100) = S200 := by
    have ha := loopV2_peel std2 bankruptData 198 1 (constShortState 100)
    rw [step198_bust] at ha
    have hb := loopV2_peel std2 bankruptData 199 0 S199
    rw [step199_bust] at hb
    exact ha.trans hb
  exact h1.trans (h2.trans h3)

/-- C1 witness: on the 200-candle constant series at price 100 both
simulators' runs (V1 with no strategy plugged in; V2 at the defaults, whose
loop ends in the always-positive short of `constShortState`) satisfy the
amended conservation statement. -/
theorem capital_conservation_witness :
    (∀ r, runBacktestV1 std1 (none : Option (TradingStrategyS Unit)) ()
        (constData 200 100 1) = .ok r →
        r.finalCapital - r.initialCapital = sumProfitsV1 r.trades) ∧
    (∀ r, runBacktestV2 std2 (constData 200 100 1) = .ok r →
        r.finalCapital - r.initialCapital = sumProfitsV2 r.trades) :=
  capital_conservation std1 (none : Option (TradingStrategyS Unit)) ()
    (constData 200 100 1) std2 (constData 200 100 1)
    (fun q hq => by rw [List.eq_of_mem_replicate hq]; decide)
    (by decide) (by decide) (by decide) (by decide)
    (fun s h => nomatch h)
    (fun q hq => by rw [List.eq_of_mem_replicate hq]; decide)
    (by decide) (by decide) (by decide)
    (by
      have hl : (constData 200 100 1).length - 100 = 200 - 100 := by
        rw [constData_length]
      rw [hl, loopV2_const_run 100 1 (by norm_num) 200 (by norm_num)]
      decide)

/-- C1 counterexample: on `bankruptData` the V2 run returns a result whose
final capital is 0 although the initial capital plus the single trade's
profit is negative: once the stop-out loss exceeds the account and the next
entry deploys the negative capital, conservation fails, so the claim does
not hold for every run that returns a result. -/
theorem capital_conservation_counterexample :
    ∃ r, runBacktestV2 std2 bankruptData = .ok r ∧
      r.finalCapital - r.initialCapital ≠ sumProfitsV2 r.trades := by
  have hfc : forcedCloseV2 std2 bankruptData S200 = S200 := by decide
  refine ⟨computeResultV2 std2 bankruptData S200, ?_, ?_⟩
  · unfold runBacktestV2
    rw [bankrupt_length]
    rw [if_neg (by norm_num : ¬(200 < 200))]
    rw [show (200 - 100 : ℕ) = 100 from by norm_num]
    rw [bankrupt_loop, hfc]
  · decide

/-- C2 (amended): on every constant-price constant-volume series of at least
200 candles with positive price, the V1 simulator yields zero trades under
all five variants (no strategy, trend following, momentum breakout, mean
reversion, combo adaptive from any starting mode), and so does the V2
simulator with the improved bidirectional strategy for any regime/Bollinger
oracle; but the V2 simulator at its defaults yields exactly one trade: a
short opened at the first step and closed by the end-of-run forced close. -/
theorem constant_series_trades (n : ℕ) (hn : 200 ≤ n) (c v : ℚ) (hc : 0 < c) :
    (∀ r, runBacktestV1 std1 (none : Option (TradingStrategyS Unit)) () (constData n c v)
        = .ok r → r.trades = []) ∧
    (∀ r, runBacktestV1 std1 (some trendFollowingStrategy) () (constData n c v)
        = .ok r → r.trades = []) ∧
    (∀ r, runBacktestV1 std1 (some momentumBreakoutStrategy) () (constData n c v)
        = .ok r → r.trades = []) ∧
    (∀ r, runBacktestV1 std1 (some meanReversionStrategy) () (constData n c v)
        = .ok r → r.trades = []) ∧
    (∀ (m : String) r, runBacktestV1 std1 (some comboAdaptiveStrategy) m (constData n c v)
        = .ok r → r.trades = []) ∧
    (∀ (ro : ℕ → String) (bo : ℕ → ℚ × ℚ × ℚ) r,
        runBacktestV2 (imp2 ro bo) (constData n c v) = .ok r → r.trades = []) ∧
    (∀ r, runBacktestV2 std2 (constData n c v) = .ok r →
        ∃ t, r.trades = [t] ∧ t.direction = "SHORT" ∧ t.exitSignal = "回测结束平仓") := by
  refine ⟨?_, ?_, ?_, ?_, ?_, ?_, ?_⟩
  · intro r hr
    unfold runBacktestV1 at hr
    rw [constData_length, if_neg (by omega : ¬n < 200), loopV1_none_run () n hn c v,
      forcedV1_init_skip] at hr
    injection hr with h
    rw [← h]
    rfl
  · intro r hr
    unfold runBacktestV1 at hr
    rw [constData_length, if_neg (by omega : ¬n < 200), loopV1_trend_run n hn c v,
      forcedV1_init_skip] at hr
    injection hr with h
    rw [← h]
    rfl
  · intro r hr
    unfold runBacktestV1 at hr
    rw [constData_length, if_neg (by omega : ¬n < 200), loopV1_momentum_run n hn c v,
      forcedV1_init_skip] at hr
    injection hr with h
    rw [← h]
    rfl
  · intro r hr
    unfold runBacktestV1 at hr
    rw [constData_length, if_neg (by omega : ¬n < 200), loopV1_meanrev_run n hn c v,
      forcedV1_init_skip] at hr
    injection hr with h
    rw [← h]
    rfl
  · intro m r hr
    unfold runBacktestV1 at hr
    rw [constData_length, if_neg (by omega : ¬n < 200), loopV1_combo_run n hn c v m,
      forcedV1_init_skip] at hr
    injection hr with h
    rw [← h]
    rfl
  · intro ro bo r hr
    unfold runBacktestV2 at hr
    rw [constData_length, if_neg (by omega : ¬n < 200), loopV2_improved_run ro bo n hn c v,
      forcedV2_init_skip] at hr
    injection hr with h
    rw [← h]
    rfl
  · intro r hr
    unfold runBacktestV2 at hr
    rw [constData_length, if_neg (by omega : ¬n < 200), loopV2_const_run c v hc n hn] at hr
    obtain ⟨t, ht, htd, hte⟩ := forced_const_trades n (by omega) c v hc
    refine ⟨t, ?_, htd, hte⟩
    injection hr with h
    rw [← h]
    exact ht

/-- C2 witness: the amended statement instantiated on the 200-candle
constant series at price 100, volume 1. -/
theorem constant_series_trades_witness :
    (∀ r, runBacktestV1 std1 (none : Option (TradingStrategyS Unit)) ()
        (constData 200 100 1) = .ok r → r.trades = []) ∧
    (∀ r, runBacktestV1 std1 (some trendFollowingStrategy) () (constData 200 100 1)
        = .ok r → r.trades = []) ∧
    (∀ r, runBacktestV1 std1 (some momentumBreakoutStrategy) () (constData 200 100 1)
        = .ok r → r.trades = []) ∧
    (∀ r, runBacktestV1 std1 (some meanReversionStrategy) () (constData 200 100 1)
        = .ok r → r.trades = []) ∧
    (∀ (m : String) r, runBacktestV1 std1 (some comboAdaptiveStrategy) m
        (constData 200 100 1) = .ok r → r.trades = []) ∧
    (∀ (ro : ℕ → String) (bo : ℕ → ℚ × ℚ × ℚ) r,
        runBacktestV2 (imp2 ro bo) (constData 200 100 1) = .ok r → r.trades = []) ∧
    (∀ r, runBacktestV2 std2 (constData 200 100 1) = .ok r →
        ∃ t, r.trades = [t] ∧ t.direction = "SHORT" ∧ t.exitSignal = "回测结束平仓") :=
  constant_series_trades 200 (by norm_num) 100 1 (by norm_num)

/-- C2 counterexample: on the 200-candle constant series at price 100 the
bidirectional simulator at its default thresholds returns a result with a
nonempty trade list (the short opened at step 100 is force-closed at the
end), refuting "zero trades under every strategy variant". -/
theorem constant_series_trades_counterexample :
    ∃ r, runBacktestV2 std2 (constData 200 100 1) = .ok r ∧ r.trades ≠ [] := by
  obtain ⟨t, ht, htd, hte⟩ := forced_const_trades 200 (by norm_num) 100 1 (by norm_num)
  refine ⟨computeResultV2 std2 (constData 200 100 1)
    (forcedCloseV2 std2 (constData 200 100 1) (constShortState 100)), ?_, ?_⟩
  · unfold runBacktestV2
    rw [constData_length]
    rw [if_neg (by norm_num : ¬(200 < 200))]
    rw [loopV2_const_run 100 1 (by norm_num) 200 (by norm_num)]
  · show (forcedCloseV2 std2 (constData 200 100 1) (constShortState 100)).trades ≠ []
    rw [ht]
    exact List.cons_ne_nil t []

set_option maxRecDepth 1000000 in
/-- C3 counterexample: after the short opened on the flat prefix of
`mismatchData`, the take-profit close at step 101 records the pre-cost
percentage `(entry − cur)/entry = 197/1997` as `ProfitPct`, which differs
from `Profit / (Size × EntryPrice) = 1943/19970` (the latter embeds the
slippage and fee of the exit fill), refuting the unconditional equality. -/
theorem trade_record_consistency_counterexample :
    ∃ t, t ∈ (loopV2 std2 mismatchData 100 2 (initStateV2 std2)).trades ∧
      t.profitPct ≠ t.profit / (t.size * t.entryPrice) := by
  refine ⟨⟨0, 1997/20, "做空", 0, 18027/200, "止盈", "SHORT", 1943000/1997, 197/1997,
    200000/1997⟩, ?_, ?_⟩
  · decide
  · decide

end Spec2Proof
